import Mathlib

/-!
# pge_timetable: calendar dimension generators

A shallow embedding of `src/pge_timetable.c` (a PostgreSQL extension with two
set-returning functions, `generate_timetable_c` and
`generate_daily_timetable_c`) together with theorems about it.

Conventions of the embedding:

* `int`, `int32` and `DateADT` values are mathematical integers (`Int`); each
  arithmetic operation of the C code is followed by `wrap32`, the reduction to
  the signed 32-bit range (PostgreSQL and its extensions are built with
  `-fwrapv`, so signed arithmetic wraps modulo `2^32`).
* `/` and `%` of C are `Int.tdiv` and `Int.tmod` (truncation towards zero).
* A read of one of the static lookup tables returns an `Option`; `none` stands
  for an index outside the table, which is undefined behaviour in C.
* One call of a set-returning function after its first-call block is a function
  from the saved state to the value handed back (`SRF_RETURN_NEXT` with a row, or
  `SRF_RETURN_DONE`) and the new saved state. `SRF_RETURN_DONE` also releases the
  saved state (`end_MultiFuncCall` clears the slot `fn_extra` of the call site),
  so that the next call there is a first call; the whole call, slot included, is
  `generate_timetable_c_srf` and `generate_daily_timetable_c_srf`.
* The PostgreSQL routines `date2j`, `j2date`, `j2day` and the constant
  `POSTGRES_EPOCH_JDATE` are not part of this repository; the daily generator
  takes them as a parameter (`PgHost`). The instance `pg` follows the routines
  of PostgreSQL (`src/backend/utils/adt/datetime.c`) and serves for concrete
  runs only; general theorems quantify over the host.
-/

namespace PgeTimetable

/-! ## 32-bit arithmetic -/

/-- Reduction of an integer to the signed 32-bit range, modulo `2^32`. -/
def wrap32 (x : Int) : Int := (x + 2147483648) % 4294967296 - 2147483648

/-- The value is representable as a signed 32-bit integer. -/
def isInt32 (x : Int) : Prop := -2147483648 ≤ x ∧ x ≤ 2147483647

instance (x : Int) : Decidable (isInt32 x) := by
  unfold isInt32; exact inferInstance

/-- C `a + b` on `int`. -/
def add32 (a b : Int) : Int := wrap32 (a + b)

/-- C `a - b` on `int`. -/
def sub32 (a b : Int) : Int := wrap32 (a - b)

/-- C `a * b` on `int`. -/
def mul32 (a b : Int) : Int := wrap32 (a * b)

/-! ## Lookup tables and calendar arithmetic (lines 63-101) -/

/-- Read `t[i]` of a static table; `none` when `i` is outside the table. -/
def tableGet (t : List Int) (i : Int) : Option Int :=
  if 0 ≤ i then t[i.toNat]? else none

/-- The table `days_per_month[]`; index 0 is a placeholder. -/
def days_per_month : List Int := [0, 31, 28, 31, 30, 31, 30, 31, 31, 30, 31, 30, 31]

/-- The table `month_to_quarter[]`; index 0 is a placeholder. -/
def month_to_quarter : List Int := [0, 1, 1, 1, 2, 2, 2, 3, 3, 3, 4, 4, 4]

/-- The table `month_day_offsets[13]`; index 0 is a placeholder. -/
def month_day_offsets : List Int := [0, 0, 31, 59, 90, 120, 151, 181, 212, 243, 273, 304, 334]

/-- The leap-year expression written inline in `days_in_month` and
`get_day_of_year`: `(year % 4 == 0 && year % 100 != 0) || year % 400 == 0`. -/
def leap_year_expr (year : Int) : Bool :=
  (Int.tmod year 4 == 0 && Int.tmod year 100 != 0) || Int.tmod year 400 == 0

/-- The function `days_in_month(year, month)`. -/
def days_in_month (year month : Int) : Option Int :=
  if month ≠ 2 then tableGet days_per_month month
  else some (if leap_year_expr year then 29 else 28)

/-- The function `get_day_of_year(year, month, day)`. -/
def get_day_of_year (year month day : Int) : Option Int :=
  (tableGet month_day_offsets month).map fun off =>
    let doy := add32 off day
    if month > 2 ∧ leap_year_expr year = true then add32 doy 1 else doy

/-- The function `get_calendar_week(year, day_of_year, jan1_wday)`; the
parameter `year` is not used by the C body either. -/
def get_calendar_week (_year day_of_year jan1_wday : Int) : Int :=
  let jan1_wday := if jan1_wday = 0 then 6 else sub32 jan1_wday 1
  add32 (Int.tdiv (sub32 (add32 day_of_year jan1_wday) 1) 7) 1

/-! ## Set-returning function protocol -/

/-- What one call hands back: `SRF_RETURN_NEXT` with a row, or
`SRF_RETURN_DONE`. -/
inductive Srf (ρ : Type) where
  | next (row : ρ)
  | done
  deriving DecidableEq, Repr

/-- The error raised by `ereport(ERROR, ...)` in a first-call block. -/
inductive SrfError where
  | feature_not_supported
  deriving DecidableEq, Repr

/-- Drive a per-call function `n` times from a saved state, collecting what
each call hands back, and the saved state after the last call. -/
def runN {σ ρ : Type} (step : σ → Option (Srf ρ × σ)) : Nat → σ → Option (List (Srf ρ) × σ)
  | 0, s => some ([], s)
  | n + 1, s =>
    match step s with
    | none => none
    | some (r, s1) =>
      match runN step n s1 with
      | none => none
      | some (rs, s2) => some (r :: rs, s2)

/-! ## Monthly generator (lines 13-34, 103-198) -/

/-- The struct `TimetableEntry`. -/
structure TimetableEntry where
  uid : Int
  y : Int
  q : Int
  m : Int
  days : Int
  ord : Int
  deriving DecidableEq, Repr

/-- The struct `TimetableState`. -/
structure TimetableState where
  start_year : Int
  end_year : Int
  current_year : Int
  current_month : Int
  ord_counter : Int
  total_months : Int
  months_processed : Int
  current_entry : TimetableEntry
  done : Bool
  deriving DecidableEq, Repr

/-- First-call block of `generate_timetable_c`, lines 122-138: the saved state
built from the two arguments (`palloc0` zeroes `current_entry`). -/
def generate_timetable_c_first_call (start_year end_year : Int) : TimetableState :=
  { start_year := start_year
    end_year := end_year
    current_year := start_year
    current_month := 1
    ord_counter := 1
    done := false
    total_months := mul32 (add32 (sub32 end_year start_year) 1) 12
    months_processed := 0
    current_entry := ⟨0, 0, 0, 0, 0, 0⟩ }

/-- The whole first-call block of `generate_timetable_c`, lines 112-150; the
only error it raises is the one of lines 141-144, when the calling context
does not accept a composite result (`composite = false`). -/
def generate_timetable_c_open (composite : Bool) (start_year end_year : Int) :
    Except SrfError TimetableState :=
  if composite then .ok (generate_timetable_c_first_call start_year end_year)
  else .error .feature_not_supported

/-- One call of `generate_timetable_c` after the first-call block, lines
152-197. With `done` the state is returned as the per-call part leaves it; its
release by `SRF_RETURN_DONE` is in `generate_timetable_c_srf`. -/
def generate_timetable_c (state : TimetableState) :
    Option (Srf TimetableEntry × TimetableState) :=
  if state.months_processed ≥ state.total_months then some (.done, state)
  else
    match tableGet month_to_quarter state.current_month,
          days_in_month state.current_year state.current_month with
    | some q, some days =>
      let entry : TimetableEntry :=
        { q := q
          uid := add32 (add32 20000 (mul32 (sub32 state.current_year 1950) 12))
                   (sub32 state.current_month 1)
          y := state.current_year
          m := state.current_month
          days := days
          ord := state.ord_counter }
      let month1 := add32 state.current_month 1
      some (.next entry,
        { state with
          current_entry := entry
          ord_counter := add32 state.ord_counter 1
          current_month := if month1 > 12 then 1 else month1
          current_year := if month1 > 12 then add32 state.current_year 1 else state.current_year
          months_processed := add32 state.months_processed 1 })
    | _, _ => none

/-! ## The host (PostgreSQL) -/

/-- A calendar date as `j2date` writes it through its three out-parameters. -/
structure YMD where
  year : Int
  month : Int
  day : Int
  deriving DecidableEq, Repr

/-- What the daily generator uses from PostgreSQL: the constant
`POSTGRES_EPOCH_JDATE` and the routines `date2j`, `j2date`, `j2day`. -/
structure PgHost where
  POSTGRES_EPOCH_JDATE : Int
  date2j : Int → Int → Int → Int
  j2date : Int → YMD
  j2day : Int → Int

/-- Conversion of an `int` to `unsigned int`. -/
def u32 (x : Int) : Int := x % 4294967296

/-- PostgreSQL's `date2j` (datetime.c), the instance used for concrete runs. -/
def pg_date2j (year month day : Int) : Int :=
  let month1 := if month > 2 then add32 month 1 else add32 month 13
  let year1 := if month > 2 then add32 year 4800 else add32 year 4799
  let century := Int.tdiv year1 100
  let julian := sub32 (mul32 year1 365) 32167
  let julian := add32 julian (add32 (sub32 (Int.tdiv year1 4) century) (Int.tdiv century 4))
  add32 julian (add32 (Int.tdiv (mul32 7834 month1) 256) day)

/-- PostgreSQL's `j2date` (datetime.c), the instance used for concrete runs;
its intermediate values are `unsigned int`. -/
def pg_j2date (jd : Int) : YMD :=
  let julian := u32 (u32 jd + 32044)
  let quad := julian / 146097
  let extra := u32 (u32 (julian - u32 (quad * 146097)) * 4 + 3)
  let julian := u32 (julian + 60 + quad * 3 + extra / 146097)
  let quad := julian / 1461
  let julian := u32 (julian - u32 (quad * 1461))
  let y := wrap32 (u32 (julian * 4) / 1461)
  let julian := u32 ((if y ≠ 0 then u32 (julian + 305) % 365 else u32 (julian + 306) % 366) + 123)
  let y := wrap32 (u32 (y + quad * 4))
  let quad := u32 (julian * 2141) / 65536
  { year := sub32 y 4800
    day := wrap32 (u32 (julian - u32 (7834 * quad) / 256))
    month := wrap32 ((quad + 10) % 12 + 1) }

/-- PostgreSQL's `j2day` (datetime.c), the instance used for concrete runs. -/
def pg_j2day (date : Int) : Int :=
  let date := Int.tmod (add32 date 1) 7
  if date < 0 then add32 date 7 else date

/-- PostgreSQL as host. -/
def pg : PgHost :=
  { POSTGRES_EPOCH_JDATE := 2451545
    date2j := pg_date2j
    j2date := pg_j2date
    j2day := pg_j2day }

/-! ## Weekday cache (lines 213-245) -/

/-- The struct `YearWdayCache`. -/
structure YearWdayCache where
  year : Int
  jan1_wday : Int
  deriving DecidableEq, Repr

/-- The constant `WDAY_CACHE_SIZE`. -/
def WDAY_CACHE_SIZE : Nat := 10

/-- The two static variables `wday_cache[WDAY_CACHE_SIZE]` and `cache_entries`
(an `int` that counts the filled slots). -/
structure WdayCache where
  wday_cache : List YearWdayCache
  cache_entries : Nat
  deriving DecidableEq, Repr

/-- The static storage as the program starts: zero-initialised. -/
def WdayCache.static_init : WdayCache :=
  { wday_cache := List.replicate WDAY_CACHE_SIZE ⟨0, 0⟩, cache_entries := 0 }

/-- The function `get_cached_jan1_wday(year)`: the value returned and the
static cache after the call. The `for` loop over the first `cache_entries`
slots is a search for the first slot holding `year`. -/
def get_cached_jan1_wday (H : PgHost) (c : WdayCache) (year : Int) : Int × WdayCache :=
  match (c.wday_cache.take c.cache_entries).find? (fun e => e.year == year) with
  | some e => (e.jan1_wday, c)
  | none =>
    let jan1_wday := H.j2day (H.date2j year 1 1)
    if c.cache_entries < WDAY_CACHE_SIZE then
      (jan1_wday,
        { wday_cache := c.wday_cache.set c.cache_entries ⟨year, jan1_wday⟩
          cache_entries := c.cache_entries + 1 })
    else (jan1_wday, c)

/-! ## Daily generator (lines 36-61, 247-368) -/

/-- The struct `DailyTimetableEntry`. -/
structure DailyTimetableEntry where
  uid : Int
  date : Int
  y : Int
  q : Int
  m : Int
  d : Int
  w1 : Int
  dow : Int
  doy : Int
  is_weekend : Bool
  ord : Int
  deriving DecidableEq, Repr

/-- The struct `DailyTimetableState`. -/
structure DailyTimetableState where
  start_date : Int
  end_date : Int
  current_date : Int
  ord_counter : Int
  total_days : Int
  days_processed : Int
  current_entry : DailyTimetableEntry
  done : Bool
  deriving DecidableEq, Repr

/-- First-call block of `generate_daily_timetable_c`, lines 270-291: `today` is
what `get_current_date()` returned, an argument is `none` when it is SQL NULL,
and `c` is the static weekday cache before the call. The result is the static
cache after the call and the saved state (`palloc0` zeroes `current_entry` and
`done`). -/
def generate_daily_timetable_c_first_call (today : Int) (start_arg end_arg : Option Int)
    (c : WdayCache) : WdayCache × DailyTimetableState :=
  let start_date := match start_arg with
    | none => sub32 today 100
    | some d => d
  let end_date := match end_arg with
    | none => add32 today 100
    | some d => d
  ({ c with cache_entries := 0 },
   { start_date := start_date
     end_date := end_date
     current_date := start_date
     ord_counter := 1
     total_days := add32 (sub32 end_date start_date) 1
     days_processed := 0
     current_entry := ⟨0, 0, 0, 0, 0, 0, 0, 0, 0, false, 0⟩
     done := false })

/-- The whole first-call block of `generate_daily_timetable_c`, lines 261-303;
the only error it raises is the one of lines 294-297, when the calling context
does not accept a composite result (`composite = false`). -/
def generate_daily_timetable_c_open (composite : Bool) (today : Int)
    (start_arg end_arg : Option Int) (c : WdayCache) :
    Except SrfError (WdayCache × DailyTimetableState) :=
  if composite then .ok (generate_daily_timetable_c_first_call today start_arg end_arg c)
  else .error .feature_not_supported

/-- One call of `generate_daily_timetable_c` after the first-call block, lines
305-367, on the static weekday cache and the saved state. With `done` the state
is returned as the per-call part leaves it; its release by `SRF_RETURN_DONE` is
in `generate_daily_timetable_c_srf`. -/
def generate_daily_timetable_c (H : PgHost) (cs : WdayCache × DailyTimetableState) :
    Option (Srf DailyTimetableEntry × (WdayCache × DailyTimetableState)) :=
  let state := cs.2
  if state.days_processed ≥ state.total_days then some (.done, cs)
  else
    let ymd := H.j2date (add32 state.current_date H.POSTGRES_EPOCH_JDATE)
    let dow := H.j2day (add32 state.current_date H.POSTGRES_EPOCH_JDATE)
    let iso_dow := if dow = 0 then 7 else dow
    match get_day_of_year ymd.year ymd.month ymd.day, tableGet month_to_quarter ymd.month with
    | some day_of_year, some q =>
      let jc := get_cached_jan1_wday H cs.1 ymd.year
      let entry : DailyTimetableEntry :=
        { uid := add32 2000000
            (add32 (sub32 state.current_date (H.date2j 1950 1 1)) H.POSTGRES_EPOCH_JDATE)
          date := state.current_date
          y := ymd.year
          q := q
          m := ymd.month
          d := ymd.day
          w1 := get_calendar_week ymd.year day_of_year jc.1
          dow := iso_dow
          doy := day_of_year
          is_weekend := decide (dow = 0 ∨ dow = 6)
          ord := state.ord_counter }
      some (.next entry,
        (jc.2,
         { state with
           current_entry := entry
           ord_counter := add32 state.ord_counter 1
           current_date := add32 state.current_date 1
           days_processed := add32 state.days_processed 1 }))
    | _, _ => none


/-! ## The Gregorian month length as the specification words it -/

/-- The leap-year rule in the words of the specification:
`(year mod 4 = 0 and year mod 100 ≠ 0) or year mod 400 = 0`, with the
mathematical (non-negative) remainder. -/
def gregorian_leap_year (year : Int) : Prop :=
  (year % 4 = 0 ∧ year % 100 ≠ 0) ∨ year % 400 = 0

instance (year : Int) : Decidable (gregorian_leap_year year) := by
  unfold gregorian_leap_year; exact inferInstance

/-- The month lengths of a common year, January first. -/
def gregorian_month_lengths : List Int := [31, 28, 31, 30, 31, 30, 31, 31, 30, 31, 30, 31]

/-- The month length in the words of the specification: the table value of
the month, except that month 2 has 29 days in a leap year. -/
def gregorian_days_in_month (year month : Int) : Int :=
  if month = 2 ∧ gregorian_leap_year year then 29
  else gregorian_month_lengths.getD (month - 1).toNat 0

/-! ## Conditions and drivers for the weekday cache -/

/-- The condition on the static weekday cache: the array has its
`WDAY_CACHE_SIZE` slots, at most that many are filled, and each of the first
`cache_entries` slots pairs a year with the weekday of its January 1, as
`j2day(date2j(year, 1, 1))` computes it. -/
def cache_valid (H : PgHost) (c : WdayCache) : Prop :=
  c.wday_cache.length = WDAY_CACHE_SIZE ∧ c.cache_entries ≤ WDAY_CACHE_SIZE ∧
  ∀ e ∈ c.wday_cache.take c.cache_entries, e.jan1_wday = H.j2day (H.date2j e.year 1 1)

instance (H : PgHost) (c : WdayCache) : Decidable (cache_valid H c) := by
  unfold cache_valid; exact inferInstance

/-- The lookup of `get_cached_jan1_wday` hits: one of the first `cache_entries`
slots holds the year. -/
def cache_hit (c : WdayCache) (year : Int) : Prop :=
  ∃ e ∈ c.wday_cache.take c.cache_entries, e.year = year

instance (c : WdayCache) (year : Int) : Decidable (cache_hit c year) := by
  unfold cache_hit; exact inferInstance

/-- The static cache after a sequence of calls of `get_cached_jan1_wday`, one
for each year of the list, in order. -/
def cache_calls (H : PgHost) (years : List Int) (c : WdayCache) : WdayCache :=
  years.foldl (fun c year => (get_cached_jan1_wday H c year).2) c

/-! ## Two daily runs over the one static weekday cache -/

/-- A call made on behalf of one of two daily runs, named `false` and `true`:
the first-call block of the run with its arguments, or one per-call part. -/
inductive DailyCall where
  | first_call (run : Bool) (today : Int) (start_arg end_arg : Option Int)
  | next (run : Bool)
  deriving DecidableEq, Repr

/-- The run on whose behalf a call is made. -/
def DailyCall.run : DailyCall → Bool
  | .first_call run _ _ _ => run
  | .next run => run

/-- The static weekday cache together with the saved states of the two runs; a
run whose first-call block has not been executed has no saved state. -/
structure TwoRuns where
  cache : WdayCache
  run_false : Option DailyTimetableState
  run_true : Option DailyTimetableState
  deriving DecidableEq, Repr

/-- The saved state of a run. -/
def TwoRuns.saved (sys : TwoRuns) (run : Bool) : Option DailyTimetableState :=
  if run then sys.run_true else sys.run_false

/-- Store the static cache and the saved state of a run after a call. -/
def TwoRuns.save (sys : TwoRuns) (run : Bool) (c : WdayCache) (st : DailyTimetableState) :
    TwoRuns :=
  if run then { cache := c, run_false := sys.run_false, run_true := some st }
  else { cache := c, run_false := some st, run_true := sys.run_true }

/-- One call on the shared storage: what it hands back, tagged with the run,
and the storage after it. A per-call part for a run without saved state does
not occur (`none`). -/
def two_runs_call (H : PgHost) (sys : TwoRuns) :
    DailyCall → Option (List (Bool × Srf DailyTimetableEntry) × TwoRuns)
  | .first_call run today start_arg end_arg =>
    let cs := generate_daily_timetable_c_first_call today start_arg end_arg sys.cache
    some ([], sys.save run cs.1 cs.2)
  | .next run =>
    match sys.saved run with
    | none => none
    | some st =>
      match generate_daily_timetable_c H (sys.cache, st) with
      | none => none
      | some (o, cs) => some ([(run, o)], sys.save run cs.1 cs.2)

/-- A sequence of calls on the shared storage, in order. -/
def two_runs_exec (H : PgHost) :
    List DailyCall → TwoRuns → Option (List (Bool × Srf DailyTimetableEntry) × TwoRuns)
  | [], sys => some ([], sys)
  | call :: rest, sys =>
    match two_runs_call H sys call with
    | none => none
    | some (o, sys1) =>
      match two_runs_exec H rest sys1 with
      | none => none
      | some (os, sys2) => some (o ++ os, sys2)

/-- The uid expression of line 164 of `generate_timetable_c`, as a function of
the year and the month of the cursor. -/
def monthly_uid (year month : Int) : Int :=
  add32 (add32 20000 (mul32 (sub32 year 1950) 12)) (sub32 month 1)

/-- The number of days of the year before a month, in the words of the
specification: the sum of `days_in_month(year, k)` over `k = 1..month-1`;
`none` if one of the summands is. -/
def days_before_month (year month : Int) : Option Int :=
  ((List.range (month - 1).toNat).mapM (fun k => days_in_month year ((k : Int) + 1))).map
    List.sum

/-! ## A whole call, with the protocol of set-returning functions -/

/-- What the slot `fcinfo->flinfo->fn_extra` of the call site holds after a
call: `SRF_RETURN_NEXT` keeps the saved state there, `SRF_RETURN_DONE` runs
`end_MultiFuncCall`, which frees the saved state and clears the slot. -/
def srf_return {ρ σ : Type} (o : Srf ρ) (state : σ) : Option σ :=
  match o with
  | .next _ => some state
  | .done => none

/-- One whole call of `generate_timetable_c` (lines 105-198) with the arguments
`start_year` and `end_year`, in a calling context that accepts a composite
result. `fn_extra` is the slot of the call site: it is empty exactly when
`SRF_IS_FIRSTCALL()` holds, and then the first-call block builds the saved
state from the arguments; the per-call part follows in either case. -/
def generate_timetable_c_srf (start_year end_year : Int) (fn_extra : Option TimetableState) :
    Option (Srf TimetableEntry × Option TimetableState) :=
  let state := match fn_extra with
    | none => generate_timetable_c_first_call start_year end_year
    | some state => state
  match generate_timetable_c state with
  | none => none
  | some (o, state1) => some (o, srf_return o state1)

/-- One whole call of `generate_daily_timetable_c` (lines 249-368) with the
arguments `start_arg` and `end_arg`, in a calling context that accepts a
composite result, on the static weekday cache and the slot `fn_extra` of the
call site; `today` is what `get_current_date()` returns in a first call. -/
def generate_daily_timetable_c_srf (H : PgHost) (today : Int) (start_arg end_arg : Option Int)
    (cf : WdayCache × Option DailyTimetableState) :
    Option (Srf DailyTimetableEntry × (WdayCache × Option DailyTimetableState)) :=
  let cs := match cf.2 with
    | none => generate_daily_timetable_c_first_call today start_arg end_arg cf.1
    | some state => (cf.1, state)
  match generate_daily_timetable_c H cs with
  | none => none
  | some (o, cs1) => some (o, (cs1.1, srf_return o cs1.2))

/-! ## The current date (lines 200-211) -/

/-- The fields of `struct pg_tm` that `get_current_date` reads; the host's
`timestamp2tm` writes them for the timestamp of `GetCurrentTimestamp()`.
PostgreSQL's `timestamp2tm` writes the full year in `tm_year` (2021 for 2021)
and the month counted from 1 in `tm_mon`. -/
structure PgTm where
  tm_year : Int
  tm_mon : Int
  tm_mday : Int
  deriving DecidableEq, Repr

/-- The function `get_current_date()`:
`date2j(tm.tm_year + 1900, tm.tm_mon + 1, tm.tm_mday) - POSTGRES_EPOCH_JDATE`,
on what `timestamp2tm` wrote. -/
def get_current_date (H : PgHost) (tm : PgTm) : Int :=
  sub32 (H.date2j (add32 tm.tm_year 1900) (add32 tm.tm_mon 1) tm.tm_mday)
    H.POSTGRES_EPOCH_JDATE

/-- The date of the host clock as a `DateADT`, the `today` of the
specification: the Julian day of the calendar date that `timestamp2tm` wrote,
counted from `POSTGRES_EPOCH_JDATE`. -/
def host_today (H : PgHost) (tm : PgTm) : Int :=
  sub32 (H.date2j tm.tm_year tm.tm_mon tm.tm_mday) H.POSTGRES_EPOCH_JDATE

/-! ## Arithmetic facts -/

theorem wrap32_of_fits {x : Int} (h1 : -2147483648 ≤ x) (h2 : x ≤ 2147483647) : wrap32 x = x := by
  unfold wrap32; omega

theorem wrap32_range (x : Int) : -2147483648 ≤ wrap32 x ∧ wrap32 x ≤ 2147483647 := by
  unfold wrap32; omega

theorem add32_wrap32_left (a b : Int) : add32 (wrap32 a) b = wrap32 (a + b) := by
  unfold add32 wrap32; omega

theorem add32_wrap32_right (a b : Int) : add32 a (wrap32 b) = wrap32 (a + b) := by
  unfold add32 wrap32; omega

theorem sub32_wrap32_left (a b : Int) : sub32 (wrap32 a) b = wrap32 (a - b) := by
  unfold sub32 wrap32; omega

theorem mul32_wrap32_left (a : Int) : mul32 (wrap32 a) 12 = wrap32 (a * 12) := by
  unfold mul32 wrap32; omega

/-! ## Driving a generator -/

theorem runN_zero {σ ρ : Type} (step : σ → Option (Srf ρ × σ)) (s : σ) :
    runN step 0 s = some ([], s) := rfl

theorem runN_succ_of_step {σ ρ : Type} {step : σ → Option (Srf ρ × σ)} {n : Nat} {s s1 s2 : σ}
    {r : Srf ρ} {rs : List (Srf ρ)} (h1 : step s = some (r, s1))
    (h2 : runN step n s1 = some (rs, s2)) : runN step (n + 1) s = some (r :: rs, s2) := by
  simp [runN, h1, h2]

/-- Appending one more call whose result is `done`. -/
theorem runN_then_done {σ ρ : Type} (step : σ → Option (Srf ρ × σ)) :
    ∀ (n : Nat) (s s1 : σ) (outs : List (Srf ρ)), runN step n s = some (outs, s1) →
      step s1 = some (Srf.done, s1) → runN step (n + 1) s = some (outs ++ [Srf.done], s1) := by
  intro n
  induction n with
  | zero =>
    intro s s1 outs h hd
    simp [runN] at h
    obtain ⟨h1, h2⟩ := h
    subst h1 h2
    simp [runN, hd]
  | succ n ih =>
    intro s s1 outs h hd
    rw [runN] at h
    cases hs : step s with
    | none => simp [hs] at h
    | some p =>
      obtain ⟨r, t⟩ := p
      rw [hs] at h
      cases ht : runN step n t with
      | none => simp [ht] at h
      | some q =>
        obtain ⟨rs, t2⟩ := q
        simp [ht] at h
        obtain ⟨h1, h2⟩ := h
        subst h1 h2
        have := ih t t2 rs ht hd
        exact runN_succ_of_step hs this

/-- Rows produced under an invariant indexed by the number of rows already
produced. -/
theorem runN_rows {σ ρ : Type} (step : σ → Option (Srf ρ × σ)) (Inv : Nat → σ → Prop)
    (P : Nat → ρ → Prop) (N : Nat)
    (hstep : ∀ j s, j < N → Inv j s →
      ∃ r s1, step s = some (Srf.next r, s1) ∧ P j r ∧ Inv (j + 1) s1) :
    ∀ (n j : Nat) (s : σ), j + n = N → Inv j s →
      ∃ (rows : List ρ) (s1 : σ), runN step n s = some (rows.map Srf.next, s1) ∧ rows.length = n ∧
        (∀ i r, rows[i]? = some r → P (j + i) r) ∧ Inv N s1 := by
  intro n
  induction n with
  | zero =>
    intro j s hj hinv
    refine ⟨[], s, rfl, rfl, ?_, ?_⟩
    · intro i r h; simp at h
    · have : j = N := by omega
      subst this; exact hinv
  | succ n ih =>
    intro j s hj hinv
    obtain ⟨r, s1, hs, hP, hinv1⟩ := hstep j s (by omega) hinv
    obtain ⟨rows, s2, hrun, hlen, hrows, hfin⟩ := ih (j + 1) s1 (by omega) hinv1
    refine ⟨r :: rows, s2, ?_, by simp [hlen], ?_, hfin⟩
    · exact runN_succ_of_step hs hrun
    · intro i x hx
      cases i with
      | zero =>
        simp at hx; subst hx; simpa using hP
      | succ i =>
        simp at hx
        have := hrows i x hx
        have e : j + (i + 1) = j + 1 + i := by omega
        rw [e]; exact this


/-! ## Table reads -/

theorem month_to_quarter_get (m : Int) (h1 : 1 ≤ m) (h2 : m ≤ 12) :
    tableGet month_to_quarter m = some ((m - 1) / 3 + 1) := by
  interval_cases m <;> decide

theorem days_in_month_isSome (y m : Int) (h1 : 1 ≤ m) (h2 : m ≤ 12) :
    ∃ d, days_in_month y m = some d := by
  unfold days_in_month
  by_cases h : m = 2
  · simp [h]
  · simp only [ne_eq, h, not_false_eq_true, if_true]
    interval_cases m <;> simp [tableGet, days_per_month]

/-! ## Monthly generator: one call -/

/-- A call in a state with months left and the month cursor in 1..12 hands
back the row of the cursor and advances the cursor by one month. -/
theorem generate_timetable_c_active (s : TimetableState)
    (hlt : s.months_processed < s.total_months)
    (h1 : 1 ≤ s.current_month) (h2 : s.current_month ≤ 12) :
    ∃ days, days_in_month s.current_year s.current_month = some days ∧
      generate_timetable_c s =
        some (Srf.next
          { uid := add32 (add32 20000 (mul32 (sub32 s.current_year 1950) 12))
                     (sub32 s.current_month 1)
            y := s.current_year
            q := (s.current_month - 1) / 3 + 1
            m := s.current_month
            days := days
            ord := s.ord_counter },
          { s with
            current_entry :=
              { uid := add32 (add32 20000 (mul32 (sub32 s.current_year 1950) 12))
                         (sub32 s.current_month 1)
                y := s.current_year
                q := (s.current_month - 1) / 3 + 1
                m := s.current_month
                days := days
                ord := s.ord_counter }
            ord_counter := add32 s.ord_counter 1
            current_month := if s.current_month = 12 then 1 else s.current_month + 1
            current_year :=
              if s.current_month = 12 then add32 s.current_year 1 else s.current_year
            months_processed := add32 s.months_processed 1 }) := by
  obtain ⟨d, hd⟩ := days_in_month_isSome s.current_year s.current_month h1 h2
  refine ⟨d, hd, ?_⟩
  have hq := month_to_quarter_get s.current_month h1 h2
  have hm : add32 s.current_month 1 = s.current_month + 1 := by
    unfold add32 wrap32; omega
  unfold generate_timetable_c
  rw [if_neg (by omega), hq, hd]
  simp only [hm]
  by_cases h12 : s.current_month = 12
  · simp [h12]
  · have : ¬ (s.current_month + 1 > 12) := by omega
    simp [h12, this]


theorem generate_timetable_c_exhausted (s : TimetableState)
    (h : s.months_processed ≥ s.total_months) : generate_timetable_c s = some (Srf.done, s) := by
  unfold generate_timetable_c
  rw [if_pos h]

/-- The invariant of the monthly run, indexed by the number `j` of rows handed
back so far, is kept by one call, and the row handed back is the one of
position `j`. -/
theorem monthly_step_inv (start_year end_year : Int) (N : Nat)
    (hs1 : -2147483648 ≤ start_year) (he2 : end_year ≤ 2147483647)
    (hNi : (N : Int) = (end_year - start_year + 1) * 12) (hfit : (N : Int) ≤ 2147483647)
    (j : Nat) (s : TimetableState) (hj : j < N)
    (ht : s.total_months = (N : Int)) (hp : s.months_processed = (j : Int))
    (ho : s.ord_counter = wrap32 ((j : Int) + 1)) (hm : s.current_month = (j : Int) % 12 + 1)
    (hy : s.current_year = wrap32 (start_year + (j : Int) / 12)) :
    ∃ r s1, generate_timetable_c s = some (Srf.next r, s1) ∧
      (r.y = start_year + (j : Int) / 12 ∧ r.m = (j : Int) % 12 + 1 ∧ r.ord = (j : Int) + 1) ∧
      (s1.total_months = (N : Int) ∧ s1.months_processed = ((j + 1 : Nat) : Int) ∧
        s1.ord_counter = wrap32 (((j + 1 : Nat) : Int) + 1) ∧
        s1.current_month = ((j + 1 : Nat) : Int) % 12 + 1 ∧
        s1.current_year = wrap32 (start_year + ((j + 1 : Nat) : Int) / 12)) := by
  obtain ⟨days, -, hstep⟩ := generate_timetable_c_active s (by omega) (by omega) (by omega)
  refine ⟨_, _, hstep, ?_, ?_⟩
  · clear hstep
    refine ⟨?_, hm, ?_⟩
    · show s.current_year = _
      rw [hy]; exact wrap32_of_fits (by omega) (by omega)
    · show s.ord_counter = _
      rw [ho]; exact wrap32_of_fits (by omega) (by omega)
  · clear hstep
    refine ⟨ht, ?_, ?_, ?_, ?_⟩
    · show add32 s.months_processed 1 = _
      rw [hp]; push_cast; exact wrap32_of_fits (by omega) (by omega)
    · show add32 s.ord_counter 1 = _
      rw [ho, add32_wrap32_left]; push_cast; rfl
    · show (if s.current_month = 12 then 1 else s.current_month + 1) = _
      rw [hm]; push_cast; split <;> omega
    · show (if s.current_month = 12 then add32 s.current_year 1 else s.current_year) = _
      rw [hm, hy, add32_wrap32_left]; push_cast
      split
      · congr 1; omega
      · congr 1; omega

/-! ## Monthly generator: the whole run -/

/-- Claim C1. For every `start_year ≤ end_year` (32-bit arguments) whose month
count `(end_year - start_year + 1) * 12` fits in a signed 32-bit integer,
driving the per-call function from the freshly initialised state hands back
exactly that many rows and then `done`; the row at 0-based position `k` (the
`k+1`-th call) has `y = start_year + k div 12`, `m = (k mod 12) + 1` and
`ord = k + 1`, and rows are in strictly ascending `(y, m)` order. -/
theorem monthly_sequence_contents (start_year end_year : Int)
    (hs : isInt32 start_year) (he : isInt32 end_year) (hle : start_year ≤ end_year)
    (hfit : (end_year - start_year + 1) * 12 ≤ 2147483647) :
    ∃ (rows : List TimetableEntry) (final : TimetableState),
      runN generate_timetable_c (((end_year - start_year + 1) * 12).toNat + 1)
          (generate_timetable_c_first_call start_year end_year)
        = some (rows.map Srf.next ++ [Srf.done], final) ∧
      rows.length = ((end_year - start_year + 1) * 12).toNat ∧
      (∀ (k : Nat) (r : TimetableEntry), rows[k]? = some r →
        r.y = start_year + (k : Int) / 12 ∧ r.m = (k : Int) % 12 + 1 ∧ r.ord = (k : Int) + 1) ∧
      (∀ (i j : Nat) (ri rj : TimetableEntry), i < j → rows[i]? = some ri → rows[j]? = some rj →
        ri.y < rj.y ∨ (ri.y = rj.y ∧ ri.m < rj.m)) := by
  obtain ⟨hs1, hs2⟩ := hs
  obtain ⟨he1, he2⟩ := he
  generalize hN : ((end_year - start_year + 1) * 12).toNat = N
  have hNi : (N : Int) = (end_year - start_year + 1) * 12 := by omega
  have key := runN_rows generate_timetable_c
    (fun j s => s.total_months = (N : Int) ∧ s.months_processed = (j : Int) ∧
      s.ord_counter = wrap32 ((j : Int) + 1) ∧ s.current_month = (j : Int) % 12 + 1 ∧
      s.current_year = wrap32 (start_year + (j : Int) / 12))
    (fun k r => r.y = start_year + (k : Int) / 12 ∧ r.m = (k : Int) % 12 + 1 ∧
      r.ord = (k : Int) + 1) N
    (fun j s hj ⟨ht, hp, ho, hm, hy⟩ =>
      monthly_step_inv start_year end_year N hs1 he2 hNi (by omega) j s hj ht hp ho hm hy)
    N 0 (generate_timetable_c_first_call start_year end_year) (by omega)
    (by
      refine ⟨?_, rfl, rfl, rfl, ?_⟩
      · show mul32 (add32 (sub32 end_year start_year) 1) 12 = _
        have h1 : sub32 end_year start_year = end_year - start_year :=
          wrap32_of_fits (by omega) (by omega)
        have h2 : add32 (end_year - start_year) 1 = end_year - start_year + 1 :=
          wrap32_of_fits (by omega) (by omega)
        rw [h1, h2, hNi]
        exact wrap32_of_fits (by omega) (by omega)
      · show start_year = _
        simp only [Nat.cast_zero, Int.zero_ediv, add_zero]
        exact (wrap32_of_fits hs1 hs2).symm)
  obtain ⟨rows, final, hrun, hlen, hrows, hfin⟩ := key
  refine ⟨rows, final, ?_, hlen, ?_, ?_⟩
  · exact runN_then_done _ _ _ _ _ hrun
      (generate_timetable_c_exhausted final (by rw [hfin.1, hfin.2.1]))
  · intro k r hk
    have := hrows k r hk
    simpa using this
  · intro i j ri rj hij hi hj
    have h1 := hrows i ri hi
    have h2 := hrows j rj hj
    simp only [Nat.zero_add] at h1 h2
    rw [h1.1, h1.2.1, h2.1, h2.2.1]
    omega

/-- Witness for C1: bounds 2020..2021 give 24 rows, months 1..12 twice, and
the 25th call is `done`. -/
theorem monthly_sequence_contents_witness :
    (isInt32 2020 ∧ isInt32 2021 ∧ (2020 : Int) ≤ 2021 ∧
      ((2021 : Int) - 2020 + 1) * 12 ≤ 2147483647) ∧
    (∃ (rows : List TimetableEntry) (final : TimetableState),
      runN generate_timetable_c ((((2021 : Int) - 2020 + 1) * 12).toNat + 1)
          (generate_timetable_c_first_call 2020 2021)
        = some (rows.map Srf.next ++ [Srf.done], final) ∧
      rows.length = (((2021 : Int) - 2020 + 1) * 12).toNat ∧
      (∀ (k : Nat) (r : TimetableEntry), rows[k]? = some r →
        r.y = 2020 + (k : Int) / 12 ∧ r.m = (k : Int) % 12 + 1 ∧ r.ord = (k : Int) + 1) ∧
      (∀ (i j : Nat) (ri rj : TimetableEntry), i < j → rows[i]? = some ri → rows[j]? = some rj →
        ri.y < rj.y ∨ (ri.y = rj.y ∧ ri.m < rj.m))) ∧
    (runN generate_timetable_c 25 (generate_timetable_c_first_call 2020 2021)).map
        (fun p => p.1.map (fun o => match o with
          | Srf.next r => some (r.y, r.m, r.ord)
          | Srf.done => none))
      = some [some (2020, 1, 1), some (2020, 2, 2), some (2020, 3, 3), some (2020, 4, 4),
          some (2020, 5, 5), some (2020, 6, 6), some (2020, 7, 7), some (2020, 8, 8),
          some (2020, 9, 9), some (2020, 10, 10), some (2020, 11, 11), some (2020, 12, 12),
          some (2021, 1, 13), some (2021, 2, 14), some (2021, 3, 15), some (2021, 4, 16),
          some (2021, 5, 17), some (2021, 6, 18), some (2021, 7, 19), some (2021, 8, 20),
          some (2021, 9, 21), some (2021, 10, 22), some (2021, 11, 23), some (2021, 12, 24),
          none] :=
  ⟨by decide,
   monthly_sequence_contents 2020 2021 (by decide) (by decide) (by decide) (by decide),
   by decide⟩


/-! ## Daily generator: one call -/

theorem month_day_offsets_get (m : Int) (h1 : 1 ≤ m) (h2 : m ≤ 12) :
    ∃ off, tableGet month_day_offsets m = some off := by
  interval_cases m <;> simp [tableGet, month_day_offsets]

theorem get_day_of_year_isSome (y m d : Int) (h1 : 1 ≤ m) (h2 : m ≤ 12) :
    ∃ doy, get_day_of_year y m d = some doy := by
  obtain ⟨off, hoff⟩ := month_day_offsets_get m h1 h2
  unfold get_day_of_year
  rw [hoff]
  exact ⟨_, rfl⟩

/-- A call in a state with days left, when the host decomposes the cursor
date into a month in 1..12, hands back a row for the cursor date and advances
the cursor by one day. -/
theorem generate_daily_timetable_c_active (H : PgHost) (c : WdayCache)
    (s : DailyTimetableState) (hlt : s.days_processed < s.total_days)
    (h1 : 1 ≤ (H.j2date (add32 s.current_date H.POSTGRES_EPOCH_JDATE)).month)
    (h2 : (H.j2date (add32 s.current_date H.POSTGRES_EPOCH_JDATE)).month ≤ 12) :
    ∃ (r : DailyTimetableEntry) (c1 : WdayCache),
      generate_daily_timetable_c H (c, s) =
        some (Srf.next r,
          (c1, { s with
            current_entry := r
            ord_counter := add32 s.ord_counter 1
            current_date := add32 s.current_date 1
            days_processed := add32 s.days_processed 1 })) ∧
      r.date = s.current_date ∧ r.ord = s.ord_counter ∧
      r.uid = add32 2000000
        (add32 (sub32 s.current_date (H.date2j 1950 1 1)) H.POSTGRES_EPOCH_JDATE) := by
  obtain ⟨doy, hdoy⟩ := get_day_of_year_isSome
    (H.j2date (add32 s.current_date H.POSTGRES_EPOCH_JDATE)).year
    (H.j2date (add32 s.current_date H.POSTGRES_EPOCH_JDATE)).month
    (H.j2date (add32 s.current_date H.POSTGRES_EPOCH_JDATE)).day h1 h2
  have hq := month_to_quarter_get _ h1 h2
  unfold generate_daily_timetable_c
  simp only []
  rw [if_neg (by omega), hdoy, hq]
  exact ⟨_, _, rfl, rfl, rfl, rfl⟩

/-- A call in a state with no days left hands back `done` and leaves the
saved state and the static cache as they are. -/
theorem generate_daily_timetable_c_exhausted (H : PgHost) (cs : WdayCache × DailyTimetableState)
    (h : cs.2.days_processed ≥ cs.2.total_days) :
    generate_daily_timetable_c H cs = some (Srf.done, cs) := by
  unfold generate_daily_timetable_c
  simp only []
  rw [if_pos h]


/-! ## Daily generator: the whole run -/

/-- The month that PostgreSQL's `j2date` writes is always in 1..12. -/
theorem pg_j2date_month (jd : Int) :
    1 ≤ (pg.j2date jd).month ∧ (pg.j2date jd).month ≤ 12 := by
  show 1 ≤ (pg_j2date jd).month ∧ (pg_j2date jd).month ≤ 12
  unfold pg_j2date
  simp only []
  generalize (u32 _ / 65536 + 10) = x
  unfold wrap32
  omega

/-- The invariant of the daily run, indexed by the number `j` of rows handed
back so far, is kept by one call, and the row handed back is the one of
position `j`. -/
theorem daily_step_inv (H : PgHost)
    (hmonth : ∀ jd, 1 ≤ (H.j2date jd).month ∧ (H.j2date jd).month ≤ 12)
    (start_date end_date : Int) (N : Nat)
    (hs1 : -2147483648 ≤ start_date) (he2 : end_date ≤ 2147483647)
    (hNi : (N : Int) = end_date - start_date + 1) (hfit : (N : Int) ≤ 2147483647)
    (j : Nat) (cs : WdayCache × DailyTimetableState) (hj : j < N)
    (ht : cs.2.total_days = (N : Int)) (hp : cs.2.days_processed = (j : Int))
    (ho : cs.2.ord_counter = wrap32 ((j : Int) + 1))
    (hd : cs.2.current_date = wrap32 (start_date + (j : Int))) :
    ∃ r cs1, generate_daily_timetable_c H cs = some (Srf.next r, cs1) ∧
      (r.date = start_date + (j : Int) ∧ r.ord = (j : Int) + 1) ∧
      (cs1.2.total_days = (N : Int) ∧ cs1.2.days_processed = ((j + 1 : Nat) : Int) ∧
        cs1.2.ord_counter = wrap32 (((j + 1 : Nat) : Int) + 1) ∧
        cs1.2.current_date = wrap32 (start_date + ((j + 1 : Nat) : Int))) := by
  obtain ⟨c, s⟩ := cs
  simp only at ht hp ho hd
  obtain ⟨r, c1, hstep, hdate, hord, -⟩ := generate_daily_timetable_c_active H c s (by omega)
    (hmonth _).1 (hmonth _).2
  refine ⟨_, _, hstep, ⟨?_, ?_⟩, ?_⟩
  · rw [hdate, hd]; exact wrap32_of_fits (by omega) (by omega)
  · rw [hord, ho]; exact wrap32_of_fits (by omega) (by omega)
  · clear hstep
    refine ⟨ht, ?_, ?_, ?_⟩
    · show add32 s.days_processed 1 = _
      rw [hp]; push_cast; exact wrap32_of_fits (by omega) (by omega)
    · show add32 s.ord_counter 1 = _
      rw [ho, add32_wrap32_left]; push_cast; rfl
    · show add32 s.current_date 1 = _
      rw [hd, add32_wrap32_left]; push_cast; congr 1; omega

/-- Counterexample to C3: opening the monthly generator on 2025, 2020 and the
daily generator on 2025-01-01, 2020-01-01 (days 9132 and 7305 since
2000-01-01) reports no error; each returns a saved state, with a negative unit
count. -/
theorem inverted_range_opens :
    (generate_timetable_c_open true 2025 2020 =
        Except.ok (generate_timetable_c_first_call 2025 2020) ∧
      (generate_timetable_c_first_call 2025 2020).total_months = -48) ∧
    (generate_daily_timetable_c_open true 0 (some 9132) (some 7305) WdayCache.static_init =
        Except.ok (generate_daily_timetable_c_first_call 0 (some 9132) (some 7305)
          WdayCache.static_init) ∧
      (generate_daily_timetable_c_first_call 0 (some 9132) (some 7305)
          WdayCache.static_init).2.total_days = -1826) ∧
    pg_date2j 2025 1 1 - pg.POSTGRES_EPOCH_JDATE = 9132 ∧
    pg_date2j 2020 1 1 - pg.POSTGRES_EPOCH_JDATE = 7305 :=
  ⟨⟨rfl, by decide⟩, ⟨rfl, by decide⟩, by decide, by decide⟩

/-- Claim C3, amended. The bounds are never checked at construction: for every
`start_year > end_year` and every `start_date > end_date`, opening in a calling
context that accepts a composite result returns a saved state (cursor on the
start bound, ordinal counter 1, nothing processed) and no error; whatever the
bounds, the only error a first-call block raises is `feature_not_supported`, and
only in a context that does not accept a composite result. -/
theorem inverted_range_not_rejected (start_year end_year start_date end_date today : Int)
    (c : WdayCache) (hy : start_year > end_year) (hd : start_date > end_date) :
    (∃ s, generate_timetable_c_open true start_year end_year = Except.ok s ∧
      s.current_year = start_year ∧ s.current_month = 1 ∧ s.ord_counter = 1 ∧
      s.months_processed = 0 ∧ s.start_year > s.end_year) ∧
    (∃ cs, generate_daily_timetable_c_open true today (some start_date) (some end_date) c =
        Except.ok cs ∧
      cs.2.current_date = start_date ∧ cs.2.ord_counter = 1 ∧ cs.2.days_processed = 0 ∧
      cs.2.start_date > cs.2.end_date) ∧
    (∀ composite e, generate_timetable_c_open composite start_year end_year = Except.error e →
      composite = false ∧ e = SrfError.feature_not_supported) ∧
    (∀ composite e,
      generate_daily_timetable_c_open composite today (some start_date) (some end_date) c =
        Except.error e → composite = false ∧ e = SrfError.feature_not_supported) := by
  refine ⟨⟨_, rfl, rfl, rfl, rfl, rfl, hy⟩, ⟨_, rfl, rfl, rfl, rfl, hd⟩, ?_, ?_⟩
  · intro composite e h
    cases composite <;> simp [generate_timetable_c_open] at h ⊢
  · intro composite e h
    cases composite <;> simp [generate_daily_timetable_c_open] at h ⊢

/-- Witness for C3, amended: the bounds 2025, 2020 and 2025-01-01, 2020-01-01. -/
theorem inverted_range_not_rejected_witness :
    ((2025 : Int) > 2020 ∧ (9132 : Int) > 7305) ∧
    ((∃ s, generate_timetable_c_open true 2025 2020 = Except.ok s ∧
      s.current_year = 2025 ∧ s.current_month = 1 ∧ s.ord_counter = 1 ∧
      s.months_processed = 0 ∧ s.start_year > s.end_year) ∧
    (∃ cs, generate_daily_timetable_c_open true 0 (some 9132) (some 7305)
        WdayCache.static_init = Except.ok cs ∧
      cs.2.current_date = 9132 ∧ cs.2.ord_counter = 1 ∧ cs.2.days_processed = 0 ∧
      cs.2.start_date > cs.2.end_date) ∧
    (∀ composite e, generate_timetable_c_open composite 2025 2020 = Except.error e →
      composite = false ∧ e = SrfError.feature_not_supported) ∧
    (∀ composite e,
      generate_daily_timetable_c_open composite 0 (some 9132) (some 7305)
        WdayCache.static_init = Except.error e →
        composite = false ∧ e = SrfError.feature_not_supported)) :=
  ⟨by decide,
   inverted_range_not_rejected 2025 2020 9132 7305 0 WdayCache.static_init
     (by decide) (by decide)⟩

/-- Counterexample to C4: with `start_year = 178956972 > end_year = 0` the month
count `(0 - 178956972 + 1) * 12` wraps to `2147483644`, and the first call of
the monthly generator hands back a row; with `start_date = 2147483647 >
end_date = -2147483648` the day count wraps to `2`, and the first call of the
daily generator hands back a row. -/
theorem inverted_range_yields_rows :
    (isInt32 178956972 ∧ isInt32 0 ∧ (178956972 : Int) > 0 ∧
      (generate_timetable_c_first_call 178956972 0).total_months = 2147483644 ∧
      generate_timetable_c (generate_timetable_c_first_call 178956972 0) ≠
        some (Srf.done, generate_timetable_c_first_call 178956972 0) ∧
      (generate_timetable_c (generate_timetable_c_first_call 178956972 0)).map
          (fun p => p.1) =
        some (Srf.next
          { uid := 2147480264, y := 178956972, q := 1, m := 1, days := 31, ord := 1 })) ∧
    (isInt32 2147483647 ∧ isInt32 (-2147483648) ∧ (2147483647 : Int) > -2147483648 ∧
      (generate_daily_timetable_c_first_call 0 (some 2147483647) (some (-2147483648))
          WdayCache.static_init).2.total_days = 2 ∧
      ((generate_daily_timetable_c pg
          (generate_daily_timetable_c_first_call 0 (some 2147483647) (some (-2147483648))
            WdayCache.static_init)).map
          (fun p => match p.1 with
            | Srf.next r => some (r.date, r.ord)
            | Srf.done => none)) = some (some (2147483647, 1))) := by
  decide

/-- Claim C4, amended. For 32-bit `start_year > end_year` whose month count
`(end_year - start_year + 1) * 12` does not fall below `-2^31`, the first call
of the monthly generator hands back `done`; for 32-bit `start_date > end_date`
whose difference `end_date - start_date` does not fall below `-2^31`, the first
call of the daily generator hands back `done`, whatever the host. -/
theorem inverted_range_zero_rows (H : PgHost) (c : WdayCache)
    (today start_year end_year start_date end_date : Int)
    (hsy : isInt32 start_year) (hey : isInt32 end_year)
    (hsd : isInt32 start_date) (hed : isInt32 end_date)
    (hy : start_year > end_year) (hd : start_date > end_date)
    (hmonths : -2147483648 ≤ (end_year - start_year + 1) * 12)
    (hdays : -2147483648 ≤ end_date - start_date) :
    generate_timetable_c (generate_timetable_c_first_call start_year end_year) =
      some (Srf.done, generate_timetable_c_first_call start_year end_year) ∧
    generate_daily_timetable_c H
        (generate_daily_timetable_c_first_call today (some start_date) (some end_date) c) =
      some (Srf.done,
        generate_daily_timetable_c_first_call today (some start_date) (some end_date) c) := by
  obtain ⟨hsy1, hsy2⟩ := hsy
  obtain ⟨hey1, hey2⟩ := hey
  obtain ⟨hsd1, hsd2⟩ := hsd
  obtain ⟨hed1, hed2⟩ := hed
  constructor
  · apply generate_timetable_c_exhausted
    show (0 : Int) ≥ mul32 (add32 (sub32 end_year start_year) 1) 12
    have h1 : sub32 end_year start_year = end_year - start_year :=
      wrap32_of_fits (by omega) (by omega)
    have h2 : add32 (end_year - start_year) 1 = end_year - start_year + 1 :=
      wrap32_of_fits (by omega) (by omega)
    have h3 : mul32 (end_year - start_year + 1) 12 = (end_year - start_year + 1) * 12 :=
      wrap32_of_fits (by omega) (by omega)
    rw [h1, h2, h3]; omega
  · apply generate_daily_timetable_c_exhausted
    show (0 : Int) ≥ add32 (sub32 end_date start_date) 1
    have h1 : sub32 end_date start_date = end_date - start_date :=
      wrap32_of_fits (by omega) (by omega)
    have h2 : add32 (end_date - start_date) 1 = end_date - start_date + 1 :=
      wrap32_of_fits (by omega) (by omega)
    rw [h1, h2]; omega

/-- Witness for C4, amended: the bounds 2025, 2020 and 2025-01-01, 2020-01-01
with PostgreSQL as host. -/
theorem inverted_range_zero_rows_witness :
    (isInt32 2025 ∧ isInt32 2020 ∧ isInt32 9132 ∧ isInt32 7305 ∧ (2025 : Int) > 2020 ∧
      (9132 : Int) > 7305 ∧ -2147483648 ≤ ((2020 : Int) - 2025 + 1) * 12 ∧
      -2147483648 ≤ (7305 : Int) - 9132) ∧
    (generate_timetable_c (generate_timetable_c_first_call 2025 2020) =
      some (Srf.done, generate_timetable_c_first_call 2025 2020) ∧
    generate_daily_timetable_c pg
        (generate_daily_timetable_c_first_call 0 (some 9132) (some 7305)
          WdayCache.static_init) =
      some (Srf.done,
        generate_daily_timetable_c_first_call 0 (some 9132) (some 7305)
          WdayCache.static_init)) :=
  ⟨by decide,
   inverted_range_zero_rows pg WdayCache.static_init 0 2025 2020 9132 7305
     (by decide) (by decide) (by decide) (by decide) (by decide) (by decide)
     (by decide) (by decide)⟩


/-! ## Every row of a run -/

/-- A property of the saved state that every call keeps, and a property of
what a call hands back under it, hold along every run. -/
theorem runN_outputs_inv {σ ρ : Type} (step : σ → Option (Srf ρ × σ)) (Inv : σ → Prop)
    (Q : Srf ρ → Prop)
    (hstep : ∀ s o s1, Inv s → step s = some (o, s1) → Q o ∧ Inv s1) :
    ∀ (n : Nat) (s : σ) (outs : List (Srf ρ)) (final : σ), Inv s →
      runN step n s = some (outs, final) → (∀ o ∈ outs, Q o) ∧ Inv final := by
  intro n
  induction n with
  | zero =>
    intro s outs final hinv h
    simp [runN] at h
    obtain ⟨h1, h2⟩ := h
    subst h1 h2
    exact ⟨by simp, hinv⟩
  | succ n ih =>
    intro s outs final hinv h
    rw [runN] at h
    cases hs : step s with
    | none => simp [hs] at h
    | some p =>
      obtain ⟨o, t⟩ := p
      rw [hs] at h
      cases ht : runN step n t with
      | none => simp [ht] at h
      | some q =>
        obtain ⟨rs, t2⟩ := q
        simp [ht] at h
        obtain ⟨h1, h2⟩ := h
        subst h1 h2
        obtain ⟨hQ, hinv1⟩ := hstep s o t hinv hs
        obtain ⟨hall, hfin⟩ := ih t rs t2 hinv1 ht
        refine ⟨?_, hfin⟩
        intro x hx
        simp at hx
        rcases hx with hx | hx
        · subst hx; exact hQ
        · exact hall x hx

/-- What a call of the monthly generator that hands back a row has computed. -/
theorem generate_timetable_c_next_inv (s s1 : TimetableState) (r : TimetableEntry)
    (h : generate_timetable_c s = some (Srf.next r, s1)) :
    r.uid = add32 (add32 20000 (mul32 (sub32 s.current_year 1950) 12))
        (sub32 s.current_month 1) ∧
      r.y = s.current_year ∧ r.m = s.current_month ∧ r.ord = s.ord_counter ∧
      tableGet month_to_quarter s.current_month = some r.q ∧
      days_in_month s.current_year s.current_month = some r.days ∧
      s1.current_month =
        (if add32 s.current_month 1 > 12 then 1 else add32 s.current_month 1) := by
  unfold generate_timetable_c at h
  split at h
  · simp at h
  · split at h
    · rename_i q days hq hd
      simp only [Option.some.injEq, Prod.mk.injEq, Srf.next.injEq] at h
      obtain ⟨h1, h2⟩ := h
      subst h1 h2
      exact ⟨rfl, rfl, rfl, rfl, hq, hd, rfl⟩
    · simp at h

/-- A call of the monthly generator that hands back `done` leaves the saved
state as it is. -/
theorem generate_timetable_c_done_inv (s s1 : TimetableState)
    (h : generate_timetable_c s = some (Srf.done, s1)) : s1 = s := by
  unfold generate_timetable_c at h
  split at h
  · simp at h; exact h.symm
  · split at h <;> simp at h

/-- The wrapped evaluation of the monthly uid is the reduction of its exact
value. -/
theorem monthly_uid_wrap (y m : Int) :
    add32 (add32 20000 (mul32 (sub32 y 1950) 12)) (sub32 m 1) =
      wrap32 (20000 + (y - 1950) * 12 + (m - 1)) := by
  have h1 : sub32 y 1950 = wrap32 (y - 1950) := rfl
  have h2 : sub32 m 1 = wrap32 (m - 1) := rfl
  rw [h1, h2, mul32_wrap32_left, add32_wrap32_right 20000, add32_wrap32_left]
  exact add32_wrap32_right _ _

/-- Claim C5, amended. Every row handed back by a run of the monthly generator
has `uid` equal to `20000 + (y - 1950) * 12 + (m - 1)` reduced to 32 bits, hence
equal to that value whenever it fits in a signed 32-bit integer; its month is
in 1..12, `q = ((m - 1) div 3) + 1`, a value in 1..4 that is the ceiling of
`m / 3`, and `days = days_in_month(y, m)`. -/
theorem monthly_row_fields (start_year end_year : Int) (n : Nat)
    (outs : List (Srf TimetableEntry)) (final : TimetableState) (r : TimetableEntry)
    (hrun : runN generate_timetable_c n (generate_timetable_c_first_call start_year end_year)
      = some (outs, final))
    (hr : Srf.next r ∈ outs) :
    r.uid = wrap32 (20000 + (r.y - 1950) * 12 + (r.m - 1)) ∧
    (isInt32 (20000 + (r.y - 1950) * 12 + (r.m - 1)) →
      r.uid = 20000 + (r.y - 1950) * 12 + (r.m - 1)) ∧
    (1 ≤ r.m ∧ r.m ≤ 12) ∧
    r.q = (r.m - 1) / 3 + 1 ∧ (1 ≤ r.q ∧ r.q ≤ 4) ∧
    (3 * (r.q - 1) < r.m ∧ r.m ≤ 3 * r.q) ∧
    days_in_month r.y r.m = some r.days := by
  have key := runN_outputs_inv generate_timetable_c
    (fun s => 1 ≤ s.current_month ∧ s.current_month ≤ 12)
    (fun o => ∀ x, o = Srf.next x →
      x.uid = wrap32 (20000 + (x.y - 1950) * 12 + (x.m - 1)) ∧ (1 ≤ x.m ∧ x.m ≤ 12) ∧
      x.q = (x.m - 1) / 3 + 1 ∧ days_in_month x.y x.m = some x.days)
    (by
      intro s o s1 ⟨hm1, hm2⟩ hstep
      cases o with
      | done =>
        have := generate_timetable_c_done_inv s s1 hstep
        subst this
        refine ⟨?_, hm1, hm2⟩
        intro x hx
        cases hx
      | next x =>
        obtain ⟨huid, hy, hm, -, hq, hd, hnext⟩ := generate_timetable_c_next_inv s s1 x hstep
        have hq2 := month_to_quarter_get s.current_month hm1 hm2
        rw [hq] at hq2
        constructor
        · intro x2 hx2
          cases hx2
          refine ⟨?_, ?_, ?_, ?_⟩
          · rw [huid, hy, hm]; exact monthly_uid_wrap _ _
          · rw [hm]; exact ⟨hm1, hm2⟩
          · rw [hm]; exact Option.some.inj hq2
          · rw [hy, hm]; exact hd
        · show 1 ≤ s1.current_month ∧ s1.current_month ≤ 12
          rw [hnext]
          have : add32 s.current_month 1 = s.current_month + 1 :=
            wrap32_of_fits (by omega) (by omega)
          rw [this]
          split <;> omega)
    n (generate_timetable_c_first_call start_year end_year) outs final
    (by show (1 : Int) ≤ 1 ∧ (1 : Int) ≤ 12; omega) hrun
  obtain ⟨huid, hm, hq, hd⟩ := key.1 _ hr r rfl
  refine ⟨huid, ?_, hm, hq, ?_, ?_, hd⟩
  · intro hfits
    rw [huid]; exact wrap32_of_fits hfits.1 hfits.2
  · omega
  · omega

/-- Witness for C5, amended: the first row of the run 2020..2020 has uid 20840,
quarter 1 and 31 days. -/
theorem monthly_row_fields_witness :
    (runN generate_timetable_c 1 (generate_timetable_c_first_call 2020 2020)
        = some ([Srf.next ⟨20840, 2020, 1, 1, 31, 1⟩],
            { generate_timetable_c_first_call 2020 2020 with
              current_entry := ⟨20840, 2020, 1, 1, 31, 1⟩
              ord_counter := 2
              current_month := 2
              months_processed := 1 }) ∧
      Srf.next (⟨20840, 2020, 1, 1, 31, 1⟩ : TimetableEntry) ∈
        [Srf.next (⟨20840, 2020, 1, 1, 31, 1⟩ : TimetableEntry)]) ∧
    ((20840 : Int) = wrap32 (20000 + ((2020 : Int) - 1950) * 12 + ((1 : Int) - 1)) ∧
    (isInt32 (20000 + ((2020 : Int) - 1950) * 12 + ((1 : Int) - 1)) →
      (20840 : Int) = 20000 + ((2020 : Int) - 1950) * 12 + ((1 : Int) - 1)) ∧
    ((1 : Int) ≤ 1 ∧ (1 : Int) ≤ 12) ∧
    (1 : Int) = ((1 : Int) - 1) / 3 + 1 ∧ ((1 : Int) ≤ 1 ∧ (1 : Int) ≤ 4) ∧
    (3 * ((1 : Int) - 1) < 1 ∧ (1 : Int) ≤ 3 * 1) ∧
    days_in_month 2020 1 = some 31) :=
  ⟨⟨by decide, by decide⟩,
   monthly_row_fields 2020 2020 1 [Srf.next ⟨20840, 2020, 1, 1, 31, 1⟩]
     { generate_timetable_c_first_call 2020 2020 with
       current_entry := ⟨20840, 2020, 1, 1, 31, 1⟩
       ord_counter := 2
       current_month := 2
       months_processed := 1 } ⟨20840, 2020, 1, 1, 31, 1⟩ (by decide) (by decide)⟩

/-- Counterexample to C5: the first row of the run 200000000..200000000 has
`uid = -1894970696`, not `20000 + (200000000 - 1950) * 12 + 0 = 2399996600`,
which does not fit in 32 bits. -/
theorem monthly_uid_overflows :
    isInt32 200000000 ∧
    (generate_timetable_c (generate_timetable_c_first_call 200000000 200000000)).map
        (fun p => p.1) =
      some (Srf.next
        { uid := -1894970696, y := 200000000, q := 1, m := 1, days := 31, ord := 1 }) ∧
    (-1894970696 : Int) ≠ 20000 + ((200000000 : Int) - 1950) * 12 + ((1 : Int) - 1) := by
  decide


/-! ## The daily uid -/

/-- A relation between what two calls in a row hand back holds between every
two neighbours of a run. -/
theorem runN_consecutive {σ ρ : Type} (step : σ → Option (Srf ρ × σ)) (R : Srf ρ → Srf ρ → Prop)
    (hpair : ∀ s o s1 o1 s2, step s = some (o, s1) → step s1 = some (o1, s2) → R o o1) :
    ∀ (n : Nat) (s : σ) (outs : List (Srf ρ)) (final : σ),
      runN step n s = some (outs, final) →
      ∀ (i : Nat) (o o1 : Srf ρ), outs[i]? = some o → outs[i + 1]? = some o1 → R o o1 := by
  intro n
  induction n with
  | zero =>
    intro s outs final h i o o1 hi
    simp [runN] at h
    rw [h.1] at hi
    simp at hi
  | succ n ih =>
    intro s outs final h i o o1 hi hi1
    rw [runN] at h
    cases hs : step s with
    | none => simp [hs] at h
    | some p =>
      obtain ⟨a, t⟩ := p
      rw [hs] at h
      cases ht : runN step n t with
      | none => simp [ht] at h
      | some q =>
        obtain ⟨rs, t2⟩ := q
        simp [ht] at h
        obtain ⟨h1, h2⟩ := h
        subst h1 h2
        cases i with
        | succ i =>
          simp at hi hi1
          exact ih t rs t2 ht i o o1 hi hi1
        | zero =>
          simp at hi hi1
          subst hi
          cases n with
          | zero =>
            simp [runN] at ht
            rw [ht.1] at hi1
            simp at hi1
          | succ n =>
            rw [runN] at ht
            cases hs1 : step t with
            | none => simp [hs1] at ht
            | some p1 =>
              obtain ⟨b, u⟩ := p1
              rw [hs1] at ht
              cases hu : runN step n u with
              | none => simp [hu] at ht
              | some q1 =>
                obtain ⟨rs1, u2⟩ := q1
                simp [hu] at ht
                rw [← ht.1] at hi1
                simp at hi1
                subst hi1
                exact hpair s _ t _ u hs hs1

/-- What a call of the daily generator that hands back a row has computed for
the date, the ordinal and the uid, and where it leaves the cursor. -/
theorem generate_daily_timetable_c_next_inv (H : PgHost)
    (cs cs1 : WdayCache × DailyTimetableState) (r : DailyTimetableEntry)
    (h : generate_daily_timetable_c H cs = some (Srf.next r, cs1)) :
    r.uid = add32 2000000
        (add32 (sub32 cs.2.current_date (H.date2j 1950 1 1)) H.POSTGRES_EPOCH_JDATE) ∧
      r.date = cs.2.current_date ∧ r.ord = cs.2.ord_counter ∧
      cs1.2.current_date = add32 cs.2.current_date 1 := by
  unfold generate_daily_timetable_c at h
  simp only [] at h
  split at h
  · simp at h
  · split at h
    · simp only [Option.some.injEq, Prod.mk.injEq, Srf.next.injEq] at h
      obtain ⟨h1, h2⟩ := h
      subst h1 h2
      exact ⟨rfl, rfl, rfl, rfl⟩
    · simp at h

/-- The wrapped evaluation of the daily uid is the reduction of its exact
value. -/
theorem daily_uid_wrap (d : Int) :
    add32 2000000 (add32 (sub32 d 2433283) 2451545) = wrap32 (2000000 + 18262 + d) := by
  have h1 : sub32 d 2433283 = wrap32 (d - 2433283) := rfl
  rw [h1, add32_wrap32_left, add32_wrap32_right]
  congr 1; omega

/-- Every row handed back along a run of the daily generator has the uid of
its date. -/
theorem daily_rows_uid (H : PgHost) (hepoch : H.POSTGRES_EPOCH_JDATE = 2451545)
    (hj1950 : H.date2j 1950 1 1 = 2433283) (n : Nat)
    (init final : WdayCache × DailyTimetableState) (outs : List (Srf DailyTimetableEntry))
    (hrun : runN (generate_daily_timetable_c H) n init = some (outs, final))
    (r : DailyTimetableEntry) (hr : Srf.next r ∈ outs) :
    r.uid = wrap32 (2000000 + 18262 + r.date) := by
  have key := runN_outputs_inv (generate_daily_timetable_c H) (fun _ => True)
    (fun o => ∀ x, o = Srf.next x → x.uid = wrap32 (2000000 + 18262 + x.date))
    (by
      intro s o s1 _ hstep
      refine ⟨?_, trivial⟩
      intro x hx
      subst hx
      obtain ⟨huid, hdate, -, -⟩ := generate_daily_timetable_c_next_inv H s s1 x hstep
      rw [huid, hdate, hepoch, hj1950]
      exact daily_uid_wrap _)
    n init outs final trivial hrun
  exact key.1 _ hr r rfl

/-- Claim C6, amended. For a host with `POSTGRES_EPOCH_JDATE = 2451545` and
`date2j(1950, 1, 1) = 2433283`, every row handed back by a run of the daily
generator has `uid` equal to `2000000 + 18262 + date` reduced to 32 bits, hence
equal to that value whenever it fits in a signed 32-bit integer; the uid does
not depend on the bounds or on the ordinal (rows of two runs with the same date
have the same uid), and from a row to the next the uid increases by 1 in 32-bit
arithmetic, hence by exactly 1 unless the earlier uid is `2^31 - 1`. -/
theorem daily_uid_of_date (H : PgHost) (hepoch : H.POSTGRES_EPOCH_JDATE = 2451545)
    (hj1950 : H.date2j 1950 1 1 = 2433283)
    (today today2 : Int) (start_arg end_arg start_arg2 end_arg2 : Option Int)
    (c c2 : WdayCache) (n n2 : Nat)
    (outs outs2 : List (Srf DailyTimetableEntry))
    (final final2 : WdayCache × DailyTimetableState)
    (hrun : runN (generate_daily_timetable_c H) n
      (generate_daily_timetable_c_first_call today start_arg end_arg c) = some (outs, final))
    (hrun2 : runN (generate_daily_timetable_c H) n2
      (generate_daily_timetable_c_first_call today2 start_arg2 end_arg2 c2)
        = some (outs2, final2)) :
    (∀ r, Srf.next r ∈ outs →
      r.uid = wrap32 (2000000 + 18262 + r.date) ∧
      (isInt32 (2000000 + 18262 + r.date) → r.uid = 2000000 + 18262 + r.date)) ∧
    (∀ r r2, Srf.next r ∈ outs → Srf.next r2 ∈ outs2 → r.date = r2.date → r.uid = r2.uid) ∧
    (∀ (i : Nat) (r r1 : DailyTimetableEntry), outs[i]? = some (Srf.next r) →
      outs[i + 1]? = some (Srf.next r1) →
      r1.date = add32 r.date 1 ∧ r1.uid = add32 r.uid 1 ∧
      (r.uid < 2147483647 → r1.uid = r.uid + 1)) := by
  refine ⟨?_, ?_, ?_⟩
  · intro r hr
    have huid := daily_rows_uid H hepoch hj1950 n _ final outs hrun r hr
    refine ⟨huid, ?_⟩
    intro hfits
    rw [huid]; exact wrap32_of_fits hfits.1 hfits.2
  · intro r r2 hr hr2 hdate
    rw [daily_rows_uid H hepoch hj1950 n _ final outs hrun r hr,
      daily_rows_uid H hepoch hj1950 n2 _ final2 outs2 hrun2 r2 hr2, hdate]
  · intro i r r1 hi hi1
    have hdate : r1.date = add32 r.date 1 := by
      have key := runN_consecutive (generate_daily_timetable_c H)
        (fun o o1 => ∀ x x1, o = Srf.next x → o1 = Srf.next x1 → x1.date = add32 x.date 1)
        (by
          intro s o s1 o1 s2 hs hs1 x x1 hx hx1
          subst hx hx1
          obtain ⟨-, hd, -, hcur⟩ := generate_daily_timetable_c_next_inv H s s1 x hs
          obtain ⟨-, hd1, -, -⟩ := generate_daily_timetable_c_next_inv H s1 s2 x1 hs1
          rw [hd1, hcur, hd])
        n _ outs final hrun i _ _ hi hi1
      exact key r r1 rfl rfl
    have hu := daily_rows_uid H hepoch hj1950 n _ final outs hrun r
      (List.getElem?_mem hi)
    have hu1 := daily_rows_uid H hepoch hj1950 n _ final outs hrun r1
      (List.getElem?_mem hi1)
    have hstep : r1.uid = add32 r.uid 1 := by
      rw [hu1, hu, hdate, add32_wrap32_left]
      unfold add32 wrap32; omega
    refine ⟨hdate, hstep, ?_⟩
    intro hlt
    rw [hstep]
    have := wrap32_range (2000000 + 18262 + r.date)
    rw [← hu] at this
    exact wrap32_of_fits (by omega) (by omega)


/-- Witness for C6, amended: with PostgreSQL as host, the first two rows of the
run 2021-01-01..2021-01-07 and the only row of the run 2021-01-02..2021-01-02;
the row of 2021-01-02 has uid 2025934 in both. -/
theorem daily_uid_of_date_witness :
    (pg.POSTGRES_EPOCH_JDATE = 2451545 ∧ pg.date2j 1950 1 1 = 2433283 ∧
      runN (generate_daily_timetable_c pg) 2
        (generate_daily_timetable_c_first_call 0 (some 7671) (some 7677)
          WdayCache.static_init) =
        some ([Srf.next ⟨2025933, 7671, 2021, 1, 1, 1, 1, 5, 1, false, 1⟩,
               Srf.next ⟨2025934, 7672, 2021, 1, 1, 2, 1, 6, 2, true, 2⟩],
          ({ wday_cache := ⟨2021, 5⟩ :: List.replicate 9 ⟨0, 0⟩, cache_entries := 1 },
           { start_date := 7671, end_date := 7677, current_date := 7673, ord_counter := 3,
             total_days := 7, days_processed := 2,
             current_entry := ⟨2025934, 7672, 2021, 1, 1, 2, 1, 6, 2, true, 2⟩,
             done := false })) ∧
      runN (generate_daily_timetable_c pg) 1
        (generate_daily_timetable_c_first_call 5 (some 7672) (some 7672)
          WdayCache.static_init) =
        some ([Srf.next ⟨2025934, 7672, 2021, 1, 1, 2, 1, 6, 2, true, 1⟩],
          ({ wday_cache := ⟨2021, 5⟩ :: List.replicate 9 ⟨0, 0⟩, cache_entries := 1 },
           { start_date := 7672, end_date := 7672, current_date := 7673, ord_counter := 2,
             total_days := 1, days_processed := 1,
             current_entry := ⟨2025934, 7672, 2021, 1, 1, 2, 1, 6, 2, true, 1⟩,
             done := false }))) ∧
    ((∀ r, Srf.next r ∈
        [Srf.next (⟨2025933, 7671, 2021, 1, 1, 1, 1, 5, 1, false, 1⟩ : DailyTimetableEntry),
         Srf.next ⟨2025934, 7672, 2021, 1, 1, 2, 1, 6, 2, true, 2⟩] →
      r.uid = wrap32 (2000000 + 18262 + r.date) ∧
      (isInt32 (2000000 + 18262 + r.date) → r.uid = 2000000 + 18262 + r.date)) ∧
    (∀ r r2, Srf.next r ∈
        [Srf.next (⟨2025933, 7671, 2021, 1, 1, 1, 1, 5, 1, false, 1⟩ : DailyTimetableEntry),
         Srf.next ⟨2025934, 7672, 2021, 1, 1, 2, 1, 6, 2, true, 2⟩] →
      Srf.next r2 ∈
        [Srf.next (⟨2025934, 7672, 2021, 1, 1, 2, 1, 6, 2, true, 1⟩ : DailyTimetableEntry)] →
      r.date = r2.date → r.uid = r2.uid) ∧
    (∀ (i : Nat) (r r1 : DailyTimetableEntry),
      [Srf.next (⟨2025933, 7671, 2021, 1, 1, 1, 1, 5, 1, false, 1⟩ : DailyTimetableEntry),
         Srf.next ⟨2025934, 7672, 2021, 1, 1, 2, 1, 6, 2, true, 2⟩][i]? = some (Srf.next r) →
      [Srf.next (⟨2025933, 7671, 2021, 1, 1, 1, 1, 5, 1, false, 1⟩ : DailyTimetableEntry),
         Srf.next ⟨2025934, 7672, 2021, 1, 1, 2, 1, 6, 2, true, 2⟩][i + 1]?
        = some (Srf.next r1) →
      r1.date = add32 r.date 1 ∧ r1.uid = add32 r.uid 1 ∧
      (r.uid < 2147483647 → r1.uid = r.uid + 1))) :=
  ⟨⟨rfl, by decide, by decide, by decide⟩,
   daily_uid_of_date pg rfl (by decide) 0 5 (some 7671) (some 7677) (some 7672) (some 7672)
     WdayCache.static_init WdayCache.static_init 2 1 _ _ _ _ rfl rfl⟩

/-- Counterexample to C6: with PostgreSQL as host, the run whose two bounds are
the date `2147483647` (the largest `DateADT`, which PostgreSQL uses for
`infinity`) hands back a row with `uid = -2145465387`, not
`2000000 + 18262 + 2147483647`, which does not fit in 32 bits. -/
theorem daily_uid_overflows :
    isInt32 2147483647 ∧ pg.POSTGRES_EPOCH_JDATE - pg.date2j 1950 1 1 = 18262 ∧
    (generate_daily_timetable_c pg
        (generate_daily_timetable_c_first_call 0 (some 2147483647) (some 2147483647)
          WdayCache.static_init)).map
        (fun p => match p.1 with
          | Srf.next r => some (r.date, r.uid)
          | Srf.done => none) = some (some (2147483647, -2145465387)) ∧
    (-2145465387 : Int) ≠ 2000000 + 18262 + 2147483647 := by
  decide


/-! ## Exhaustion -/

/-- Once a call hands back `done` without changing the saved state, every
later call does. -/
theorem runN_done_fixed {σ ρ : Type} (step : σ → Option (Srf ρ × σ)) (s : σ)
    (h : step s = some (Srf.done, s)) :
    ∀ n : Nat, runN step n s = some (List.replicate n Srf.done, s) := by
  intro n
  induction n with
  | zero => rfl
  | succ n ih => exact runN_succ_of_step h ih

/-- A whole call of the monthly generator on a saved state with no months
left hands back `done` and clears the slot, whatever the arguments. -/
theorem generate_timetable_c_srf_exhausted (start_year end_year : Int) (s : TimetableState)
    (h : s.months_processed ≥ s.total_months) :
    generate_timetable_c_srf start_year end_year (some s) = some (Srf.done, none) := by
  unfold generate_timetable_c_srf
  simp only [generate_timetable_c_exhausted s h]
  rfl

/-- A whole call of the daily generator on a saved state with no days left
hands back `done`, clears the slot and leaves the static cache as it is,
whatever the arguments. -/
theorem generate_daily_timetable_c_srf_exhausted (H : PgHost) (today : Int)
    (start_arg end_arg : Option Int) (cs : WdayCache × DailyTimetableState)
    (h : cs.2.days_processed ≥ cs.2.total_days) :
    generate_daily_timetable_c_srf H today start_arg end_arg (cs.1, some cs.2) =
      some (Srf.done, (cs.1, none)) := by
  unfold generate_daily_timetable_c_srf
  simp only [generate_daily_timetable_c_exhausted H (cs.1, cs.2) h]
  rfl

/-- A whole call of the monthly generator on an empty slot, with arguments
that give a positive month count, hands back the first row of the run. -/
theorem generate_timetable_c_srf_first (start_year end_year : Int)
    (hpos : 0 < (generate_timetable_c_first_call start_year end_year).total_months) :
    ∃ r s1, generate_timetable_c_srf start_year end_year none = some (Srf.next r, some s1) ∧
      r.y = start_year ∧ r.m = 1 ∧ r.ord = 1 := by
  obtain ⟨days, -, hstep⟩ := generate_timetable_c_active
    (generate_timetable_c_first_call start_year end_year) hpos
    (by show (1 : Int) ≤ 1; decide) (by show (1 : Int) ≤ 12; decide)
  unfold generate_timetable_c_srf
  simp only [hstep]
  exact ⟨_, _, rfl, rfl, rfl, rfl⟩

/-- A whole call of the daily generator on an empty slot, with arguments that
give a positive day count, hands back the first row of the run. -/
theorem generate_daily_timetable_c_srf_first (H : PgHost)
    (hmonth : ∀ jd, 1 ≤ (H.j2date jd).month ∧ (H.j2date jd).month ≤ 12)
    (today : Int) (start_arg end_arg : Option Int) (c : WdayCache)
    (hpos : 0 <
      (generate_daily_timetable_c_first_call today start_arg end_arg c).2.total_days) :
    ∃ r c1 s1, generate_daily_timetable_c_srf H today start_arg end_arg (c, none) =
        some (Srf.next r, (c1, some s1)) ∧
      r.date = (generate_daily_timetable_c_first_call today start_arg end_arg c).2.start_date ∧
      r.ord = 1 := by
  obtain ⟨r, c1, hstep, hdate, hord, -⟩ := generate_daily_timetable_c_active H
    (generate_daily_timetable_c_first_call today start_arg end_arg c).1
    (generate_daily_timetable_c_first_call today start_arg end_arg c).2 hpos
    (hmonth _).1 (hmonth _).2
  unfold generate_daily_timetable_c_srf
  simp only [hstep]
  exact ⟨r, c1, _, rfl, hdate, hord⟩

/-- Counterexample to C7: driving the whole monthly call for 2020..2020 from
an empty slot gives 12 rows, then `done`, and then row 1 and row 2 again; with
PostgreSQL as host, driving the whole daily call for 2021-01-02..2021-01-02
gives one row, then `done`, and then the same row again. `SRF_RETURN_DONE`
clears the slot, so the call after `done` is a first call. -/
theorem exhaustion_restarts :
    (runN (generate_timetable_c_srf 2020 2020) 15 none).map
        (fun p => p.1.map (fun o => match o with
          | Srf.next r => some (r.y, r.m, r.ord)
          | Srf.done => none))
      = some [some (2020, 1, 1), some (2020, 2, 2), some (2020, 3, 3), some (2020, 4, 4),
          some (2020, 5, 5), some (2020, 6, 6), some (2020, 7, 7), some (2020, 8, 8),
          some (2020, 9, 9), some (2020, 10, 10), some (2020, 11, 11), some (2020, 12, 12),
          none, some (2020, 1, 1), some (2020, 2, 2)] ∧
    (runN (generate_daily_timetable_c_srf pg 0 (some 7672) (some 7672)) 3
        (WdayCache.static_init, none)).map
        (fun p => p.1.map (fun o => match o with
          | Srf.next r => some (r.date, r.ord)
          | Srf.done => none))
      = some [some (7672, 1), none, some (7672, 1)] := by
  decide

/-- Claim C7, amended. In any saved state with `months_processed ≥
total_months` (monthly) or `days_processed ≥ total_days` (daily, any host, any
cache contents), a call hands back `done` and raises nothing; it does not keep
the saved state but releases it (the slot of the call site is cleared; the
static cache is left as it is). The next call at that call site is therefore a
first call: it hands back what the first call of a new run on its arguments
hands back, which is row 1 of that run when the arguments give a positive unit
count, and `done` again, for any number of calls, when they do not. -/
theorem exhaustion_releases_state (H : PgHost)
    (hmonth : ∀ jd, 1 ≤ (H.j2date jd).month ∧ (H.j2date jd).month ≤ 12)
    (s : TimetableState) (cs : WdayCache × DailyTimetableState)
    (start_year end_year today : Int) (start_arg end_arg : Option Int)
    (hm : s.months_processed ≥ s.total_months) (hd : cs.2.days_processed ≥ cs.2.total_days) :
    generate_timetable_c_srf start_year end_year (some s) = some (Srf.done, none) ∧
    generate_daily_timetable_c_srf H today start_arg end_arg (cs.1, some cs.2) =
      some (Srf.done, (cs.1, none)) ∧
    (0 < (generate_timetable_c_first_call start_year end_year).total_months →
      ∃ r s1, runN (generate_timetable_c_srf start_year end_year) 2 (some s) =
          some ([Srf.done, Srf.next r], some s1) ∧
        r.y = start_year ∧ r.m = 1 ∧ r.ord = 1) ∧
    (0 < (generate_daily_timetable_c_first_call today start_arg end_arg cs.1).2.total_days →
      ∃ r c1 s1, runN (generate_daily_timetable_c_srf H today start_arg end_arg) 2
          (cs.1, some cs.2) = some ([Srf.done, Srf.next r], (c1, some s1)) ∧
        r.date =
          (generate_daily_timetable_c_first_call today start_arg end_arg cs.1).2.start_date ∧
        r.ord = 1) ∧
    ((generate_timetable_c_first_call start_year end_year).total_months ≤ 0 →
      ∀ n : Nat, runN (generate_timetable_c_srf start_year end_year) (n + 1) (some s) =
        some (List.replicate (n + 1) Srf.done, none)) ∧
    ((generate_daily_timetable_c_first_call today start_arg end_arg cs.1).2.total_days ≤ 0 →
      ∀ n : Nat, runN (generate_daily_timetable_c_srf H today start_arg end_arg) (n + 2)
          (cs.1, some cs.2) =
        some (List.replicate (n + 2) Srf.done,
          ((generate_daily_timetable_c_first_call today start_arg end_arg cs.1).1, none))) := by
  have hA := generate_timetable_c_srf_exhausted start_year end_year s hm
  have hB := generate_daily_timetable_c_srf_exhausted H today start_arg end_arg cs hd
  refine ⟨hA, hB, ?_, ?_, ?_, ?_⟩
  · intro hpos
    obtain ⟨r, s1, hfirst, hy, hmo, hord⟩ :=
      generate_timetable_c_srf_first start_year end_year hpos
    exact ⟨r, s1, runN_succ_of_step hA (runN_succ_of_step hfirst rfl), hy, hmo, hord⟩
  · intro hpos
    obtain ⟨r, c1, s1, hfirst, hdate, hord⟩ :=
      generate_daily_timetable_c_srf_first H hmonth today start_arg end_arg cs.1 hpos
    exact ⟨r, c1, s1, runN_succ_of_step hB (runN_succ_of_step hfirst rfl), hdate, hord⟩
  · intro hempty n
    have hnone : generate_timetable_c_srf start_year end_year none = some (Srf.done, none) := by
      unfold generate_timetable_c_srf
      simp only [generate_timetable_c_exhausted
        (generate_timetable_c_first_call start_year end_year) hempty]
      rfl
    exact runN_succ_of_step hA (runN_done_fixed _ none hnone n)
  · intro hempty n
    have hfirst : generate_daily_timetable_c_srf H today start_arg end_arg (cs.1, none) =
        some (Srf.done,
          ((generate_daily_timetable_c_first_call today start_arg end_arg cs.1).1, none)) := by
      unfold generate_daily_timetable_c_srf
      simp only [generate_daily_timetable_c_exhausted H
        (generate_daily_timetable_c_first_call today start_arg end_arg cs.1) hempty]
      rfl
    have hagain : generate_daily_timetable_c_srf H today start_arg end_arg
        ((generate_daily_timetable_c_first_call today start_arg end_arg cs.1).1, none) =
        some (Srf.done,
          ((generate_daily_timetable_c_first_call today start_arg end_arg cs.1).1, none)) := by
      unfold generate_daily_timetable_c_srf
      have hempty1 : (generate_daily_timetable_c_first_call today start_arg end_arg
          (generate_daily_timetable_c_first_call today start_arg end_arg cs.1).1).2.days_processed
          ≥ (generate_daily_timetable_c_first_call today start_arg end_arg
          (generate_daily_timetable_c_first_call today start_arg end_arg cs.1).1).2.total_days :=
        hempty
      simp only [generate_daily_timetable_c_exhausted H
        (generate_daily_timetable_c_first_call today start_arg end_arg
          (generate_daily_timetable_c_first_call today start_arg end_arg cs.1).1) hempty1]
      rfl
    exact runN_succ_of_step hB (runN_succ_of_step hfirst (runN_done_fixed _ _ hagain n))

/-- Witness for C7, amended: the saved states at the end of the monthly run
2020..2020 and of the daily run 2021-01-02..2021-01-02, with PostgreSQL as
host and the arguments of those runs. -/
theorem exhaustion_releases_state_witness :
    ((∀ jd, 1 ≤ (pg.j2date jd).month ∧ (pg.j2date jd).month ≤ 12) ∧
      (12 : Int) ≥ 12 ∧ (1 : Int) ≥ 1) ∧
    (generate_timetable_c_srf 2020 2020
        (some { start_year := 2020, end_year := 2020, current_year := 2021,
                current_month := 1, ord_counter := 13, total_months := 12,
                months_processed := 12, current_entry := ⟨20851, 2020, 4, 12, 31, 12⟩,
                done := false }) = some (Srf.done, none) ∧
    generate_daily_timetable_c_srf pg 0 (some 7672) (some 7672)
        ({ wday_cache := ⟨2021, 5⟩ :: List.replicate 9 ⟨0, 0⟩, cache_entries := 1 },
         some { start_date := 7672, end_date := 7672, current_date := 7673, ord_counter := 2,
                total_days := 1, days_processed := 1,
                current_entry := ⟨2025934, 7672, 2021, 1, 1, 2, 1, 6, 2, true, 1⟩,
                done := false }) =
      some (Srf.done,
        ({ wday_cache := ⟨2021, 5⟩ :: List.replicate 9 ⟨0, 0⟩, cache_entries := 1 }, none)) ∧
    (0 < (generate_timetable_c_first_call 2020 2020).total_months →
      ∃ r s1, runN (generate_timetable_c_srf 2020 2020) 2
          (some { start_year := 2020, end_year := 2020, current_year := 2021,
                  current_month := 1, ord_counter := 13, total_months := 12,
                  months_processed := 12, current_entry := ⟨20851, 2020, 4, 12, 31, 12⟩,
                  done := false }) =
          some ([Srf.done, Srf.next r], some s1) ∧
        r.y = 2020 ∧ r.m = 1 ∧ r.ord = 1) ∧
    (0 < (generate_daily_timetable_c_first_call 0 (some 7672) (some 7672)
        { wday_cache := ⟨2021, 5⟩ :: List.replicate 9 ⟨0, 0⟩,
          cache_entries := 1 }).2.total_days →
      ∃ r c1 s1, runN (generate_daily_timetable_c_srf pg 0 (some 7672) (some 7672)) 2
          ({ wday_cache := ⟨2021, 5⟩ :: List.replicate 9 ⟨0, 0⟩, cache_entries := 1 },
           some { start_date := 7672, end_date := 7672, current_date := 7673,
                  ord_counter := 2, total_days := 1, days_processed := 1,
                  current_entry := ⟨2025934, 7672, 2021, 1, 1, 2, 1, 6, 2, true, 1⟩,
                  done := false }) = some ([Srf.done, Srf.next r], (c1, some s1)) ∧
        r.date =
          (generate_daily_timetable_c_first_call 0 (some 7672) (some 7672)
            { wday_cache := ⟨2021, 5⟩ :: List.replicate 9 ⟨0, 0⟩,
              cache_entries := 1 }).2.start_date ∧
        r.ord = 1) ∧
    ((generate_timetable_c_first_call 2020 2020).total_months ≤ 0 →
      ∀ n : Nat, runN (generate_timetable_c_srf 2020 2020) (n + 1)
          (some { start_year := 2020, end_year := 2020, current_year := 2021,
                  current_month := 1, ord_counter := 13, total_months := 12,
                  months_processed := 12, current_entry := ⟨20851, 2020, 4, 12, 31, 12⟩,
                  done := false }) =
        some (List.replicate (n + 1) Srf.done, none)) ∧
    ((generate_daily_timetable_c_first_call 0 (some 7672) (some 7672)
        { wday_cache := ⟨2021, 5⟩ :: List.replicate 9 ⟨0, 0⟩,
          cache_entries := 1 }).2.total_days ≤ 0 →
      ∀ n : Nat, runN (generate_daily_timetable_c_srf pg 0 (some 7672) (some 7672)) (n + 2)
          ({ wday_cache := ⟨2021, 5⟩ :: List.replicate 9 ⟨0, 0⟩, cache_entries := 1 },
           some { start_date := 7672, end_date := 7672, current_date := 7673,
                  ord_counter := 2, total_days := 1, days_processed := 1,
                  current_entry := ⟨2025934, 7672, 2021, 1, 1, 2, 1, 6, 2, true, 1⟩,
                  done := false }) =
        some (List.replicate (n + 2) Srf.done,
          ((generate_daily_timetable_c_first_call 0 (some 7672) (some 7672)
            { wday_cache := ⟨2021, 5⟩ :: List.replicate 9 ⟨0, 0⟩,
              cache_entries := 1 }).1, none)))) ∧
    ((0 : Int) < (generate_timetable_c_first_call 2020 2020).total_months ∧
      (0 : Int) < (generate_daily_timetable_c_first_call 0 (some 7672) (some 7672)
        { wday_cache := ⟨2021, 5⟩ :: List.replicate 9 ⟨0, 0⟩,
          cache_entries := 1 }).2.total_days) :=
  ⟨⟨pg_j2date_month, by decide, by decide⟩,
   exhaustion_releases_state pg pg_j2date_month
     { start_year := 2020, end_year := 2020, current_year := 2021, current_month := 1,
       ord_counter := 13, total_months := 12, months_processed := 12,
       current_entry := ⟨20851, 2020, 4, 12, 31, 12⟩, done := false }
     ({ wday_cache := ⟨2021, 5⟩ :: List.replicate 9 ⟨0, 0⟩, cache_entries := 1 },
      { start_date := 7672, end_date := 7672, current_date := 7673, ord_counter := 2,
        total_days := 1, days_processed := 1,
        current_entry := ⟨2025934, 7672, 2021, 1, 1, 2, 1, 6, 2, true, 1⟩,
        done := false })
     2020 2020 0 (some 7672) (some 7672) (by decide) (by decide),
   by decide⟩

/-! ## The week number -/

/-- Claim C8, the code at the failing input. In the leap year 2012, whose
January 1 is a Sunday (`jan1_wday = 0`), day 366 gets week 54:
`get_calendar_week(2012, 366, 0) = 54`; with PostgreSQL as host the daily run
over 2012-12-31 (day 4748 since 2000-01-01) hands back a row with `doy = 366`
and `w1 = 54`, outside the range 1-53 that the comment of the field `w1`
documents. -/
theorem calendar_week_54 :
    get_calendar_week 2012 366 0 = 54 ∧
    leap_year_expr 2012 = true ∧
    pg.j2day (pg.date2j 2012 1 1) = 0 ∧
    pg.date2j 2012 12 31 - pg.POSTGRES_EPOCH_JDATE = 4748 ∧
    (generate_daily_timetable_c pg
        (generate_daily_timetable_c_first_call 0 (some 4748) (some 4748)
          WdayCache.static_init)).map (fun p => p.1) =
      some (Srf.next
        { uid := 2023010, date := 4748, y := 2012, q := 4, m := 12, d := 31, w1 := 54,
          dow := 1, doy := 366, is_weekend := false, ord := 1 }) := by
  decide


/-! ## Month lengths -/

/-- The leap-year expression of the C code, with the truncated remainder,
agrees with the rule stated with the mathematical remainder. -/
theorem leap_year_expr_iff (year : Int) :
    leap_year_expr year = true ↔ gregorian_leap_year year := by
  have e : ∀ b : Int, Int.tmod year b = 0 ↔ year % b = 0 := fun b =>
    ⟨fun h => Int.emod_eq_zero_of_dvd (Int.dvd_of_tmod_eq_zero h),
     fun h => Int.tmod_eq_zero_of_dvd (Int.dvd_of_emod_eq_zero h)⟩
  unfold leap_year_expr gregorian_leap_year
  simp only [Bool.or_eq_true, Bool.and_eq_true, beq_iff_eq, bne_iff_ne, ne_eq, e]

/-- Claim C9. For every year and every month in 1..12, `days_in_month` returns
the month length of the Gregorian calendar: the table value
`{31,28,31,30,31,30,31,31,30,31,30,31}[month]`, except that month 2 has 29 days
exactly when `(year mod 4 = 0 and year mod 100 ≠ 0) or year mod 400 = 0`;
the twelve month lengths of a year add up to 366 in a leap year and to 365
otherwise. -/
theorem days_in_month_gregorian (year month : Int) (h1 : 1 ≤ month) (h2 : month ≤ 12) :
    days_in_month year month = some (gregorian_days_in_month year month) ∧
    (month ≠ 2 →
      days_in_month year month = some (gregorian_month_lengths.getD (month - 1).toNat 0)) ∧
    (days_in_month year 2 = some 29 ↔
      ((year % 4 = 0 ∧ year % 100 ≠ 0) ∨ year % 400 = 0)) ∧
    (days_in_month year 2 = some 28 ↔
      ¬ ((year % 4 = 0 ∧ year % 100 ≠ 0) ∨ year % 400 = 0)) ∧
    (([1, 2, 3, 4, 5, 6, 7, 8, 9, 10, 11, 12] : List Int).mapM (days_in_month year)).map
        List.sum =
      some (if (year % 4 = 0 ∧ year % 100 ≠ 0) ∨ year % 400 = 0 then 366 else 365) := by
  have hleap := leap_year_expr_iff year
  unfold gregorian_leap_year at hleap
  have hfeb : days_in_month year 2 = some (if leap_year_expr year = true then 29 else 28) := rfl
  have hother : month ≠ 2 →
      days_in_month year month = some (gregorian_month_lengths.getD (month - 1).toNat 0) := by
    intro hne
    unfold days_in_month
    rw [if_pos hne]
    interval_cases month <;> decide
  refine ⟨?_, hother, ?_, ?_, ?_⟩
  · unfold gregorian_days_in_month gregorian_leap_year
    by_cases hm : month = 2
    · subst hm
      rw [hfeb]
      by_cases hl : leap_year_expr year = true
      · rw [if_pos hl, if_pos ⟨rfl, hleap.mp hl⟩]
      · rw [if_neg hl, if_neg (fun h => hl (hleap.mpr h.2))]
        rfl
    · rw [hother hm, if_neg (fun h => hm h.1)]
  · rw [hfeb, ← hleap]
    by_cases hl : leap_year_expr year = true
    · simp [hl]
    · simp [hl]
  · rw [hfeb, ← hleap]
    by_cases hl : leap_year_expr year = true
    · simp [hl]
    · simp [hl]
  · have e1 : ∀ m : Int, m ≠ 2 → days_in_month year m = tableGet days_per_month m := by
      intro m hm
      unfold days_in_month
      rw [if_pos hm]
    simp only [List.mapM_cons, List.mapM_nil, hfeb, e1 1 (by decide), e1 3 (by decide),
      e1 4 (by decide), e1 5 (by decide), e1 6 (by decide), e1 7 (by decide),
      e1 8 (by decide), e1 9 (by decide), e1 10 (by decide), e1 11 (by decide),
      e1 12 (by decide)]
    by_cases hl : leap_year_expr year = true
    · rw [if_pos hl, if_pos (hleap.mp hl)]; decide
    · rw [if_neg hl, if_neg (fun h => hl (hleap.mpr h))]; decide

/-- Witness for C9: February has 29 days in 2000 and 2024, 28 days in 1900 and
2023. -/
theorem days_in_month_gregorian_witness :
    ((1 : Int) ≤ 2 ∧ (2 : Int) ≤ 12) ∧
    (days_in_month 2024 2 = some (gregorian_days_in_month 2024 2) ∧
    ((2 : Int) ≠ 2 →
      days_in_month 2024 2 = some (gregorian_month_lengths.getD ((2 : Int) - 1).toNat 0)) ∧
    (days_in_month 2024 2 = some 29 ↔
      (((2024 : Int) % 4 = 0 ∧ (2024 : Int) % 100 ≠ 0) ∨ (2024 : Int) % 400 = 0)) ∧
    (days_in_month 2024 2 = some 28 ↔
      ¬ (((2024 : Int) % 4 = 0 ∧ (2024 : Int) % 100 ≠ 0) ∨ (2024 : Int) % 400 = 0)) ∧
    (([1, 2, 3, 4, 5, 6, 7, 8, 9, 10, 11, 12] : List Int).mapM (days_in_month 2024)).map
        List.sum =
      some (if ((2024 : Int) % 4 = 0 ∧ (2024 : Int) % 100 ≠ 0) ∨ (2024 : Int) % 400 = 0
        then 366 else 365)) ∧
    (days_in_month 2000 2 = some 29 ∧ days_in_month 2024 2 = some 29 ∧
      days_in_month 1900 2 = some 28 ∧ days_in_month 2023 2 = some 28) :=
  ⟨by decide, days_in_month_gregorian 2024 2 (by decide) (by decide), by decide⟩

/-- Counterexample to C10: for month 0, outside 1..12, `days_in_month` signals
nothing and returns the placeholder entry of the table as a day count. -/
theorem days_in_month_zero : days_in_month 2020 0 = some 0 ∧ ¬ ((1 : Int) ≤ 0 ∧ (0 : Int) ≤ 12) := by
  decide

/-- Claim C10, amended. `days_in_month` has no check of the month: it returns a
value exactly for the months 0..12, the indices of the 13-entry table
`days_per_month` (a month outside 0..12 is a read outside the table), and for
month 0 the value is the placeholder 0. -/
theorem days_in_month_unchecked (year month : Int) :
    ((∃ d, days_in_month year month = some d) ↔ (0 ≤ month ∧ month ≤ 12)) ∧
    (days_in_month year month = none ↔ (month < 0 ∨ 12 < month)) ∧
    days_in_month year 0 = some 0 := by
  have key : (∃ d, days_in_month year month = some d) ↔ (0 ≤ month ∧ month ≤ 12) := by
    constructor
    · rintro ⟨d, hd⟩
      unfold days_in_month at hd
      by_cases hm : month = 2
      · omega
      · rw [if_pos hm] at hd
        unfold tableGet at hd
        by_cases h0 : 0 ≤ month
        · rw [if_pos h0] at hd
          have hlt : month.toNat < days_per_month.length := by
            by_contra hge
            rw [List.getElem?_eq_none (by omega)] at hd
            cases hd
          have : days_per_month.length = 13 := rfl
          omega
        · rw [if_neg h0] at hd
          cases hd
    · rintro ⟨h0, h12⟩
      by_cases h : month = 0
      · subst h; exact ⟨0, rfl⟩
      · exact days_in_month_isSome year month (by omega) h12
  refine ⟨key, ?_, rfl⟩
  constructor
  · intro hnone
    by_contra hcon
    obtain ⟨d, hd⟩ := key.mpr (by omega)
    rw [hnone] at hd
    cases hd
  · intro hout
    cases hres : days_in_month year month with
    | none => rfl
    | some d =>
      have := key.mp ⟨d, hres⟩
      omega

/-! ## Weekday fields of a daily row -/

/-- Every field that a call of the daily generator which hands back a row has
computed, in terms of the saved state, the static cache and the host. -/
theorem generate_daily_timetable_c_next_fields (H : PgHost)
    (cs cs1 : WdayCache × DailyTimetableState) (r : DailyTimetableEntry)
    (h : generate_daily_timetable_c H cs = some (Srf.next r, cs1)) :
    r.date = cs.2.current_date ∧
    r.dow = (if H.j2day (add32 cs.2.current_date H.POSTGRES_EPOCH_JDATE) = 0 then 7
      else H.j2day (add32 cs.2.current_date H.POSTGRES_EPOCH_JDATE)) ∧
    r.is_weekend = decide (H.j2day (add32 cs.2.current_date H.POSTGRES_EPOCH_JDATE) = 0 ∨
      H.j2day (add32 cs.2.current_date H.POSTGRES_EPOCH_JDATE) = 6) ∧
    r.y = (H.j2date (add32 cs.2.current_date H.POSTGRES_EPOCH_JDATE)).year ∧
    r.m = (H.j2date (add32 cs.2.current_date H.POSTGRES_EPOCH_JDATE)).month ∧
    r.d = (H.j2date (add32 cs.2.current_date H.POSTGRES_EPOCH_JDATE)).day ∧
    get_day_of_year r.y r.m r.d = some r.doy ∧
    tableGet month_to_quarter r.m = some r.q ∧
    r.w1 = get_calendar_week r.y r.doy (get_cached_jan1_wday H cs.1 r.y).1 ∧
    cs1.1 = (get_cached_jan1_wday H cs.1 r.y).2 ∧
    cs1.2.current_date = add32 cs.2.current_date 1 ∧
    cs1.2.days_processed = add32 cs.2.days_processed 1 ∧
    cs1.2.total_days = cs.2.total_days ∧
    cs.2.days_processed < cs.2.total_days := by
  unfold generate_daily_timetable_c at h
  simp only [] at h
  split at h
  · simp at h
  · rename_i hlt
    split at h
    · rename_i doy q hdoy hq
      simp only [Option.some.injEq, Prod.mk.injEq, Srf.next.injEq] at h
      obtain ⟨h1, h2⟩ := h
      subst h1 h2
      exact ⟨rfl, rfl, rfl, rfl, rfl, rfl, hdoy, hq, rfl, rfl, rfl, rfl, rfl, by omega⟩
    · simp at h

/-- Truncated division of a negative number, in terms of the mathematical
quotient of its opposite. -/
theorem tdiv_of_neg (a b : Int) (hb : 0 ≤ b) (ha : a ≤ 0) : Int.tdiv a b = -((-a) / b) := by
  have h1 : Int.tdiv (-(-a)) b = -(Int.tdiv (-a) b) := Int.neg_tdiv (-a) b
  rw [Int.neg_neg] at h1
  rw [h1, Int.tdiv_eq_ediv (by omega) hb]

/-- Truncated remainder of a negative number, in terms of the mathematical
remainder of its opposite. -/
theorem tmod_of_neg (a b : Int) (hb : 0 ≤ b) (ha : a ≤ 0) : Int.tmod a b = -((-a) % b) := by
  rw [Int.tmod_def, tdiv_of_neg a b hb ha, Int.emod_def]
  rw [Int.mul_neg]
  omega

/-- The weekday that PostgreSQL's `j2day` returns is always in 0..6. -/
theorem pg_j2day_range (jd : Int) : 0 ≤ pg.j2day jd ∧ pg.j2day jd ≤ 6 := by
  show 0 ≤ pg_j2day jd ∧ pg_j2day jd ≤ 6
  unfold pg_j2day
  simp only []
  generalize add32 jd 1 = a
  by_cases ha : 0 ≤ a
  · rw [Int.tmod_eq_emod ha (by decide)]
    rw [if_neg (by omega)]
    omega
  · rw [tmod_of_neg a 7 (by decide) (by omega)]
    split
    · have : add32 (-(-a % 7)) 7 = -(-a % 7) + 7 := wrap32_of_fits (by omega) (by omega)
      rw [this]; omega
    · omega

/-- A relation between what two calls in a row hand back, under a property of
the saved state that every call keeps, holds between every two neighbours of a
run. -/
theorem runN_consecutive_inv {σ ρ : Type} (step : σ → Option (Srf ρ × σ)) (Inv : σ → Prop)
    (R : Srf ρ → Srf ρ → Prop)
    (hinv : ∀ s o s1, Inv s → step s = some (o, s1) → Inv s1)
    (hpair : ∀ s o s1 o1 s2, Inv s → step s = some (o, s1) → step s1 = some (o1, s2) →
      R o o1) :
    ∀ (n : Nat) (s : σ) (outs : List (Srf ρ)) (final : σ), Inv s →
      runN step n s = some (outs, final) →
      ∀ (i : Nat) (o o1 : Srf ρ), outs[i]? = some o → outs[i + 1]? = some o1 → R o o1 := by
  intro n
  induction n with
  | zero =>
    intro s outs final _ h i o o1 hi
    simp [runN] at h
    rw [h.1] at hi
    simp at hi
  | succ n ih =>
    intro s outs final hs0 h i o o1 hi hi1
    rw [runN] at h
    cases hs : step s with
    | none => simp [hs] at h
    | some p =>
      obtain ⟨a, t⟩ := p
      rw [hs] at h
      cases ht : runN step n t with
      | none => simp [ht] at h
      | some q =>
        obtain ⟨rs, t2⟩ := q
        simp [ht] at h
        obtain ⟨h1, h2⟩ := h
        subst h1 h2
        cases i with
        | succ i =>
          simp at hi hi1
          exact ih t rs t2 (hinv s a t hs0 hs) ht i o o1 hi hi1
        | zero =>
          simp at hi hi1
          subst hi
          cases n with
          | zero =>
            simp [runN] at ht
            rw [ht.1] at hi1
            simp at hi1
          | succ n =>
            rw [runN] at ht
            cases hs1 : step t with
            | none => simp [hs1] at ht
            | some p1 =>
              obtain ⟨b, u⟩ := p1
              rw [hs1] at ht
              cases hu : runN step n u with
              | none => simp [hu] at ht
              | some q1 =>
                obtain ⟨rs1, u2⟩ := q1
                simp [hu] at ht
                rw [← ht.1] at hi1
                simp at hi1
                subst hi1
                exact hpair s _ t _ u hs0 hs hs1

/-- PostgreSQL's `j2day` is the weekday of the Julian day (0 = Sunday, Julian
day 0 being a Monday) for every Julian day from `-2^31` to `2^31 - 2`; at
`2^31 - 1` its own `date += 1` wraps. -/
theorem pg_j2day_weekday (jd : Int) (hlo : -2147483648 ≤ jd) (hhi : jd ≤ 2147483646) :
    pg.j2day jd = (jd + 1) % 7 := by
  show pg_j2day jd = (jd + 1) % 7
  unfold pg_j2day
  simp only []
  have e : add32 jd 1 = jd + 1 := wrap32_of_fits (by omega) (by omega)
  rw [e]
  by_cases ha : 0 ≤ jd + 1
  · rw [Int.tmod_eq_emod ha (by decide), if_neg (by omega)]
  · rw [tmod_of_neg (jd + 1) 7 (by decide) (by omega)]
    split
    · have : add32 (-(-(jd + 1) % 7)) 7 = -(-(jd + 1) % 7) + 7 :=
        wrap32_of_fits (by omega) (by omega)
      rw [this]; omega
    · omega

/-- Every row handed back along a run of the daily generator has as `dow` the
weekday that the host returns for the 32-bit Julian day of its date, with 0
replaced by 7. -/
theorem daily_rows_dow (H : PgHost)
    (n : Nat) (init final : WdayCache × DailyTimetableState)
    (outs : List (Srf DailyTimetableEntry))
    (hrun : runN (generate_daily_timetable_c H) n init = some (outs, final))
    (r : DailyTimetableEntry) (hr : Srf.next r ∈ outs) :
    r.dow = (if H.j2day (add32 r.date H.POSTGRES_EPOCH_JDATE) = 0 then 7
      else H.j2day (add32 r.date H.POSTGRES_EPOCH_JDATE)) := by
  have key := runN_outputs_inv (generate_daily_timetable_c H) (fun _ => True)
    (fun o => ∀ x, o = Srf.next x →
      x.dow = (if H.j2day (add32 x.date H.POSTGRES_EPOCH_JDATE) = 0 then 7
        else H.j2day (add32 x.date H.POSTGRES_EPOCH_JDATE)))
    (by
      intro s o s1 _ hstep
      refine ⟨?_, trivial⟩
      intro x hx
      subst hx
      obtain ⟨hdate, hdow, -⟩ := generate_daily_timetable_c_next_fields H s s1 x hstep
      rw [hdow, hdate])
    n init outs final trivial hrun
  exact key.1 _ hr r rfl

/-- Claim C12, amended. For a host whose `j2day` returns a value in 0..6 and is
the weekday of the Julian day (0 = Sunday) for every Julian day from `-2^31` to
`2^31 - 2`, as the `j2day` of PostgreSQL is, and whose `POSTGRES_EPOCH_JDATE`
is 2451545: every row handed back by a run of the daily generator has `dow` in
1..7, equal to 1 exactly when the host says Monday and to 7 exactly when it
says Sunday; a row whose Julian day `date + 2451545` lies in that range has
`dow = (Julian day mod 7) + 1`; a row for 2021-01-01 (day 7671 since
2000-01-01) has `dow = 5`; and for two consecutive rows whose Julian days
`date + 2451545` and `date + 2451546` lie in that range, the later `dow` is
`(earlier dow mod 7) + 1`. -/
theorem iso_weekday_follows_calendar (H : PgHost)
    (hrange : ∀ jd, 0 ≤ H.j2day jd ∧ H.j2day jd ≤ 6)
    (hday : ∀ jd, -2147483648 ≤ jd → jd ≤ 2147483646 → H.j2day jd = (jd + 1) % 7)
    (hepoch : H.POSTGRES_EPOCH_JDATE = 2451545)
    (n : Nat) (init final : WdayCache × DailyTimetableState)
    (outs : List (Srf DailyTimetableEntry))
    (hrun : runN (generate_daily_timetable_c H) n init = some (outs, final)) :
    (∀ r, Srf.next r ∈ outs →
      (1 ≤ r.dow ∧ r.dow ≤ 7) ∧
      (r.dow = 1 ↔ H.j2day (add32 r.date 2451545) = 1) ∧
      (r.dow = 7 ↔ H.j2day (add32 r.date 2451545) = 0) ∧
      (-2147483648 ≤ r.date + 2451545 → r.date + 2451545 ≤ 2147483646 →
        r.dow = (r.date + 2451545) % 7 + 1) ∧
      (r.date = 7671 → r.dow = 5)) ∧
    (∀ (i : Nat) (r r1 : DailyTimetableEntry), outs[i]? = some (Srf.next r) →
      outs[i + 1]? = some (Srf.next r1) →
      -2147483648 ≤ r.date + 2451545 → r.date + 2451546 ≤ 2147483646 →
      r1.dow = r.dow % 7 + 1) := by
  have hexact : ∀ r, Srf.next r ∈ outs → -2147483648 ≤ r.date + 2451545 →
      r.date + 2451545 ≤ 2147483646 → r.dow = (r.date + 2451545) % 7 + 1 := by
    intro r hr hlo hhi
    have hdow := daily_rows_dow H n init final outs hrun r hr
    rw [hepoch] at hdow
    have e : add32 r.date 2451545 = r.date + 2451545 := wrap32_of_fits hlo (by omega)
    rw [e, hday _ hlo hhi] at hdow
    rw [hdow]
    split <;> omega
  constructor
  · intro r hr
    have hdow := daily_rows_dow H n init final outs hrun r hr
    rw [hepoch] at hdow
    have hr6 := hrange (add32 r.date 2451545)
    refine ⟨?_, ?_, ?_, hexact r hr, ?_⟩
    · rw [hdow]; split <;> omega
    · rw [hdow]; split <;> omega
    · rw [hdow]; split <;> omega
    · intro h7671
      have := hexact r hr (by rw [h7671]; decide) (by rw [h7671]; decide)
      rw [this, h7671]
      decide
  · intro i r r1 hi hi1 hlo hhi
    have hdate : r1.date = add32 r.date 1 := by
      have key := runN_consecutive (generate_daily_timetable_c H)
        (fun o o1 => ∀ x x1, o = Srf.next x → o1 = Srf.next x1 → x1.date = add32 x.date 1)
        (by
          intro s o s1 o1 s2 hs hs1 x x1 hx hx1
          subst hx hx1
          obtain ⟨-, hd, -, hcur⟩ := generate_daily_timetable_c_next_inv H s s1 x hs
          obtain ⟨-, hd1, -, -⟩ := generate_daily_timetable_c_next_inv H s1 s2 x1 hs1
          rw [hd1, hcur, hd])
        n _ outs final hrun i _ _ hi hi1
      exact key r r1 rfl rfl
    have h0 := hexact r (List.getElem?_mem hi) hlo (by omega)
    have hdow1 := daily_rows_dow H n init final outs hrun r1 (List.getElem?_mem hi1)
    rw [hepoch] at hdow1
    have e1 : add32 r1.date 2451545 = r.date + 2451546 := by
      rw [hdate]
      have h1 : add32 (add32 r.date 1) 2451545 = wrap32 (r.date + 1 + 2451545) :=
        add32_wrap32_left _ _
      have : r.date + 1 + 2451545 = r.date + 2451546 := by omega
      rw [h1, this]
      exact wrap32_of_fits (by omega) (by omega)
    rw [e1, hday _ (by omega) hhi] at hdow1
    rw [h0, hdow1]
    split <;> omega

/-- Witness for C12, amended: with PostgreSQL as host, the first three rows of
the run 2021-01-01..2021-01-07, a Friday, a Saturday and a Sunday. -/
theorem iso_weekday_follows_calendar_witness :
    ((∀ jd, 0 ≤ pg.j2day jd ∧ pg.j2day jd ≤ 6) ∧
      (∀ jd, -2147483648 ≤ jd → jd ≤ 2147483646 → pg.j2day jd = (jd + 1) % 7) ∧
      pg.POSTGRES_EPOCH_JDATE = 2451545 ∧
      (runN (generate_daily_timetable_c pg) 3
        (generate_daily_timetable_c_first_call 0 (some 7671) (some 7677)
          WdayCache.static_init)).map (fun p => p.1) =
        some [Srf.next ⟨2025933, 7671, 2021, 1, 1, 1, 1, 5, 1, false, 1⟩,
              Srf.next ⟨2025934, 7672, 2021, 1, 1, 2, 1, 6, 2, true, 2⟩,
              Srf.next ⟨2025935, 7673, 2021, 1, 1, 3, 1, 7, 3, true, 3⟩]) ∧
    ((∀ r, Srf.next r ∈
        [Srf.next (⟨2025933, 7671, 2021, 1, 1, 1, 1, 5, 1, false, 1⟩ : DailyTimetableEntry),
         Srf.next ⟨2025934, 7672, 2021, 1, 1, 2, 1, 6, 2, true, 2⟩,
         Srf.next ⟨2025935, 7673, 2021, 1, 1, 3, 1, 7, 3, true, 3⟩] →
      (1 ≤ r.dow ∧ r.dow ≤ 7) ∧
      (r.dow = 1 ↔ pg.j2day (add32 r.date 2451545) = 1) ∧
      (r.dow = 7 ↔ pg.j2day (add32 r.date 2451545) = 0) ∧
      (-2147483648 ≤ r.date + 2451545 → r.date + 2451545 ≤ 2147483646 →
        r.dow = (r.date + 2451545) % 7 + 1) ∧
      (r.date = 7671 → r.dow = 5)) ∧
    (∀ (i : Nat) (r r1 : DailyTimetableEntry),
      [Srf.next (⟨2025933, 7671, 2021, 1, 1, 1, 1, 5, 1, false, 1⟩ : DailyTimetableEntry),
         Srf.next ⟨2025934, 7672, 2021, 1, 1, 2, 1, 6, 2, true, 2⟩,
         Srf.next ⟨2025935, 7673, 2021, 1, 1, 3, 1, 7, 3, true, 3⟩][i]?
        = some (Srf.next r) →
      [Srf.next (⟨2025933, 7671, 2021, 1, 1, 1, 1, 5, 1, false, 1⟩ : DailyTimetableEntry),
         Srf.next ⟨2025934, 7672, 2021, 1, 1, 2, 1, 6, 2, true, 2⟩,
         Srf.next ⟨2025935, 7673, 2021, 1, 1, 3, 1, 7, 3, true, 3⟩][i + 1]?
        = some (Srf.next r1) →
      -2147483648 ≤ r.date + 2451545 → r.date + 2451546 ≤ 2147483646 →
      r1.dow = r.dow % 7 + 1)) :=
  ⟨⟨pg_j2day_range, pg_j2day_weekday, rfl, by decide⟩,
   iso_weekday_follows_calendar pg pg_j2day_range pg_j2day_weekday rfl 3
     (generate_daily_timetable_c_first_call 0 (some 7671) (some 7677) WdayCache.static_init)
     _ _ rfl⟩

/-- Counterexample to C12: with PostgreSQL as host, the run over the dates
2145032101 and 2145032102 (passed by a run that ends at `infinity`) hands back
two consecutive rows with `dow` 1 and 5. The Julian day of the first,
`2145032101 + 2451545 = 2147483646`, is a Monday; the Julian day of the second
is `2147483647`, a Tuesday, for which `j2day` returns 5 because its
`date += 1` wraps. -/
theorem iso_weekday_wraps :
    isInt32 2145032101 ∧ isInt32 2145032102 ∧
    (runN (generate_daily_timetable_c pg) 2
        (generate_daily_timetable_c_first_call 0 (some 2145032101) (some 2145032102)
          WdayCache.static_init)).map
        (fun p => p.1.map (fun o => match o with
          | Srf.next r => some (r.date, r.dow)
          | Srf.done => none))
      = some [some (2145032101, 1), some (2145032102, 5)] ∧
    (5 : Int) ≠ 1 % 7 + 1 ∧
    ((2145032101 : Int) + 2451545 + 1) % 7 = 1 ∧
    ((2145032102 : Int) + 2451545 + 1) % 7 = 2 ∧
    pg.j2day (2145032102 + 2451545) = 5 := by
  decide

/-! ## The weekday cache -/

theorem take_set_succ {α : Type} (l : List α) (n : Nat) (a : α) (h : n < l.length) :
    (l.set n a).take (n + 1) = l.take n ++ [a] := by
  induction l generalizing n with
  | nil => simp at h
  | cons x xs ih =>
    cases n with
    | zero => simp
    | succ n => simp at h; simp [ih n h]

/-- The three ways a call of `get_cached_jan1_wday` can go: a hit, a miss that
is stored, a miss with the cache full. -/
theorem get_cached_jan1_wday_cases (H : PgHost) (c : WdayCache) (year : Int) :
    (∃ e, (c.wday_cache.take c.cache_entries).find? (fun e => e.year == year) = some e ∧
      get_cached_jan1_wday H c year = (e.jan1_wday, c)) ∨
    ((c.wday_cache.take c.cache_entries).find? (fun e => e.year == year) = none ∧
      c.cache_entries < WDAY_CACHE_SIZE ∧
      get_cached_jan1_wday H c year =
        (H.j2day (H.date2j year 1 1),
          { wday_cache := c.wday_cache.set c.cache_entries ⟨year, H.j2day (H.date2j year 1 1)⟩
            cache_entries := c.cache_entries + 1 })) ∨
    ((c.wday_cache.take c.cache_entries).find? (fun e => e.year == year) = none ∧
      ¬ c.cache_entries < WDAY_CACHE_SIZE ∧
      get_cached_jan1_wday H c year = (H.j2day (H.date2j year 1 1), c)) := by
  unfold get_cached_jan1_wday
  cases hf : (c.wday_cache.take c.cache_entries).find? (fun e => e.year == year) with
  | some e => exact Or.inl ⟨e, rfl, rfl⟩
  | none =>
    by_cases hlt : c.cache_entries < WDAY_CACHE_SIZE
    · refine Or.inr (Or.inl ⟨rfl, hlt, ?_⟩)
      simp only [hlt, if_true]
    · refine Or.inr (Or.inr ⟨rfl, hlt, ?_⟩)
      simp only [hlt, if_false]

/-- The search of the filled slots finds an entry exactly on a hit. -/
theorem cache_find_none_iff (c : WdayCache) (year : Int) :
    (c.wday_cache.take c.cache_entries).find? (fun e => e.year == year) = none ↔
      ¬ cache_hit c year := by
  unfold cache_hit
  rw [List.find?_eq_none]
  constructor
  · rintro h ⟨e, he, hy⟩
    exact h e he (by simp [hy])
  · intro h e he hy
    exact h ⟨e, he, by simpa using hy⟩

/-- In a valid cache `get_cached_jan1_wday` returns the weekday of January 1
of the year. -/
theorem get_cached_jan1_wday_fst (H : PgHost) (c : WdayCache) (year : Int)
    (hv : cache_valid H c) :
    (get_cached_jan1_wday H c year).1 = H.j2day (H.date2j year 1 1) := by
  rcases get_cached_jan1_wday_cases H c year with ⟨e, hf, hres⟩ | ⟨-, -, hres⟩ | ⟨-, -, hres⟩
  · rw [hres]
    have hmem := List.mem_of_find?_eq_some hf
    have hy : e.year = year := by simpa using List.find?_some hf
    show e.jan1_wday = _
    rw [hv.2.2 e hmem, hy]
  · rw [hres]
  · rw [hres]

/-- A call of `get_cached_jan1_wday` keeps the cache valid. -/
theorem get_cached_jan1_wday_valid (H : PgHost) (c : WdayCache) (year : Int)
    (hv : cache_valid H c) : cache_valid H (get_cached_jan1_wday H c year).2 := by
  rcases get_cached_jan1_wday_cases H c year with ⟨e, -, hres⟩ | ⟨-, hlt, hres⟩ | ⟨-, -, hres⟩
  · rw [hres]; exact hv
  · rw [hres]
    obtain ⟨hlen, hle, hall⟩ := hv
    refine ⟨?_, ?_, ?_⟩
    · show (c.wday_cache.set c.cache_entries _).length = WDAY_CACHE_SIZE
      rw [List.length_set]; exact hlen
    · show c.cache_entries + 1 ≤ WDAY_CACHE_SIZE
      omega
    · show ∀ e ∈ (c.wday_cache.set c.cache_entries _).take (c.cache_entries + 1), _
      rw [take_set_succ _ _ _ (by omega)]
      intro e he
      rw [List.mem_append] at he
      rcases he with he | he
      · exact hall e he
      · simp at he
        subst he
        rfl
  · rw [hres]; exact hv

/-- The cache that a first-call block of the daily generator leaves is valid
as soon as the array has its `WDAY_CACHE_SIZE` slots. -/
theorem first_call_cache_valid (H : PgHost) (today : Int) (start_arg end_arg : Option Int)
    (c : WdayCache) (hlen : c.wday_cache.length = WDAY_CACHE_SIZE) :
    cache_valid H (generate_daily_timetable_c_first_call today start_arg end_arg c).1 := by
  refine ⟨hlen, Nat.zero_le _, ?_⟩
  intro e he
  simp [generate_daily_timetable_c_first_call] at he

/-- Claim C17. In every cache state in which the array has its 10 slots,
`cache_entries ≤ 10` and each of the first `cache_entries` slots holds a pair
`(y, w)` with `w = j2day(date2j(y, 1, 1))`, for every year
`get_cached_jan1_wday(year)` returns exactly `j2day(date2j(year, 1, 1))`,
whether the lookup hits or misses, and leaves the cache in a state satisfying
the same condition; the cache that the first-call block of a daily run sets up
(`cache_entries = 0`) satisfies the condition. -/
theorem cache_transparent (H : PgHost) (c : WdayCache) (year : Int) (hv : cache_valid H c) :
    (get_cached_jan1_wday H c year).1 = H.j2day (H.date2j year 1 1) ∧
    (cache_hit c year → (get_cached_jan1_wday H c year).1 = H.j2day (H.date2j year 1 1)) ∧
    (¬ cache_hit c year →
      (get_cached_jan1_wday H c year).1 = H.j2day (H.date2j year 1 1)) ∧
    cache_valid H (get_cached_jan1_wday H c year).2 ∧
    (∀ (today : Int) (start_arg end_arg : Option Int),
      (generate_daily_timetable_c_first_call today start_arg end_arg c).1.cache_entries = 0 ∧
      cache_valid H (generate_daily_timetable_c_first_call today start_arg end_arg c).1) :=
  ⟨get_cached_jan1_wday_fst H c year hv,
   fun _ => get_cached_jan1_wday_fst H c year hv,
   fun _ => get_cached_jan1_wday_fst H c year hv,
   get_cached_jan1_wday_valid H c year hv,
   fun today start_arg end_arg =>
     ⟨rfl, first_call_cache_valid H today start_arg end_arg c hv.1⟩⟩

/-- Witness for C17: with PostgreSQL as host, the cache holding 2021 (whose
January 1 is a Friday) in its first slot, asked for 2021 (a hit) and for 2012
(a miss that is stored). -/
theorem cache_transparent_witness :
    cache_valid pg { wday_cache := ⟨2021, 5⟩ :: List.replicate 9 ⟨0, 0⟩, cache_entries := 1 } ∧
    ((get_cached_jan1_wday pg
        { wday_cache := ⟨2021, 5⟩ :: List.replicate 9 ⟨0, 0⟩, cache_entries := 1 } 2021).1
      = pg.j2day (pg.date2j 2021 1 1) ∧
    (cache_hit { wday_cache := ⟨2021, 5⟩ :: List.replicate 9 ⟨0, 0⟩, cache_entries := 1 } 2021 →
      (get_cached_jan1_wday pg
        { wday_cache := ⟨2021, 5⟩ :: List.replicate 9 ⟨0, 0⟩, cache_entries := 1 } 2021).1
      = pg.j2day (pg.date2j 2021 1 1)) ∧
    (¬ cache_hit { wday_cache := ⟨2021, 5⟩ :: List.replicate 9 ⟨0, 0⟩, cache_entries := 1 }
        2021 →
      (get_cached_jan1_wday pg
        { wday_cache := ⟨2021, 5⟩ :: List.replicate 9 ⟨0, 0⟩, cache_entries := 1 } 2021).1
      = pg.j2day (pg.date2j 2021 1 1)) ∧
    cache_valid pg (get_cached_jan1_wday pg
        { wday_cache := ⟨2021, 5⟩ :: List.replicate 9 ⟨0, 0⟩, cache_entries := 1 } 2021).2 ∧
    (∀ (today : Int) (start_arg end_arg : Option Int),
      (generate_daily_timetable_c_first_call today start_arg end_arg
        { wday_cache := ⟨2021, 5⟩ :: List.replicate 9 ⟨0, 0⟩, cache_entries := 1 }).1.cache_entries
        = 0 ∧
      cache_valid pg (generate_daily_timetable_c_first_call today start_arg end_arg
        { wday_cache := ⟨2021, 5⟩ :: List.replicate 9 ⟨0, 0⟩, cache_entries := 1 }).1)) ∧
    get_cached_jan1_wday pg
        { wday_cache := ⟨2021, 5⟩ :: List.replicate 9 ⟨0, 0⟩, cache_entries := 1 } 2021
      = (5, { wday_cache := ⟨2021, 5⟩ :: List.replicate 9 ⟨0, 0⟩, cache_entries := 1 }) ∧
    get_cached_jan1_wday pg
        { wday_cache := ⟨2021, 5⟩ :: List.replicate 9 ⟨0, 0⟩, cache_entries := 1 } 2012
      = (0, { wday_cache := ⟨2021, 5⟩ :: ⟨2012, 0⟩ :: List.replicate 8 ⟨0, 0⟩,
              cache_entries := 2 }) :=
  ⟨by decide,
   cache_transparent pg
     { wday_cache := ⟨2021, 5⟩ :: List.replicate 9 ⟨0, 0⟩, cache_entries := 1 } 2021
     (by decide),
   by decide, by decide⟩

/-- A call of `get_cached_jan1_wday` keeps the shape of the cache: the array
has its slots, at most `WDAY_CACHE_SIZE` are filled, and the years of the
filled slots are pairwise different. -/
theorem get_cached_jan1_wday_shape (H : PgHost) (c : WdayCache) (year : Int)
    (hlen : c.wday_cache.length = WDAY_CACHE_SIZE) (hle : c.cache_entries ≤ WDAY_CACHE_SIZE)
    (hnd : ((c.wday_cache.take c.cache_entries).map (fun e => e.year)).Nodup) :
    (get_cached_jan1_wday H c year).2.wday_cache.length = WDAY_CACHE_SIZE ∧
    (get_cached_jan1_wday H c year).2.cache_entries ≤ WDAY_CACHE_SIZE ∧
    (((get_cached_jan1_wday H c year).2.wday_cache.take
      (get_cached_jan1_wday H c year).2.cache_entries).map (fun e => e.year)).Nodup := by
  rcases get_cached_jan1_wday_cases H c year with ⟨e, -, hres⟩ | ⟨hf, hlt, hres⟩ | ⟨-, -, hres⟩
  · rw [hres]; exact ⟨hlen, hle, hnd⟩
  · rw [hres]
    refine ⟨?_, ?_, ?_⟩
    · show (c.wday_cache.set c.cache_entries _).length = WDAY_CACHE_SIZE
      rw [List.length_set]; exact hlen
    · show c.cache_entries + 1 ≤ WDAY_CACHE_SIZE
      omega
    · show (((c.wday_cache.set c.cache_entries _).take (c.cache_entries + 1)).map
        (fun e => e.year)).Nodup
      rw [take_set_succ _ _ _ (by omega), List.map_append, List.nodup_append]
      refine ⟨hnd, by simp, ?_⟩
      intro y hy hy1
      simp at hy1
      subst hy1
      rw [List.mem_map] at hy
      obtain ⟨e, he, hey⟩ := hy
      exact (cache_find_none_iff c y).mp hf ⟨e, he, hey⟩
  · rw [hres]; exact ⟨hlen, hle, hnd⟩

/-- Any sequence of calls of `get_cached_jan1_wday` keeps the shape of the
cache. -/
theorem cache_calls_shape (H : PgHost) (years : List Int) :
    ∀ c : WdayCache, c.wday_cache.length = WDAY_CACHE_SIZE →
      c.cache_entries ≤ WDAY_CACHE_SIZE →
      ((c.wday_cache.take c.cache_entries).map (fun e => e.year)).Nodup →
      (cache_calls H years c).wday_cache.length = WDAY_CACHE_SIZE ∧
      (cache_calls H years c).cache_entries ≤ WDAY_CACHE_SIZE ∧
      (((cache_calls H years c).wday_cache.take (cache_calls H years c).cache_entries).map
        (fun e => e.year)).Nodup := by
  induction years with
  | nil => intro c h1 h2 h3; exact ⟨h1, h2, h3⟩
  | cons y ys ih =>
    intro c h1 h2 h3
    obtain ⟨g1, g2, g3⟩ := get_cached_jan1_wday_shape H c y h1 h2 h3
    exact ih _ g1 g2 g3

/-- Claim C18. Let `c` be the cache reached from a state with
`cache_entries = 0` by any sequence of `get_cached_jan1_wday` calls. Then
`cache_entries` is between 0 and 10 and no year is held by two of the filled
slots; a further call never changes a filled slot; on a hit it leaves the whole
cache unchanged; on a miss with `cache_entries < 10` it fills exactly the next
slot with the requested year and its weekday and leaves every other slot as it
is; on a miss with `cache_entries = 10` it leaves the whole cache unchanged and
still returns the computed weekday. -/
theorem cache_bounded_never_evicts (H : PgHost) (c0 c : WdayCache) (years : List Int)
    (year : Int) (hlen : c0.wday_cache.length = WDAY_CACHE_SIZE) (h0 : c0.cache_entries = 0)
    (hc : c = cache_calls H years c0) :
    (0 ≤ c.cache_entries ∧ c.cache_entries ≤ 10) ∧
    ((c.wday_cache.take c.cache_entries).map (fun e => e.year)).Nodup ∧
    (∀ i, i < c.cache_entries →
      (get_cached_jan1_wday H c year).2.wday_cache[i]? = c.wday_cache[i]?) ∧
    (cache_hit c year → (get_cached_jan1_wday H c year).2 = c) ∧
    (¬ cache_hit c year → c.cache_entries < 10 →
      (get_cached_jan1_wday H c year).2.cache_entries = c.cache_entries + 1 ∧
      (get_cached_jan1_wday H c year).2.wday_cache[c.cache_entries]? =
        some ⟨year, H.j2day (H.date2j year 1 1)⟩ ∧
      (∀ i, i ≠ c.cache_entries →
        (get_cached_jan1_wday H c year).2.wday_cache[i]? = c.wday_cache[i]?)) ∧
    (¬ cache_hit c year → c.cache_entries = 10 →
      (get_cached_jan1_wday H c year).2 = c ∧
      (get_cached_jan1_wday H c year).1 = H.j2day (H.date2j year 1 1)) := by
  obtain ⟨g1, g2, g3⟩ := cache_calls_shape H years c0 hlen (by omega)
    (by rw [h0]; simp)
  rw [← hc] at g1 g2 g3
  have hsize : WDAY_CACHE_SIZE = 10 := rfl
  refine ⟨⟨Nat.zero_le _, by omega⟩, g3, ?_, ?_, ?_, ?_⟩
  · intro i hi
    rcases get_cached_jan1_wday_cases H c year with
      ⟨e, -, hres⟩ | ⟨-, hlt, hres⟩ | ⟨-, -, hres⟩
    · rw [hres]
    · rw [hres]
      show (c.wday_cache.set c.cache_entries _)[i]? = _
      exact List.getElem?_set_ne (by omega)
    · rw [hres]
  · intro hhit
    rcases get_cached_jan1_wday_cases H c year with
      ⟨e, -, hres⟩ | ⟨hf, -, -⟩ | ⟨hf, -, -⟩
    · rw [hres]
    · exact absurd hhit ((cache_find_none_iff c year).mp hf)
    · exact absurd hhit ((cache_find_none_iff c year).mp hf)
  · intro hmiss hlt
    rcases get_cached_jan1_wday_cases H c year with
      ⟨e, hf, -⟩ | ⟨-, -, hres⟩ | ⟨-, hge, -⟩
    · exact absurd (⟨e, List.mem_of_find?_eq_some hf, by simpa using List.find?_some hf⟩ :
        cache_hit c year) hmiss
    · rw [hres]
      refine ⟨rfl, ?_, ?_⟩
      · show (c.wday_cache.set c.cache_entries _)[c.cache_entries]? = _
        rw [List.getElem?_set]
        simp
        omega
      · intro i hi
        show (c.wday_cache.set c.cache_entries _)[i]? = _
        exact List.getElem?_set_ne (fun h => hi h.symm)
    · exact absurd (by omega) hge
  · intro hmiss h10
    rcases get_cached_jan1_wday_cases H c year with
      ⟨e, hf, -⟩ | ⟨-, hlt, -⟩ | ⟨-, -, hres⟩
    · exact absurd (⟨e, List.mem_of_find?_eq_some hf, by simpa using List.find?_some hf⟩ :
        cache_hit c year) hmiss
    · omega
    · rw [hres]; exact ⟨rfl, rfl⟩

/-- Witness for C18: with PostgreSQL as host, the cache reached from the
zeroed static storage by calls for 2021, 2012 and again 2021, then asked for
2020. -/
theorem cache_bounded_never_evicts_witness :
    (WdayCache.static_init.wday_cache.length = WDAY_CACHE_SIZE ∧
      WdayCache.static_init.cache_entries = 0 ∧
      ({ wday_cache := ⟨2021, 5⟩ :: ⟨2012, 0⟩ :: List.replicate 8 ⟨0, 0⟩,
         cache_entries := 2 } : WdayCache) =
        cache_calls pg [2021, 2012, 2021] WdayCache.static_init) ∧
    ((0 ≤ (2 : Nat) ∧ (2 : Nat) ≤ 10) ∧
    (((⟨2021, 5⟩ :: ⟨2012, 0⟩ :: List.replicate 8 (⟨0, 0⟩ : YearWdayCache)).take 2).map
      (fun e => e.year)).Nodup ∧
    (∀ i, i < 2 →
      (get_cached_jan1_wday pg
        { wday_cache := ⟨2021, 5⟩ :: ⟨2012, 0⟩ :: List.replicate 8 ⟨0, 0⟩,
          cache_entries := 2 } 2020).2.wday_cache[i]? =
      (⟨2021, 5⟩ :: ⟨2012, 0⟩ :: List.replicate 8 (⟨0, 0⟩ : YearWdayCache))[i]?) ∧
    (cache_hit { wday_cache := ⟨2021, 5⟩ :: ⟨2012, 0⟩ :: List.replicate 8 ⟨0, 0⟩,
                 cache_entries := 2 } 2020 →
      (get_cached_jan1_wday pg
        { wday_cache := ⟨2021, 5⟩ :: ⟨2012, 0⟩ :: List.replicate 8 ⟨0, 0⟩,
          cache_entries := 2 } 2020).2 =
        { wday_cache := ⟨2021, 5⟩ :: ⟨2012, 0⟩ :: List.replicate 8 ⟨0, 0⟩,
          cache_entries := 2 }) ∧
    (¬ cache_hit { wday_cache := ⟨2021, 5⟩ :: ⟨2012, 0⟩ :: List.replicate 8 ⟨0, 0⟩,
                   cache_entries := 2 } 2020 → 2 < 10 →
      (get_cached_jan1_wday pg
        { wday_cache := ⟨2021, 5⟩ :: ⟨2012, 0⟩ :: List.replicate 8 ⟨0, 0⟩,
          cache_entries := 2 } 2020).2.cache_entries = 2 + 1 ∧
      (get_cached_jan1_wday pg
        { wday_cache := ⟨2021, 5⟩ :: ⟨2012, 0⟩ :: List.replicate 8 ⟨0, 0⟩,
          cache_entries := 2 } 2020).2.wday_cache[2]? =
        some ⟨2020, pg.j2day (pg.date2j 2020 1 1)⟩ ∧
      (∀ i, i ≠ 2 →
        (get_cached_jan1_wday pg
          { wday_cache := ⟨2021, 5⟩ :: ⟨2012, 0⟩ :: List.replicate 8 ⟨0, 0⟩,
            cache_entries := 2 } 2020).2.wday_cache[i]? =
        (⟨2021, 5⟩ :: ⟨2012, 0⟩ :: List.replicate 8 (⟨0, 0⟩ : YearWdayCache))[i]?)) ∧
    (¬ cache_hit { wday_cache := ⟨2021, 5⟩ :: ⟨2012, 0⟩ :: List.replicate 8 ⟨0, 0⟩,
                   cache_entries := 2 } 2020 → 2 = 10 →
      (get_cached_jan1_wday pg
        { wday_cache := ⟨2021, 5⟩ :: ⟨2012, 0⟩ :: List.replicate 8 ⟨0, 0⟩,
          cache_entries := 2 } 2020).2 =
        { wday_cache := ⟨2021, 5⟩ :: ⟨2012, 0⟩ :: List.replicate 8 ⟨0, 0⟩,
          cache_entries := 2 } ∧
      (get_cached_jan1_wday pg
        { wday_cache := ⟨2021, 5⟩ :: ⟨2012, 0⟩ :: List.replicate 8 ⟨0, 0⟩,
          cache_entries := 2 } 2020).1 = pg.j2day (pg.date2j 2020 1 1))) ∧
    get_cached_jan1_wday pg
        { wday_cache := ⟨2021, 5⟩ :: ⟨2012, 0⟩ :: List.replicate 8 ⟨0, 0⟩,
          cache_entries := 2 } 2020 =
      (3, { wday_cache := ⟨2021, 5⟩ :: ⟨2012, 0⟩ :: ⟨2020, 3⟩ :: List.replicate 7 ⟨0, 0⟩,
            cache_entries := 3 }) :=
  ⟨⟨by decide, by decide, by decide⟩,
   cache_bounded_never_evicts pg WdayCache.static_init
     { wday_cache := ⟨2021, 5⟩ :: ⟨2012, 0⟩ :: List.replicate 8 ⟨0, 0⟩, cache_entries := 2 }
     [2021, 2012, 2021] 2020 (by decide) (by decide) (by decide),
   by decide⟩

/-! ## Isolation of daily runs -/

/-- What a call of the daily generator hands back and the saved state it
leaves do not depend on the contents of a valid cache. -/
theorem generate_daily_timetable_c_cache_independent (H : PgHost) (c ca : WdayCache)
    (s : DailyTimetableState) (hv : cache_valid H c) (hva : cache_valid H ca) :
    (generate_daily_timetable_c H (c, s)).map (fun p => (p.1, p.2.2)) =
      (generate_daily_timetable_c H (ca, s)).map (fun p => (p.1, p.2.2)) := by
  unfold generate_daily_timetable_c
  simp only []
  by_cases hd : s.days_processed ≥ s.total_days
  · rw [if_pos hd, if_pos hd]; rfl
  · rw [if_neg hd, if_neg hd]
    split
    · simp only [Option.map_some', get_cached_jan1_wday_fst H c _ hv,
        get_cached_jan1_wday_fst H ca _ hva]
    · rfl

/-- A call of the daily generator keeps the cache valid. -/
theorem generate_daily_timetable_c_cache_valid (H : PgHost)
    (cs cs1 : WdayCache × DailyTimetableState) (o : Srf DailyTimetableEntry)
    (hv : cache_valid H cs.1) (h : generate_daily_timetable_c H cs = some (o, cs1)) :
    cache_valid H cs1.1 := by
  cases o with
  | done =>
    unfold generate_daily_timetable_c at h
    simp only [] at h
    split at h
    · simp at h; rw [← h]; exact hv
    · split at h <;> simp at h
  | next r =>
    obtain ⟨-, -, -, -, -, -, -, -, -, hc, -⟩ :=
      generate_daily_timetable_c_next_fields H cs cs1 r h
    rw [hc]
    exact get_cached_jan1_wday_valid H cs.1 r.y hv

theorem TwoRuns.saved_save (sys : TwoRuns) (run : Bool) (c : WdayCache)
    (st : DailyTimetableState) : (sys.save run c st).saved run = some st := by
  cases run <;> rfl

theorem TwoRuns.saved_save_other (sys : TwoRuns) (run other : Bool) (c : WdayCache)
    (st : DailyTimetableState) (h : other ≠ run) :
    (sys.save run c st).saved other = sys.saved other := by
  cases run <;> cases other <;> first | rfl | exact absurd rfl h

theorem TwoRuns.cache_save (sys : TwoRuns) (run : Bool) (c : WdayCache)
    (st : DailyTimetableState) : (sys.save run c st).cache = c := by
  cases run <;> rfl

/-- A call on the shared storage keeps the cache valid, tags what it hands
back with its own run and leaves the saved state of the other run alone. -/
theorem two_runs_call_frame (H : PgHost) (sys sys1 : TwoRuns) (call : DailyCall)
    (o : List (Bool × Srf DailyTimetableEntry)) (hv : cache_valid H sys.cache)
    (h : two_runs_call H sys call = some (o, sys1)) :
    cache_valid H sys1.cache ∧ (∀ x ∈ o, x.1 = call.run) ∧
      (∀ other, other ≠ call.run → sys1.saved other = sys.saved other) := by
  cases call with
  | first_call run today start_arg end_arg =>
    simp only [two_runs_call, Option.some.injEq, Prod.mk.injEq] at h
    obtain ⟨h1, h2⟩ := h
    subst h1 h2
    refine ⟨?_, by simp, ?_⟩
    · rw [TwoRuns.cache_save]
      exact first_call_cache_valid H today start_arg end_arg sys.cache hv.1
    · intro other hne
      exact TwoRuns.saved_save_other _ _ _ _ _ hne
  | next run =>
    unfold two_runs_call at h
    cases hs : sys.saved run with
    | none => simp [hs] at h
    | some st =>
      simp only [hs] at h
      cases hg : generate_daily_timetable_c H (sys.cache, st) with
      | none => simp [hg] at h
      | some p =>
        obtain ⟨x, cs⟩ := p
        simp only [hg, Option.some.injEq, Prod.mk.injEq] at h
        obtain ⟨h1, h2⟩ := h
        subst h1 h2
        refine ⟨?_, by simp [DailyCall.run], ?_⟩
        · rw [TwoRuns.cache_save]
          exact generate_daily_timetable_c_cache_valid H (sys.cache, st) cs x hv hg
        · intro other hne
          exact TwoRuns.saved_save_other _ _ _ _ _ hne

/-- A call on the shared storage hands back the same and leaves the same
saved state for its run on any other storage with a valid cache and the same
saved state for that run. -/
theorem two_runs_call_sim (H : PgHost) (sys sysa sys1 : TwoRuns) (call : DailyCall)
    (o : List (Bool × Srf DailyTimetableEntry)) (hv : cache_valid H sys.cache)
    (hva : cache_valid H sysa.cache) (hs : sysa.saved call.run = sys.saved call.run)
    (h : two_runs_call H sys call = some (o, sys1)) :
    ∃ sys1a, two_runs_call H sysa call = some (o, sys1a) ∧
      sys1a.saved call.run = sys1.saved call.run ∧ cache_valid H sys1a.cache := by
  cases call with
  | first_call run today start_arg end_arg =>
    simp only [two_runs_call, Option.some.injEq, Prod.mk.injEq] at h
    obtain ⟨h1, h2⟩ := h
    subst h1 h2
    refine ⟨_, rfl, ?_, ?_⟩
    · show (TwoRuns.save _ run _ _).saved run = (TwoRuns.save _ run _ _).saved run
      rw [TwoRuns.saved_save, TwoRuns.saved_save]
      rfl
    · rw [TwoRuns.cache_save]
      exact first_call_cache_valid H today start_arg end_arg sysa.cache hva.1
  | next run =>
    have hs1 : sysa.saved run = sys.saved run := hs
    simp only [two_runs_call] at h ⊢
    cases hsv : sys.saved run with
    | none => simp [hsv] at h
    | some st =>
      rw [hs1]
      simp only [hsv] at h ⊢
      have hind := generate_daily_timetable_c_cache_independent H sys.cache sysa.cache st hv hva
      cases hg : generate_daily_timetable_c H (sys.cache, st) with
      | none => simp [hg] at h
      | some p =>
        obtain ⟨x, cs⟩ := p
        simp only [hg, Option.some.injEq, Prod.mk.injEq] at h
        obtain ⟨h1, h2⟩ := h
        subst h1 h2
        rw [hg] at hind
        cases hga : generate_daily_timetable_c H (sysa.cache, st) with
        | none => rw [hga] at hind; simp at hind
        | some pa =>
          obtain ⟨xa, csa⟩ := pa
          rw [hga] at hind
          simp only [Option.map_some', Option.some.injEq, Prod.mk.injEq] at hind
          obtain ⟨hx, hst⟩ := hind
          subst hx
          refine ⟨_, rfl, ?_, ?_⟩
          · show (TwoRuns.save _ run _ _).saved run = (TwoRuns.save _ run _ _).saved run
            rw [TwoRuns.saved_save, TwoRuns.saved_save, hst]
          · rw [TwoRuns.cache_save]
            exact generate_daily_timetable_c_cache_valid H (sysa.cache, st) csa x hva hga

/-- Claim C13. With the weekday cache as the one static storage that every
daily run uses and that every first-call block resets, take any sequence of
first-call blocks and per-call parts of two daily runs, in any interleaving,
executed from a storage with a valid cache. For each of the two runs, what the
interleaved calls hand back for it is exactly what its own calls hand back when
they are executed alone, in the same order, from any storage with a valid
cache in which the run has the same saved state (for instance from the program
start, where no run is open); the saved state of the run at the end is the
same too. -/
theorem daily_runs_isolated (H : PgHost) (calls : List DailyCall) (sys alone : TwoRuns)
    (run : Bool) (trace : List (Bool × Srf DailyTimetableEntry)) (final : TwoRuns)
    (hv : cache_valid H sys.cache) (hva : cache_valid H alone.cache)
    (hs : alone.saved run = sys.saved run)
    (hexec : two_runs_exec H calls sys = some (trace, final)) :
    ∃ final_alone,
      two_runs_exec H (calls.filter (fun call => call.run == run)) alone =
        some (trace.filter (fun x => x.1 == run), final_alone) ∧
      final_alone.saved run = final.saved run := by
  induction calls generalizing sys alone trace final with
  | nil =>
    simp only [two_runs_exec, Option.some.injEq, Prod.mk.injEq] at hexec
    obtain ⟨h1, h2⟩ := hexec
    subst h1 h2
    exact ⟨alone, rfl, hs⟩
  | cons call rest ih =>
    rw [two_runs_exec] at hexec
    cases hc : two_runs_call H sys call with
    | none => simp [hc] at hexec
    | some p =>
      obtain ⟨o, sys1⟩ := p
      rw [hc] at hexec
      cases hr : two_runs_exec H rest sys1 with
      | none => simp [hr] at hexec
      | some q =>
        obtain ⟨os, sys2⟩ := q
        simp only [hr, Option.some.injEq, Prod.mk.injEq] at hexec
        obtain ⟨h1, h2⟩ := hexec
        subst h1 h2
        obtain ⟨hv1, htag, hother⟩ := two_runs_call_frame H sys sys1 call o hv hc
        by_cases hrun : call.run = run
        · subst hrun
          obtain ⟨sys1a, hca, hsa, hva1⟩ := two_runs_call_sim H sys alone sys1 call o hv hva hs hc
          obtain ⟨fa, hfa, hfs⟩ := ih sys1 sys1a os sys2 hv1 hva1 hsa hr
          refine ⟨fa, ?_, hfs⟩
          have ho : o.filter (fun x => x.1 == call.run) = o := by
            rw [List.filter_eq_self]
            intro x hx
            simp [htag x hx]
          rw [List.filter_cons_of_pos (by simp), List.filter_append, ho, two_runs_exec, hca]
          simp only [hfa]
        · have hsame : alone.saved run = sys1.saved run := by
            rw [hs]; exact (hother run (fun h => hrun h.symm)).symm
          obtain ⟨fa, hfa, hfs⟩ := ih sys1 alone os sys2 hv1 hva hsame hr
          refine ⟨fa, ?_, hfs⟩
          have ho : o.filter (fun x => x.1 == run) = [] := by
            rw [List.filter_eq_nil_iff]
            intro x hx
            simp [htag x hx, hrun]
          rw [List.filter_cons_of_neg (by simp [hrun]), List.filter_append, ho, List.nil_append,
            hfa]

/-- Witness for C13: with PostgreSQL as host, run `false` over
2021-01-01..2021-01-02 and run `true` over 2012-12-31, interleaved so that the
second run is opened, and resets the cache, in the middle of the first. -/
theorem daily_runs_isolated_witness :
    (cache_valid pg WdayCache.static_init ∧
      (⟨WdayCache.static_init, none, none⟩ : TwoRuns).saved false = none ∧
      (two_runs_exec pg
        [DailyCall.first_call false 0 (some 7671) (some 7672), DailyCall.next false,
         DailyCall.first_call true 0 (some 4748) (some 4748), DailyCall.next true,
         DailyCall.next false, DailyCall.next false, DailyCall.next true]
        ⟨WdayCache.static_init, none, none⟩).map (fun p => p.1) =
        some [(false, Srf.next ⟨2025933, 7671, 2021, 1, 1, 1, 1, 5, 1, false, 1⟩),
              (true, Srf.next ⟨2023010, 4748, 2012, 4, 12, 31, 54, 1, 366, false, 1⟩),
              (false, Srf.next ⟨2025934, 7672, 2021, 1, 1, 2, 1, 6, 2, true, 2⟩),
              (false, Srf.done), (true, Srf.done)]) ∧
    (∃ final_alone,
      two_runs_exec pg
        ([DailyCall.first_call false 0 (some 7671) (some 7672), DailyCall.next false,
          DailyCall.first_call true 0 (some 4748) (some 4748), DailyCall.next true,
          DailyCall.next false, DailyCall.next false, DailyCall.next true].filter
            (fun call => call.run == false))
        ⟨WdayCache.static_init, none, none⟩ =
        some ([(false, Srf.next ⟨2025933, 7671, 2021, 1, 1, 1, 1, 5, 1, false, 1⟩),
              (true, Srf.next ⟨2023010, 4748, 2012, 4, 12, 31, 54, 1, 366, false, 1⟩),
              (false, Srf.next ⟨2025934, 7672, 2021, 1, 1, 2, 1, 6, 2, true, 2⟩),
              (false, Srf.done), (true, Srf.done)].filter (fun x => x.1 == false),
          final_alone) ∧
      final_alone.saved false =
        some { start_date := 7671, end_date := 7672, current_date := 7673, ord_counter := 3,
               total_days := 2, days_processed := 2,
               current_entry := ⟨2025934, 7672, 2021, 1, 1, 2, 1, 6, 2, true, 2⟩,
               done := false }) :=
  ⟨⟨by decide, rfl, by decide⟩,
   daily_runs_isolated pg
     [DailyCall.first_call false 0 (some 7671) (some 7672), DailyCall.next false,
      DailyCall.first_call true 0 (some 4748) (some 4748), DailyCall.next true,
      DailyCall.next false, DailyCall.next false, DailyCall.next true]
     ⟨WdayCache.static_init, none, none⟩ ⟨WdayCache.static_init, none, none⟩ false _ _
     (by decide) (by decide) rfl rfl⟩

theorem TwoRuns.save_saved_self (sys : TwoRuns) (run : Bool) (st : DailyTimetableState)
    (h : sys.saved run = some st) : sys.save run sys.cache st = sys := by
  obtain ⟨c, a, b⟩ := sys
  cases run
  · simp only [TwoRuns.saved] at h
    simp [TwoRuns.save, h.symm] at h ⊢
  · simp only [TwoRuns.saved] at h
    simp [TwoRuns.save, h.symm] at h ⊢

theorem TwoRuns.save_save (sys : TwoRuns) (run : Bool) (c c1 : WdayCache)
    (st st1 : DailyTimetableState) :
    (sys.save run c st).save run c1 st1 = sys.save run c1 st1 := by
  cases run <;> rfl

/-- A run driven alone on the shared storage is the run driven by `runN`: its
per-call parts hand back what `runN` collects, from the cache of the storage
and the saved state of the run. -/
theorem two_runs_exec_alone (H : PgHost) (run : Bool) :
    ∀ (n : Nat) (sys : TwoRuns) (st : DailyTimetableState), sys.saved run = some st →
      two_runs_exec H (List.replicate n (DailyCall.next run)) sys =
        (runN (generate_daily_timetable_c H) n (sys.cache, st)).map
          (fun p => (p.1.map (fun o => (run, o)), sys.save run p.2.1 p.2.2)) := by
  intro n
  induction n with
  | zero =>
    intro sys st hs
    simp only [List.replicate, two_runs_exec, runN, Option.map_some', List.map_nil]
    rw [TwoRuns.save_saved_self sys run st hs]
  | succ n ih =>
    intro sys st hs
    rw [List.replicate_succ, two_runs_exec, runN]
    simp only [two_runs_call, hs]
    cases hg : generate_daily_timetable_c H (sys.cache, st) with
    | none => rfl
    | some p =>
      obtain ⟨o, cs1⟩ := p
      simp only []
      have h1 := ih (sys.save run cs1.1 cs1.2) cs1.2 (TwoRuns.saved_save _ _ _ _)
      rw [TwoRuns.cache_save] at h1
      rw [h1]
      cases hr : runN (generate_daily_timetable_c H) n (cs1.1, cs1.2) with
      | none => simp [hr]
      | some q =>
        obtain ⟨rs, cs2⟩ := q
        simp [hr, TwoRuns.save_save]

/-! ## Monotonicity of the monthly uid -/

/-- Where a call of the monthly generator that hands back a row leaves the
saved state. -/
theorem generate_timetable_c_next_cursor (s s1 : TimetableState) (r : TimetableEntry)
    (h : generate_timetable_c s = some (Srf.next r, s1)) :
    s.months_processed < s.total_months ∧
    s1.start_year = s.start_year ∧ s1.end_year = s.end_year ∧
    s1.total_months = s.total_months ∧
    s1.months_processed = add32 s.months_processed 1 ∧
    s1.ord_counter = add32 s.ord_counter 1 ∧
    s1.current_month =
      (if add32 s.current_month 1 > 12 then 1 else add32 s.current_month 1) ∧
    s1.current_year =
      (if add32 s.current_month 1 > 12 then add32 s.current_year 1 else s.current_year) ∧
    r.uid = monthly_uid s.current_year s.current_month ∧
    r.y = s.current_year ∧ r.m = s.current_month := by
  unfold generate_timetable_c at h
  split at h
  · simp at h
  · rename_i hlt
    split at h
    · simp only [Option.some.injEq, Prod.mk.injEq, Srf.next.injEq] at h
      obtain ⟨h1, h2⟩ := h
      subst h1 h2
      exact ⟨by omega, rfl, rfl, rfl, rfl, rfl, rfl, rfl, rfl, rfl, rfl⟩
    · simp at h

/-- The month cursor of the monthly generator stays in 1..12. -/
theorem generate_timetable_c_month_range (s s1 : TimetableState) (o : Srf TimetableEntry)
    (hm : 1 ≤ s.current_month ∧ s.current_month ≤ 12)
    (h : generate_timetable_c s = some (o, s1)) :
    1 ≤ s1.current_month ∧ s1.current_month ≤ 12 := by
  cases o with
  | done =>
    rw [generate_timetable_c_done_inv s s1 h]; exact hm
  | next r =>
    obtain ⟨-, -, -, -, -, -, hcm, -⟩ := generate_timetable_c_next_cursor s s1 r h
    have : add32 s.current_month 1 = s.current_month + 1 :=
      wrap32_of_fits (by omega) (by omega)
    rw [hcm, this]
    split <;> omega

/-- The uid of the month after `(y, m)` is the uid of `(y, m)` plus one, in
32-bit arithmetic. -/
theorem monthly_uid_succ (y m : Int) (h1 : 1 ≤ m) (h2 : m ≤ 12) :
    monthly_uid (if add32 m 1 > 12 then add32 y 1 else y)
        (if add32 m 1 > 12 then 1 else add32 m 1) = add32 (monthly_uid y m) 1 := by
  have hm : add32 m 1 = m + 1 := wrap32_of_fits (by omega) (by omega)
  unfold monthly_uid
  rw [monthly_uid_wrap, monthly_uid_wrap, add32_wrap32_left, hm]
  by_cases h12 : m = 12
  · subst h12
    rw [if_pos (by decide), if_pos (by decide)]
    show wrap32 (20000 + (wrap32 (y + 1) - 1950) * 12 + (1 - 1)) = _
    unfold wrap32
    omega
  · rw [if_neg (by omega), if_neg (by omega)]
    congr 1
    omega

/-- Claim C14. For all years `y1`, `y2` and months `m1`, `m2` in 1..12 whose
uid `20000 + (y - 1950) * 12 + (m - 1)` fits in 32 bits, the uid computed by
the code is that value, and `(y1, m1)` is lexicographically smaller than
`(y2, m2)` if and only if the uid of the first is smaller than the uid of the
second; so distinct months get distinct uids. For two consecutive rows of a
run, December followed by January included, the later uid is the earlier uid
plus 1 in 32-bit arithmetic, hence exactly the earlier uid plus 1 when the
earlier uid is not `2^31 - 1`, in particular when the uids of both rows fit in
32 bits. -/
theorem monthly_uid_monotonic (y1 m1 y2 m2 : Int)
    (hm1 : 1 ≤ m1 ∧ m1 ≤ 12) (hm2 : 1 ≤ m2 ∧ m2 ≤ 12)
    (hf1 : isInt32 (20000 + (y1 - 1950) * 12 + (m1 - 1)))
    (hf2 : isInt32 (20000 + (y2 - 1950) * 12 + (m2 - 1))) :
    monthly_uid y1 m1 = 20000 + (y1 - 1950) * 12 + (m1 - 1) ∧
    monthly_uid y2 m2 = 20000 + (y2 - 1950) * 12 + (m2 - 1) ∧
    ((y1 < y2 ∨ (y1 = y2 ∧ m1 < m2)) ↔ monthly_uid y1 m1 < monthly_uid y2 m2) ∧
    ((y1 < y2 ∨ (y1 = y2 ∧ m1 < m2)) ↔
      20000 + (y1 - 1950) * 12 + (m1 - 1) < 20000 + (y2 - 1950) * 12 + (m2 - 1)) ∧
    ((y1, m1) ≠ (y2, m2) → monthly_uid y1 m1 ≠ monthly_uid y2 m2) ∧
    (∀ (start_year end_year : Int) (n : Nat) (outs : List (Srf TimetableEntry))
      (final : TimetableState) (i : Nat) (r r1 : TimetableEntry),
      runN generate_timetable_c n (generate_timetable_c_first_call start_year end_year)
        = some (outs, final) →
      outs[i]? = some (Srf.next r) → outs[i + 1]? = some (Srf.next r1) →
      r.uid = monthly_uid r.y r.m ∧ r1.uid = monthly_uid r1.y r1.m ∧
      (r.m = 12 → r1.m = 1 ∧ r1.y = add32 r.y 1) ∧
      (r.m ≠ 12 → r1.m = r.m + 1 ∧ r1.y = r.y) ∧
      r1.uid = add32 r.uid 1 ∧
      (r.uid < 2147483647 → r1.uid = r.uid + 1) ∧
      (isInt32 (20000 + (r.y - 1950) * 12 + (r.m - 1)) →
        isInt32 (20000 + (r1.y - 1950) * 12 + (r1.m - 1)) → r1.uid = r.uid + 1)) := by
  have e1 : monthly_uid y1 m1 = 20000 + (y1 - 1950) * 12 + (m1 - 1) := by
    unfold monthly_uid
    rw [monthly_uid_wrap]; exact wrap32_of_fits hf1.1 hf1.2
  have e2 : monthly_uid y2 m2 = 20000 + (y2 - 1950) * 12 + (m2 - 1) := by
    unfold monthly_uid
    rw [monthly_uid_wrap]; exact wrap32_of_fits hf2.1 hf2.2
  refine ⟨e1, e2, ?_, ?_, ?_, ?_⟩
  · rw [e1, e2]; omega
  · omega
  · intro hne
    rw [e1, e2]
    intro heq
    apply hne
    have hy : y1 = y2 := by omega
    have hm : m1 = m2 := by omega
    rw [hy, hm]
  · intro start_year end_year n outs final i r r1 hrun hi hi1
    have key := runN_consecutive_inv generate_timetable_c
      (fun s => 1 ≤ s.current_month ∧ s.current_month ≤ 12)
      (fun o o1 => ∀ x x1, o = Srf.next x → o1 = Srf.next x1 →
        (1 ≤ x.m ∧ x.m ≤ 12) ∧ x.uid = monthly_uid x.y x.m ∧
        x1.uid = monthly_uid x1.y x1.m ∧
        x1.m = (if add32 x.m 1 > 12 then 1 else add32 x.m 1) ∧
        x1.y = (if add32 x.m 1 > 12 then add32 x.y 1 else x.y))
      (fun s o s1 hm h => generate_timetable_c_month_range s s1 o hm h)
      (by
        intro s o s1 o1 s2 hm hs hs1 x x1 hx hx1
        subst hx hx1
        obtain ⟨-, -, -, -, -, -, hcm, hcy, hu, hy, hmm⟩ :=
          generate_timetable_c_next_cursor s s1 x hs
        obtain ⟨-, -, -, -, -, -, -, -, hu1, hy1, hmm1⟩ :=
          generate_timetable_c_next_cursor s1 s2 x1 hs1
        refine ⟨by rw [hmm]; exact hm, ?_, ?_, ?_, ?_⟩
        · rw [hu, hy, hmm]
        · rw [hu1, hy1, hmm1]
        · rw [hmm1, hcm, hmm]
        · rw [hy1, hcy, hmm, hy])
      n _ outs final (by show (1 : Int) ≤ 1 ∧ (1 : Int) ≤ 12; omega) hrun i _ _ hi hi1
    obtain ⟨hm, hu, hu1, hmn, hyn⟩ := key r r1 rfl rfl
    have hadd : add32 r.m 1 = r.m + 1 := wrap32_of_fits (by omega) (by omega)
    have hsucc : r1.uid = add32 r.uid 1 := by
      rw [hu1, hu, hmn, hyn]
      exact monthly_uid_succ r.y r.m hm.1 hm.2
    have huw : r.uid = wrap32 (20000 + (r.y - 1950) * 12 + (r.m - 1)) := by
      rw [hu]; unfold monthly_uid; exact monthly_uid_wrap _ _
    have hlo := (wrap32_range (20000 + (r.y - 1950) * 12 + (r.m - 1))).1
    rw [← huw] at hlo
    refine ⟨hu, hu1, ?_, ?_, hsucc, ?_, ?_⟩
    · intro h12
      rw [hmn, hyn, hadd, h12]
      exact ⟨by decide, by rw [if_pos (by decide)]⟩
    · intro h12
      rw [hmn, hyn, hadd, if_neg (by omega), if_neg (by omega)]
      exact ⟨rfl, rfl⟩
    · intro hlt
      rw [hsucc]
      exact wrap32_of_fits (by omega) (by omega)
    · intro hfr hfr1
      have er : r.uid = 20000 + (r.y - 1950) * 12 + (r.m - 1) := by
        rw [huw]; exact wrap32_of_fits hfr.1 hfr.2
      have er1 : r1.uid = 20000 + (r1.y - 1950) * 12 + (r1.m - 1) := by
        rw [hu1]; unfold monthly_uid; rw [monthly_uid_wrap]
        exact wrap32_of_fits hfr1.1 hfr1.2
      have hm1 : r1.m = (if r.m = 12 then 1 else r.m + 1) := by
        rw [hmn, hadd]
        by_cases h12 : r.m = 12
        · rw [if_pos h12, if_pos (by omega)]
        · rw [if_neg h12, if_neg (by omega)]
      by_cases hmax : r.uid < 2147483647
      · rw [hsucc]; exact wrap32_of_fits (by omega) (by omega)
      · exfalso
        have hrmax : r.uid = 2147483647 := by
          have := hfr.2
          omega
        have h1min : r1.uid = -2147483648 := by
          rw [hsucc, hrmax]; decide
        rw [er] at hrmax
        rw [er1] at h1min
        have h12 : r.m = 12 := by omega
        rw [h12, if_pos rfl] at hm1
        rw [hm1] at h1min
        omega

/-- Witness for C14: December 2020 and January 2021, with uids 20851 and
20852. -/
theorem monthly_uid_monotonic_witness :
    (((1 : Int) ≤ 12 ∧ (12 : Int) ≤ 12) ∧ ((1 : Int) ≤ 1 ∧ (1 : Int) ≤ 12) ∧
      isInt32 (20000 + ((2020 : Int) - 1950) * 12 + ((12 : Int) - 1)) ∧
      isInt32 (20000 + ((2021 : Int) - 1950) * 12 + ((1 : Int) - 1))) ∧
    (monthly_uid 2020 12 = 20000 + ((2020 : Int) - 1950) * 12 + ((12 : Int) - 1) ∧
    monthly_uid 2021 1 = 20000 + ((2021 : Int) - 1950) * 12 + ((1 : Int) - 1) ∧
    (((2020 : Int) < 2021 ∨ ((2020 : Int) = 2021 ∧ (12 : Int) < 1)) ↔
      monthly_uid 2020 12 < monthly_uid 2021 1) ∧
    (((2020 : Int) < 2021 ∨ ((2020 : Int) = 2021 ∧ (12 : Int) < 1)) ↔
      20000 + ((2020 : Int) - 1950) * 12 + ((12 : Int) - 1) <
        20000 + ((2021 : Int) - 1950) * 12 + ((1 : Int) - 1)) ∧
    (((2020 : Int), (12 : Int)) ≠ (2021, 1) → monthly_uid 2020 12 ≠ monthly_uid 2021 1) ∧
    (∀ (start_year end_year : Int) (n : Nat) (outs : List (Srf TimetableEntry))
      (final : TimetableState) (i : Nat) (r r1 : TimetableEntry),
      runN generate_timetable_c n (generate_timetable_c_first_call start_year end_year)
        = some (outs, final) →
      outs[i]? = some (Srf.next r) → outs[i + 1]? = some (Srf.next r1) →
      r.uid = monthly_uid r.y r.m ∧ r1.uid = monthly_uid r1.y r1.m ∧
      (r.m = 12 → r1.m = 1 ∧ r1.y = add32 r.y 1) ∧
      (r.m ≠ 12 → r1.m = r.m + 1 ∧ r1.y = r.y) ∧
      r1.uid = add32 r.uid 1 ∧
      (r.uid < 2147483647 → r1.uid = r.uid + 1) ∧
      (isInt32 (20000 + (r.y - 1950) * 12 + (r.m - 1)) →
        isInt32 (20000 + (r1.y - 1950) * 12 + (r1.m - 1)) → r1.uid = r.uid + 1))) ∧
    (monthly_uid 2020 12 = 20851 ∧ monthly_uid 2021 1 = 20852 ∧
      ((runN generate_timetable_c 13 (generate_timetable_c_first_call 2020 2021)).map
        (fun p => (p.1.drop 11).map (fun o => match o with
          | Srf.next r => some (r.y, r.m, r.uid)
          | Srf.done => none))) = some [some (2020, 12, 20851), some (2021, 1, 20852)]) :=
  ⟨by decide,
   monthly_uid_monotonic 2020 12 2021 1 (by decide) (by decide) (by decide) (by decide),
   by decide⟩

/-! ## Day of the year -/

/-- The table `month_day_offsets`, corrected for a leap year after February,
holds the sums of the month lengths. -/
theorem days_before_month_eq (year month : Int) (h1 : 1 ≤ month) (h2 : month ≤ 12) :
    days_before_month year month =
      (tableGet month_day_offsets month).map
        (fun off => off + (if month > 2 ∧ leap_year_expr year = true then 1 else 0)) := by
  unfold days_before_month days_in_month
  generalize leap_year_expr year = b
  interval_cases month <;> cases b <;> decide

/-- The value `get_day_of_year` returns, as one reduction to 32 bits. -/
theorem get_day_of_year_wrap (year month day : Int) (h1 : 1 ≤ month) (h2 : month ≤ 12) :
    ∃ off, tableGet month_day_offsets month = some off ∧
      get_day_of_year year month day =
        some (wrap32 (day + (off + (if month > 2 ∧ leap_year_expr year = true then 1 else 0))))
      := by
  obtain ⟨off, hoff⟩ := month_day_offsets_get month h1 h2
  refine ⟨off, hoff, ?_⟩
  unfold get_day_of_year
  rw [hoff]
  simp only [Option.map_some']
  have e : add32 off day = wrap32 (off + day) := rfl
  split
  · rw [e, add32_wrap32_left]
    congr 2; omega
  · rw [e]
    congr 2; omega

/-- The days before a month and the length of the month stay within the
length of the year. -/
theorem days_before_month_bound (year month off dim : Int) (h1 : 1 ≤ month) (h2 : month ≤ 12)
    (hoff : tableGet month_day_offsets month = some off)
    (hdim : days_in_month year month = some dim) :
    0 ≤ off ∧ 1 ≤ dim ∧
      off + (if month > 2 ∧ leap_year_expr year = true then 1 else 0) + dim ≤
        (if leap_year_expr year = true then 366 else 365) := by
  unfold days_in_month at hdim
  revert hoff hdim
  generalize leap_year_expr year = b
  interval_cases month <;> cases b <;>
    simp [tableGet, month_day_offsets, days_per_month] <;> intros <;> omega

/-- Claim C16, amended. For every year, every month in 1..12 and every day,
`get_day_of_year(year, month, day)` is `day` plus the sum of
`days_in_month(year, k)` over `k = 1..month-1`, reduced to 32 bits, hence exactly
that sum whenever it fits in a signed 32-bit integer; so for every valid date
(`1 ≤ day ≤ days_in_month(year, month)`) it is exactly that sum and lies
between 1 and 365, or 366 in a leap year; it is 1 for January 1 and 365, or
366 in a leap year, for December 31. -/
theorem day_of_year_agrees (year month day : Int) (h1 : 1 ≤ month) (h2 : month ≤ 12) :
    ∃ s, days_before_month year month = some s ∧
      get_day_of_year year month day = some (wrap32 (day + s)) ∧
      (isInt32 (day + s) → get_day_of_year year month day = some (day + s)) ∧
      (∀ dim, days_in_month year month = some dim → 1 ≤ day → day ≤ dim →
        get_day_of_year year month day = some (day + s) ∧ 1 ≤ day + s ∧
        day + s ≤ (if gregorian_leap_year year then 366 else 365)) ∧
      get_day_of_year year 1 1 = some 1 ∧
      get_day_of_year year 12 31 = some (if gregorian_leap_year year then 366 else 365) := by
  obtain ⟨off, hoff, hdoy⟩ := get_day_of_year_wrap year month day h1 h2
  have hsum := days_before_month_eq year month h1 h2
  rw [hoff] at hsum
  simp only [Option.map_some'] at hsum
  have hleap : (leap_year_expr year = true) ↔ gregorian_leap_year year := leap_year_expr_iff year
  refine ⟨_, hsum, hdoy, ?_, ?_, ?_, ?_⟩
  · intro hfit
    rw [hdoy, wrap32_of_fits hfit.1 hfit.2]
  · intro dim hdim hd1 hd2
    obtain ⟨b0, b1, b2⟩ := days_before_month_bound year month off dim h1 h2 hoff hdim
    have hnn : 0 ≤ (if month > 2 ∧ leap_year_expr year = true then (1 : Int) else 0) := by
      split <;> decide
    have hle : (if leap_year_expr year = true then (366 : Int) else 365) ≤ 366 := by
      split <;> decide
    have heq : (if gregorian_leap_year year then (366 : Int) else 365) =
        (if leap_year_expr year = true then 366 else 365) := by
      by_cases hl : leap_year_expr year = true
      · rw [if_pos hl, if_pos (hleap.mp hl)]
      · rw [if_neg hl, if_neg (fun h => hl (hleap.mpr h))]
    rw [heq]
    refine ⟨?_, by omega, by omega⟩
    rw [hdoy, wrap32_of_fits (by omega) (by omega)]
  · rfl
  · by_cases hl : leap_year_expr year = true
    · rw [if_pos (hleap.mp hl)]
      simp [get_day_of_year, tableGet, month_day_offsets, hl, add32, wrap32]
    · rw [if_neg (fun h => hl (hleap.mpr h))]
      simp [get_day_of_year, tableGet, month_day_offsets, hl, add32, wrap32]

/-- Witness for C16, amended: 2024-03-01 is day 61 of the leap year 2024. -/
theorem day_of_year_agrees_witness :
    ((1 : Int) ≤ 3 ∧ (3 : Int) ≤ 12) ∧
    (∃ s, days_before_month 2024 3 = some s ∧
      get_day_of_year 2024 3 1 = some (wrap32 (1 + s)) ∧
      (isInt32 (1 + s) → get_day_of_year 2024 3 1 = some (1 + s)) ∧
      (∀ dim, days_in_month 2024 3 = some dim → (1 : Int) ≤ 1 → 1 ≤ dim →
        get_day_of_year 2024 3 1 = some (1 + s) ∧ 1 ≤ 1 + s ∧
        1 + s ≤ (if gregorian_leap_year 2024 then 366 else 365)) ∧
      get_day_of_year 2024 1 1 = some 1 ∧
      get_day_of_year 2024 12 31 = some (if gregorian_leap_year 2024 then 366 else 365)) ∧
    (days_before_month 2024 3 = some 60 ∧ get_day_of_year 2024 3 1 = some 61 ∧
      get_day_of_year 2023 12 31 = some 365 ∧ get_day_of_year 2024 12 31 = some 366) :=
  ⟨by decide, day_of_year_agrees 2024 3 1 (by decide) (by decide), by decide⟩

/-- Counterexample to C16: for the day `2147483647` of February the sum
`31 + 2147483647` does not fit in 32 bits and `get_day_of_year` returns
`-2147483618`. -/
theorem day_of_year_overflows :
    days_before_month 2021 2 = some 31 ∧
    get_day_of_year 2021 2 2147483647 = some (-2147483618) ∧
    (-2147483618 : Int) ≠ 2147483647 + 31 := by
  decide

/-! ## Default bounds of the daily run -/

/-- The run of the daily generator between two supplied bounds: the rows and
the closing `done`. -/
theorem daily_run_rows (H : PgHost)
    (hmonth : ∀ jd, 1 ≤ (H.j2date jd).month ∧ (H.j2date jd).month ≤ 12)
    (c : WdayCache) (today start_date end_date : Int)
    (hs : isInt32 start_date) (he : isInt32 end_date) (hle : start_date ≤ end_date)
    (hfit : end_date - start_date + 1 ≤ 2147483647) :
    ∃ (rows : List DailyTimetableEntry) (final : WdayCache × DailyTimetableState),
      runN (generate_daily_timetable_c H) ((end_date - start_date + 1).toNat + 1)
          (generate_daily_timetable_c_first_call today (some start_date) (some end_date) c)
        = some (rows.map Srf.next ++ [Srf.done], final) ∧
      rows.length = (end_date - start_date + 1).toNat ∧
      (∀ (k : Nat) (r : DailyTimetableEntry), rows[k]? = some r →
        r.date = start_date + (k : Int) ∧ r.ord = (k : Int) + 1) := by
  obtain ⟨hs1, hs2⟩ := hs
  obtain ⟨he1, he2⟩ := he
  generalize hN : (end_date - start_date + 1).toNat = N
  have hNi : (N : Int) = end_date - start_date + 1 := by omega
  have key := runN_rows (generate_daily_timetable_c H)
    (fun j cs => cs.2.total_days = (N : Int) ∧ cs.2.days_processed = (j : Int) ∧
      cs.2.ord_counter = wrap32 ((j : Int) + 1) ∧
      cs.2.current_date = wrap32 (start_date + (j : Int)))
    (fun k r => r.date = start_date + (k : Int) ∧ r.ord = (k : Int) + 1) N
    (fun j cs hj ⟨ht, hp, ho, hd⟩ =>
      daily_step_inv H hmonth start_date end_date N hs1 he2 hNi (by omega) j cs hj ht hp ho hd)
    N 0 (generate_daily_timetable_c_first_call today (some start_date) (some end_date) c)
    (by omega)
    (by
      refine ⟨?_, rfl, rfl, ?_⟩
      · show add32 (sub32 end_date start_date) 1 = _
        have h1 : sub32 end_date start_date = end_date - start_date :=
          wrap32_of_fits (by omega) (by omega)
        rw [h1, hNi]
        exact wrap32_of_fits (by omega) (by omega)
      · show start_date = _
        simp only [Nat.cast_zero, add_zero]
        exact (wrap32_of_fits hs1 hs2).symm)
  obtain ⟨rows, final, hrun, hlen, hrows, hfin⟩ := key
  refine ⟨rows, final, ?_, hlen, ?_⟩
  · exact runN_then_done _ _ _ _ _ hrun
      (generate_daily_timetable_c_exhausted H final (by rw [hfin.1, hfin.2.1]))
  · intro k r hk
    have := hrows k r hk
    simpa using this

/-- The defaults of the daily bounds relative to the value `today` that
`get_current_date()` returned (with `today - 100` and `today + 100` 32-bit
dates): a bound that is not supplied is `today - 100`, respectively
`today + 100`, whether or not the other one is supplied, and the first-call
block leaves the same state as with both bounds supplied at these values;
whenever the resolved bounds are in order with a 32-bit day count, the run
hands back one row for each day from the resolved start to the resolved end
and then `done`; with neither bound supplied these are 201 rows. -/
theorem daily_default_window (H : PgHost)
    (hmonth : ∀ jd, 1 ≤ (H.j2date jd).month ∧ (H.j2date jd).month ≤ 12)
    (c : WdayCache) (today : Int)
    (hlo : -2147483548 ≤ today) (hhi : today ≤ 2147483547)
    (start_arg end_arg : Option Int) :
    generate_daily_timetable_c_first_call today start_arg end_arg c =
      generate_daily_timetable_c_first_call today (some (start_arg.getD (today - 100)))
        (some (end_arg.getD (today + 100))) c ∧
    (isInt32 (start_arg.getD (today - 100)) → isInt32 (end_arg.getD (today + 100)) →
      start_arg.getD (today - 100) ≤ end_arg.getD (today + 100) →
      end_arg.getD (today + 100) - start_arg.getD (today - 100) + 1 ≤ 2147483647 →
      ∃ (rows : List DailyTimetableEntry) (final : WdayCache × DailyTimetableState),
        runN (generate_daily_timetable_c H)
            ((end_arg.getD (today + 100) - start_arg.getD (today - 100) + 1).toNat + 1)
            (generate_daily_timetable_c_first_call today start_arg end_arg c)
          = some (rows.map Srf.next ++ [Srf.done], final) ∧
        rows.length = (end_arg.getD (today + 100) - start_arg.getD (today - 100) + 1).toNat ∧
        (∀ (k : Nat) (r : DailyTimetableEntry), rows[k]? = some r →
          r.date = start_arg.getD (today - 100) + (k : Int) ∧ r.ord = (k : Int) + 1)) ∧
    (∃ (rows : List DailyTimetableEntry) (final : WdayCache × DailyTimetableState),
      runN (generate_daily_timetable_c H) 202
          (generate_daily_timetable_c_first_call today none none c)
        = some (rows.map Srf.next ++ [Srf.done], final) ∧
      rows.length = 201 ∧
      (∀ (k : Nat) (r : DailyTimetableEntry), rows[k]? = some r →
        r.date = today - 100 + (k : Int) ∧ r.ord = (k : Int) + 1)) := by
  have e1 : sub32 today 100 = today - 100 := wrap32_of_fits (by omega) (by omega)
  have e2 : add32 today 100 = today + 100 := wrap32_of_fits (by omega) (by omega)
  have hfc : ∀ sa ea : Option Int, generate_daily_timetable_c_first_call today sa ea c =
      generate_daily_timetable_c_first_call today (some (sa.getD (today - 100)))
        (some (ea.getD (today + 100))) c := by
    intro sa ea
    cases sa <;> cases ea <;>
      simp only [generate_daily_timetable_c_first_call, e1, e2, Option.getD_none,
        Option.getD_some]
  refine ⟨hfc start_arg end_arg, ?_, ?_⟩
  · intro hs he hle hfit
    rw [hfc start_arg end_arg]
    exact daily_run_rows H hmonth c today _ _ hs he hle hfit
  · have hcount : (today + 100 - (today - 100) + 1).toNat = 201 := by
      have : today + 100 - (today - 100) + 1 = 201 := by omega
      rw [this]; rfl
    obtain ⟨rows, final, hrun, hlen, hrows⟩ := daily_run_rows H hmonth c today
      (today - 100) (today + 100) ⟨by omega, by omega⟩ ⟨by omega, by omega⟩ (by omega)
      (by omega)
    rw [hcount] at hrun hlen
    have := hfc none none
    simp only [Option.getD_none] at this
    rw [← this] at hrun
    exact ⟨rows, final, hrun, hlen, hrows⟩

/-- Claim C15, the code at the failing input. With PostgreSQL as host and the
host clock on 2021-01-01 (`timestamp2tm` writes `tm_year = 2021`, `tm_mon = 1`,
`tm_mday = 1`), the date of the clock is day 7671 since 2000-01-01, but
`get_current_date()` returns 701662, which is 3921-02-01: it adds 1900 to a
year that is already the full year and 1 to a month that is already counted
from 1. With neither bound supplied the first-call block therefore sets the
bounds to 701562 and 701762, and the first row of the run is for 3920-10-24,
not for day `7671 - 100`. -/
theorem get_current_date_not_today :
    host_today pg ⟨2021, 1, 1⟩ = 7671 ∧
    get_current_date pg ⟨2021, 1, 1⟩ = 701662 ∧
    pg.j2date (701662 + pg.POSTGRES_EPOCH_JDATE) = ⟨3921, 2, 1⟩ ∧
    (generate_daily_timetable_c_first_call (get_current_date pg ⟨2021, 1, 1⟩) none none
      WdayCache.static_init).2.start_date = 701562 ∧
    (generate_daily_timetable_c_first_call (get_current_date pg ⟨2021, 1, 1⟩) none none
      WdayCache.static_init).2.end_date = 701762 ∧
    (generate_daily_timetable_c_first_call (get_current_date pg ⟨2021, 1, 1⟩) none none
      WdayCache.static_init).2.total_days = 201 ∧
    (runN (generate_daily_timetable_c pg) 1
        (generate_daily_timetable_c_first_call (get_current_date pg ⟨2021, 1, 1⟩) none none
          WdayCache.static_init)).map
        (fun p => p.1.map (fun o => match o with
          | Srf.next r => some (r.date, r.y, r.m, r.d, r.ord)
          | Srf.done => none))
      = some [some (701562, 3920, 10, 24, 1)] ∧
    (701562 : Int) ≠ 7671 - 100 :=
  ⟨by decide, by decide, by decide, by decide, by decide, by decide, rfl, by decide⟩

/-! ## Weeks start on Monday -/

/-- The week number in closed form, with the mathematical quotient, for a
day of the year from 1 on and as long as `day_of_year + w - 1` fits in 32
bits, `w` being the Monday-based weekday of January 1. -/
theorem get_calendar_week_eq (year d jw : Int) (hj0 : 0 ≤ jw) (hj6 : jw ≤ 6) (hd : 1 ≤ d)
    (hfit : d + (if jw = 0 then 6 else jw - 1) - 1 ≤ 2147483647) :
    get_calendar_week year d jw = (d + (if jw = 0 then 6 else jw - 1) - 1) / 7 + 1 := by
  unfold get_calendar_week
  simp only []
  have hw : (if jw = 0 then 6 else sub32 jw 1) = (if jw = 0 then 6 else jw - 1) := by
    by_cases h : jw = 0
    · rw [if_pos h, if_pos h]
    · rw [if_neg h, if_neg h]
      exact wrap32_of_fits (by omega) (by omega)
  rw [hw]
  generalize hwdef : (if jw = 0 then 6 else jw - 1) = w at hfit
  have hw0 : 0 ≤ w ∧ w ≤ 6 := by
    rw [← hwdef]; split <;> omega
  have e1 : sub32 (add32 d w) 1 = d + w - 1 := by
    have : sub32 (add32 d w) 1 = wrap32 (d + w - 1) := sub32_wrap32_left _ _
    rw [this]
    exact wrap32_of_fits (by omega) (by omega)
  rw [e1, Int.tdiv_eq_ediv (by omega) (by decide)]
  exact wrap32_of_fits (by omega) (by omega)

/-- Claim C19, amended. For every `jan1_weekday` in 0..6 with Monday-based
offset `w = (jan1_weekday = 0 ? 6 : jan1_weekday - 1)`, day 1 is in week 1, and
for every `day_of_year d ≥ 1` with `d + w ≤ 2^31 - 1` the week of day `d + 1`
is the week of day `d` plus 1 when day `d + 1` falls on a Monday
(`(d + w) mod 7 = 0`) and the week of day `d` otherwise; over these days the
week number is non-decreasing. -/
theorem weeks_start_on_monday (year d jw : Int) (hj0 : 0 ≤ jw) (hj6 : jw ≤ 6) (hd : 1 ≤ d)
    (hfit : d + (if jw = 0 then 6 else jw - 1) ≤ 2147483647) :
    get_calendar_week year 1 jw = 1 ∧
    ((d + (if jw = 0 then 6 else jw - 1)) % 7 = 0 →
      get_calendar_week year (d + 1) jw = get_calendar_week year d jw + 1) ∧
    ((d + (if jw = 0 then 6 else jw - 1)) % 7 ≠ 0 →
      get_calendar_week year (d + 1) jw = get_calendar_week year d jw) ∧
    (∀ d1 : Int, 1 ≤ d1 → d1 ≤ d + 1 →
      get_calendar_week year d1 jw ≤ get_calendar_week year (d + 1) jw) := by
  have hw0 : 0 ≤ (if jw = 0 then 6 else jw - 1) ∧ (if jw = 0 then 6 else jw - 1) ≤ 6 := by
    split <;> omega
  have e1 := get_calendar_week_eq year 1 jw hj0 hj6 (by decide) (by omega)
  have ed := get_calendar_week_eq year d jw hj0 hj6 hd (by omega)
  have ed1 := get_calendar_week_eq year (d + 1) jw hj0 hj6 (by omega) (by omega)
  have ex : ∀ d1 : Int, 1 ≤ d1 → d1 ≤ d + 1 →
      get_calendar_week year d1 jw = (d1 + (if jw = 0 then 6 else jw - 1) - 1) / 7 + 1 :=
    fun d1 h1 h2 => get_calendar_week_eq year d1 jw hj0 hj6 h1 (by omega)
  generalize (if jw = 0 then 6 else jw - 1) = w at hfit hw0 e1 ed ed1 ex ⊢
  refine ⟨?_, ?_, ?_, ?_⟩
  · rw [e1]; omega
  · intro hmon
    rw [ed, ed1]; omega
  · intro hnot
    rw [ed, ed1]; omega
  · intro d1 h1 h2
    rw [ex d1 h1 h2, ed1]
    omega

/-- Witness for C19, amended: in 2021, whose January 1 is a Friday
(`jan1_weekday = 5`), day 3 is a Sunday in week 1 and day 4 a Monday in
week 2. -/
theorem weeks_start_on_monday_witness :
    ((0 : Int) ≤ 5 ∧ (5 : Int) ≤ 6 ∧ (1 : Int) ≤ 3 ∧
      (3 : Int) + (if (5 : Int) = 0 then 6 else 5 - 1) ≤ 2147483647) ∧
    (get_calendar_week 2021 1 5 = 1 ∧
    (((3 : Int) + (if (5 : Int) = 0 then 6 else 5 - 1)) % 7 = 0 →
      get_calendar_week 2021 (3 + 1) 5 = get_calendar_week 2021 3 5 + 1) ∧
    (((3 : Int) + (if (5 : Int) = 0 then 6 else 5 - 1)) % 7 ≠ 0 →
      get_calendar_week 2021 (3 + 1) 5 = get_calendar_week 2021 3 5) ∧
    (∀ d1 : Int, 1 ≤ d1 → d1 ≤ 3 + 1 →
      get_calendar_week 2021 d1 5 ≤ get_calendar_week 2021 (3 + 1) 5)) ∧
    (get_calendar_week 2021 3 5 = 1 ∧ get_calendar_week 2021 4 5 = 2 ∧
      ((3 : Int) + (if (5 : Int) = 0 then 6 else 5 - 1)) % 7 = 0) :=
  ⟨by decide, weeks_start_on_monday 2021 3 5 (by decide) (by decide) (by decide) (by decide),
   by decide⟩

/-- Counterexample to C19: for `jan1_weekday = 0` (`w = 6`) and
`d = 2147483642`, day `d + 1` does not fall on a Monday
(`(d + 6) mod 7 = 2`), yet `get_calendar_week` returns `306783379` for day `d`
and `-306783377` for day `d + 1`: the sum `d + 1 + 6 - 1` does not fit in 32
bits. -/
theorem calendar_week_overflows :
    (1 : Int) ≤ 2147483642 ∧ isInt32 (2147483642 + 1) ∧
    ((2147483642 : Int) + (if (0 : Int) = 0 then 6 else 0 - 1)) % 7 = 2 ∧
    get_calendar_week 2021 2147483642 0 = 306783379 ∧
    get_calendar_week 2021 (2147483642 + 1) 0 = -306783377 := by
  decide

/-! ## The monthly cursor -/

/-- A 32-bit product by 12 is a multiple of 4, so it is at most `2^31 - 4`. -/
theorem mul32_twelve_le (x : Int) : mul32 x 12 ≤ 2147483644 := by
  unfold mul32 wrap32
  omega

/-- The invariant of the monthly cursor is kept by every call. -/
theorem monthly_cursor_step (start_year : Int) (s s1 : TimetableState) (o : Srf TimetableEntry)
    (hinv : s.total_months ≤ 2147483644 ∧ 0 ≤ s.months_processed ∧
      (s.months_processed ≤ s.total_months ∨ s.months_processed = 0) ∧
      s.ord_counter = s.months_processed + 1 ∧
      s.current_month = s.months_processed % 12 + 1 ∧
      s.current_year = wrap32 (start_year + s.months_processed / 12))
    (h : generate_timetable_c s = some (o, s1)) :
    s1.total_months ≤ 2147483644 ∧ 0 ≤ s1.months_processed ∧
      (s1.months_processed ≤ s1.total_months ∨ s1.months_processed = 0) ∧
      s1.ord_counter = s1.months_processed + 1 ∧
      s1.current_month = s1.months_processed % 12 + 1 ∧
      s1.current_year = wrap32 (start_year + s1.months_processed / 12) := by
  cases o with
  | done => rw [generate_timetable_c_done_inv s s1 h]; exact hinv
  | next r =>
    obtain ⟨ht, hp0, hpt, ho, hm, hy⟩ := hinv
    obtain ⟨hlt, -, -, htot, hmp, hord, hcm, hcy, -⟩ := generate_timetable_c_next_cursor s s1 r h
    have emp : add32 s.months_processed 1 = s.months_processed + 1 :=
      wrap32_of_fits (by omega) (by omega)
    have eord : add32 s.ord_counter 1 = s.months_processed + 2 := by
      rw [ho]
      have : add32 (s.months_processed + 1) 1 = wrap32 (s.months_processed + 2) := by
        unfold add32; congr 1; omega
      rw [this]
      exact wrap32_of_fits (by omega) (by omega)
    have ecm : add32 s.current_month 1 = s.current_month + 1 :=
      wrap32_of_fits (by omega) (by omega)
    rw [htot, hmp, hord, hcm, hcy, emp, eord, ecm]
    refine ⟨ht, by omega, Or.inl (by omega), by omega, ?_, ?_⟩
    · rw [hm]; split <;> omega
    · rw [hm, hy, add32_wrap32_left]
      split
      · congr 1; omega
      · congr 1; omega

/-- Claim C20. In every state reached from the initial monthly state (for a
32-bit `start_year`) by any number of calls, `current_month` is in 1..12,
`ord_counter = months_processed + 1` and
`current_month = (months_processed mod 12) + 1`, neither counter having
overflowed, and `current_year` is `start_year + months_processed div 12`
reduced to 32 bits, hence exactly that value when it has not overflowed;
therefore the reads `month_to_quarter[current_month]` and
`days_per_month[current_month]` are within the 13-entry tables and never at
index 0, and a call in that state never reads outside a table. -/
theorem monthly_cursor_invariant (start_year end_year : Int) (hs : isInt32 start_year)
    (n : Nat) (outs : List (Srf TimetableEntry)) (final : TimetableState)
    (hrun : runN generate_timetable_c n (generate_timetable_c_first_call start_year end_year)
      = some (outs, final)) :
    (1 ≤ final.current_month ∧ final.current_month ≤ 12) ∧
    (0 ≤ final.months_processed ∧ final.months_processed ≤ 2147483644) ∧
    final.ord_counter = final.months_processed + 1 ∧
    final.current_month = final.months_processed % 12 + 1 ∧
    final.current_year = wrap32 (start_year + final.months_processed / 12) ∧
    (start_year + final.months_processed / 12 ≤ 2147483647 →
      final.current_year = start_year + final.months_processed / 12) ∧
    (tableGet month_to_quarter final.current_month =
        some ((final.current_month - 1) / 3 + 1) ∧
      (∃ d, tableGet days_per_month final.current_month = some d ∧ 28 ≤ d ∧ d ≤ 31) ∧
      final.current_month.toNat ≠ 0 ∧ final.current_month.toNat < 13) ∧
    (∃ res, generate_timetable_c final = some res) := by
  have key := runN_outputs_inv generate_timetable_c
    (fun s => s.total_months ≤ 2147483644 ∧ 0 ≤ s.months_processed ∧
      (s.months_processed ≤ s.total_months ∨ s.months_processed = 0) ∧
      s.ord_counter = s.months_processed + 1 ∧
      s.current_month = s.months_processed % 12 + 1 ∧
      s.current_year = wrap32 (start_year + s.months_processed / 12))
    (fun _ => True)
    (fun s o s1 hinv h => ⟨trivial, monthly_cursor_step start_year s s1 o hinv h⟩)
    n (generate_timetable_c_first_call start_year end_year) outs final
    (by
      refine ⟨mul32_twelve_le _, ?_, Or.inr rfl, rfl, rfl, ?_⟩
      · show (0 : Int) ≤ 0
        omega
      · show start_year = wrap32 (start_year + 0 / 12)
        simp only [Int.zero_ediv, add_zero]
        exact (wrap32_of_fits hs.1 hs.2).symm)
    hrun
  obtain ⟨ht, hp0, hpt, ho, hm, hy⟩ := key.2
  have hm1 : 1 ≤ final.current_month := by omega
  have hm12 : final.current_month ≤ 12 := by omega
  refine ⟨⟨hm1, hm12⟩, ⟨hp0, by omega⟩, ho, hm, hy, ?_, ⟨?_, ?_, by omega, by omega⟩, ?_⟩
  · intro hfit
    rw [hy]
    exact wrap32_of_fits (by have := hs.1; omega) hfit
  · exact month_to_quarter_get _ hm1 hm12
  · generalize final.current_month = m at hm1 hm12
    interval_cases m <;> exact ⟨_, rfl, by decide, by decide⟩
  · by_cases hd : final.months_processed ≥ final.total_months
    · exact ⟨_, generate_timetable_c_exhausted final hd⟩
    · obtain ⟨days, -, hstep⟩ := generate_timetable_c_active final (by omega) hm1 hm12
      exact ⟨_, hstep⟩

/-- Witness for C20: the state reached by 13 calls from the initial state of
the run 2020..2021, with the cursor on February 2021. -/
theorem monthly_cursor_invariant_witness :
    (isInt32 2020 ∧
      runN generate_timetable_c 13 (generate_timetable_c_first_call 2020 2021) =
        some ([Srf.next ⟨20840, 2020, 1, 1, 31, 1⟩, Srf.next ⟨20841, 2020, 1, 2, 29, 2⟩,
               Srf.next ⟨20842, 2020, 1, 3, 31, 3⟩, Srf.next ⟨20843, 2020, 2, 4, 30, 4⟩,
               Srf.next ⟨20844, 2020, 2, 5, 31, 5⟩, Srf.next ⟨20845, 2020, 2, 6, 30, 6⟩,
               Srf.next ⟨20846, 2020, 3, 7, 31, 7⟩, Srf.next ⟨20847, 2020, 3, 8, 31, 8⟩,
               Srf.next ⟨20848, 2020, 3, 9, 30, 9⟩, Srf.next ⟨20849, 2020, 4, 10, 31, 10⟩,
               Srf.next ⟨20850, 2020, 4, 11, 30, 11⟩, Srf.next ⟨20851, 2020, 4, 12, 31, 12⟩,
               Srf.next ⟨20852, 2021, 1, 1, 31, 13⟩],
          { start_year := 2020, end_year := 2021, current_year := 2021, current_month := 2,
            ord_counter := 14, total_months := 24, months_processed := 13,
            current_entry := ⟨20852, 2021, 1, 1, 31, 13⟩, done := false })) ∧
    (((1 : Int) ≤ 2 ∧ (2 : Int) ≤ 12) ∧
    ((0 : Int) ≤ 13 ∧ (13 : Int) ≤ 2147483644) ∧
    (14 : Int) = 13 + 1 ∧
    (2 : Int) = 13 % 12 + 1 ∧
    (2021 : Int) = wrap32 (2020 + 13 / 12) ∧
    ((2020 : Int) + 13 / 12 ≤ 2147483647 → (2021 : Int) = 2020 + 13 / 12) ∧
    (tableGet month_to_quarter 2 = some (((2 : Int) - 1) / 3 + 1) ∧
      (∃ d, tableGet days_per_month 2 = some d ∧ 28 ≤ d ∧ d ≤ 31) ∧
      (2 : Int).toNat ≠ 0 ∧ (2 : Int).toNat < 13) ∧
    (∃ res, generate_timetable_c
        { start_year := 2020, end_year := 2021, current_year := 2021, current_month := 2,
          ord_counter := 14, total_months := 24, months_processed := 13,
          current_entry := ⟨20852, 2021, 1, 1, 31, 13⟩, done := false } = some res)) :=
  ⟨⟨by decide, by decide⟩,
   monthly_cursor_invariant 2020 2021 (by decide) 13 _ _ rfl⟩

end PgeTimetable
